import Mathlib

/-!
Verification of the bindcar configuration/protocol parsing and serialization
engine: a shallow embedding of the nom-based parsers in src/rndc_parser.rs and
src/rndc_conf_parser.rs, of the data model in src/rndc_types.rs and
src/rndc_conf_types.rs, and of the include resolver, together with theorems
settling the specification claims.

Inputs are lists of characters; a parser returns `none` on failure (nom's
`Err::Error`, which never consumes input) and otherwise the remaining input
together with the parsed value, exactly as nom's `IResult` does for the
`complete` combinators used by the source.
-/

namespace Bindcar

abbrev Input := List Char

abbrev Parser (α : Type) := Input → Option (Input × α)

/-- Character class of nom `multispace0` and `multispace1`: space, tab,
carriage return, line feed. -/
def isMultispace (c : Char) : Bool :=
  c = ' ' || c = '\t' || c = '\n' || c = '\r'

/-- nom `tag`: match a literal prefix. -/
def pTag (s : List Char) : Parser (List Char) := fun i =>
  if s.isPrefixOf i then some (i.drop s.length, s) else none

/-- nom `char`: match one given character. -/
def pChar (c : Char) : Parser Char := fun i =>
  match i with
  | [] => none
  | x :: rest => if x = c then some (rest, c) else none

/-- nom `take_while`: longest (possibly empty) prefix satisfying the predicate. -/
def pTakeWhile (p : Char → Bool) : Parser (List Char) := fun i =>
  some (i.dropWhile p, i.takeWhile p)

/-- nom `take_while1`: longest prefix satisfying the predicate, at least one
character. -/
def pTakeWhile1 (p : Char → Bool) : Parser (List Char) := fun i =>
  match i with
  | [] => none
  | x :: _ => if p x then some (i.dropWhile p, i.takeWhile p) else none

/-- Helper for `pTakeUntil`: split the input at the first occurrence of the
pattern, returning the part before it and the rest starting with the pattern. -/
def splitAtSub (pat : List Char) : Input → Option (List Char × Input)
  | [] => if pat.isPrefixOf ([] : List Char) then some ([], []) else none
  | x :: rest =>
    if pat.isPrefixOf (x :: rest) then some ([], x :: rest)
    else
      match splitAtSub pat rest with
      | some (pre, post) => some (x :: pre, post)
      | none => none

/-- nom `take_until`: consume up to (not including) the first occurrence of the
pattern; fail when the pattern does not occur. -/
def pTakeUntil (pat : List Char) : Parser (List Char) := fun i =>
  match splitAtSub pat i with
  | some (pre, post) => some (post, pre)
  | none => none

/-- nom `opt`. -/
def pOpt (f : Parser α) : Parser (Option α) := fun i =>
  match f i with
  | some (r, a) => some (r, some a)
  | none => some (i, none)

/-- nom `alt` of two alternatives (nested for more). -/
def pAlt (f g : Parser α) : Parser α := fun i =>
  match f i with
  | some r => some r
  | none => g i

/-- nom `map`. -/
def pMap (f : Parser α) (g : α → β) : Parser β := fun i =>
  match f i with
  | some (r, a) => some (r, g a)
  | none => none

/-- nom `value`. -/
def pValue (b : β) (f : Parser α) : Parser β := pMap f (fun _ => b)

/-- Sequencing: run `f`, then `g` on the rest, keeping both results. -/
def pSeq (f : Parser α) (g : Parser β) : Parser (α × β) := fun i =>
  match f i with
  | some (r, a) =>
    match g r with
    | some (r2, b) => some (r2, (a, b))
    | none => none
  | none => none

/-- nom `preceded`. -/
def pPreceded (f : Parser α) (g : Parser β) : Parser β :=
  pMap (pSeq f g) Prod.snd

/-- nom `terminated`. -/
def pTerminated (f : Parser α) (g : Parser β) : Parser α :=
  pMap (pSeq f g) Prod.fst

/-- nom `delimited`. -/
def pDelimited (l : Parser α) (f : Parser β) (r : Parser γ) : Parser β :=
  pMap (pSeq l (pSeq f r)) (fun x => x.2.1)

/-- nom `recognize`: return the consumed slice instead of the value. -/
def pRecognize (f : Parser α) : Parser (List Char) := fun i =>
  match f i with
  | some (r, _) => some (r, i.take (i.length - r.length))
  | none => none

/-- Fuel-driven body of nom `many0`.  nom stops on the first failure of the
inner parser and (as an infinite-loop guard) fails the whole `many0` when the
inner parser succeeds without consuming input; the guard here is the
`i2.length < i.length` test. -/
def pMany0Go (f : Parser α) : Nat → Parser (List α)
  | 0 => fun _ => none
  | fuel + 1 => fun i =>
    match f i with
    | none => some (i, [])
    | some (i2, a) =>
      if i2.length < i.length then
        match pMany0Go f fuel i2 with
        | some (r, as) => some (r, a :: as)
        | none => none
      else none

/-- nom `many0`. -/
def pMany0 (f : Parser α) : Parser (List α) := fun i =>
  pMany0Go f (i.length + 1) i

/-- Fuel-driven body of nom `separated_list0`. -/
def pSepList0Go (sep : Parser σ) (f : Parser α) : Nat → Parser (List α)
  | 0 => fun _ => none
  | fuel + 1 => fun i =>
    match pSeq sep f i with
    | none => some (i, [])
    | some (i2, (_, a)) =>
      if i2.length < i.length then
        match pSepList0Go sep f fuel i2 with
        | some (r, as) => some (r, a :: as)
        | none => none
      else none

/-- Run a parser, then validate/convert its value; a `none` from the
conversion fails the parse without consuming (the pattern of nom `map_opt`
and of `?`-style early returns after a successful sub-parse). -/
def pFilterMap (f : Parser α) (g : α → Option β) : Parser β := fun i =>
  match f i with
  | some (r, a) =>
    match g a with
    | some b => some (r, b)
    | none => none
  | none => none

/-- nom `separated_list0`: a possibly empty list of items separated by `sep`. -/
def pSepList0 (sep : Parser σ) (f : Parser α) : Parser (List α) := fun i =>
  match f i with
  | none => some (i, [])
  | some (i2, a) =>
    if i2.length < i.length then
      match pSepList0Go sep f (i2.length + 1) i2 with
      | some (r, as) => some (r, a :: as)
      | none => none
    else none

/-- Model of `HashMap::insert` on an association list: replace the existing
binding for the key, otherwise append a new one. -/
def hmInsert [DecidableEq α] (k : α) (v : β) : List (α × β) → List (α × β)
  | [] => [(k, v)]
  | (k2, v2) :: rest => if k2 = k then (k, v) :: rest else (k2, v2) :: hmInsert k v rest

/-- Model of `HashMap::get` on an association list. -/
def hmGet [DecidableEq α] (k : α) : List (α × β) → Option β
  | [] => none
  | (k2, v2) :: rest => if k2 = k then some v2 else hmGet k rest

/-- Model of `HashMap::entry(k).or_insert(v)`: keep the existing binding,
insert only when absent. -/
def hmOrInsert [DecidableEq α] (k : α) (v : β) (m : List (α × β)) : List (α × β) :=
  match hmGet k m with
  | some _ => m
  | none => m ++ [(k, v)]

/-! ## IP address model

The source stores addresses as `std::net::IpAddr` and converts text to and
from them with `str::parse::<IpAddr>()` and `IpAddr::to_string()`.  The
definitions below model the Rust standard library parser
(`core::net::parser`) and `Display` implementation for `IpAddr`, which the
repository relies on but does not itself define. -/

inductive IpAddr where
  | v4 (a b c d : Nat)
  | v6 (a b c d e f g h : Nat)
deriving DecidableEq, Repr

def decDigitVal (c : Char) : Option Nat :=
  if c.isDigit then some (c.toNat - '0'.toNat) else none

def hexDigitVal (c : Char) : Option Nat :=
  if c.isDigit then some (c.toNat - '0'.toNat)
  else if c.toNat ≥ 97 && c.toNat ≤ 102 then some (c.toNat - 87)
  else if c.toNat ≥ 65 && c.toNat ≤ 70 then some (c.toNat - 55)
  else none

/-- Model of the Rust std `Parser::read_number`: consume every consecutive
digit of the radix, then fail when no digit was read, when the count exceeds
`maxDigits`, when a disallowed leading zero is present, or when the value
overflows the target type (whose maximum is `maxVal`). -/
def readNumber (digVal : Char → Option Nat) (radix : Nat) (maxDigits : Option Nat)
    (maxVal : Nat) (allowZeroPrefix : Bool) : Parser Nat := fun i =>
  let ds := i.takeWhile (fun c => (digVal c).isSome)
  let rest := i.dropWhile (fun c => (digVal c).isSome)
  if ds.length = 0 then none
  else if (match maxDigits with
    | some m => decide (m < ds.length)
    | none => false) then none
  else if !allowZeroPrefix && ds.head? = some '0' && 1 < ds.length then none
  else
    let v := ds.foldl (fun acc c => acc * radix + (digVal c).getD 0) 0
    if v ≤ maxVal then some (rest, v) else none

/-- Model of std `Parser::read_separator`: groups after the first one require
the separator character in front. -/
def readSep (c : Char) (idx : Nat) (p : Parser α) : Parser α := fun i =>
  if idx = 0 then p i
  else
    match i with
    | x :: rest => if x = c then p rest else none
    | [] => none

/-- Model of std `Parser::read_ipv4_addr`: four octets, each one to three
decimal digits without a leading zero, separated by dots. -/
def readIpv4 : Parser (Nat × Nat × Nat × Nat) := fun i =>
  match readSep '.' 0 (readNumber decDigitVal 10 (some 3) 255 false) i with
  | none => none
  | some (i1, a) =>
    match readSep '.' 1 (readNumber decDigitVal 10 (some 3) 255 false) i1 with
    | none => none
    | some (i2, b) =>
      match readSep '.' 2 (readNumber decDigitVal 10 (some 3) 255 false) i2 with
      | none => none
      | some (i3, c) =>
        match readSep '.' 3 (readNumber decDigitVal 10 (some 3) 255 false) i3 with
        | none => none
        | some (i4, d) => some (i4, (a, b, c, d))

/-- Model of std `read_groups` inside `Parser::read_ipv6_addr`: read up to
`limit` colon-separated 16-bit hex groups, allowing a trailing embedded IPv4
address when at least two slots remain; the Bool records whether the embedded
IPv4 form ended the run. -/
def readIpv6Groups : Nat → Nat → Parser (List Nat × Bool)
  | 0, _ => fun i => some (i, ([], false))
  | limit + 1, idx => fun i =>
    let v4try : Option (Input × (List Nat × Bool)) :=
      if 1 ≤ limit then
        match readSep ':' idx readIpv4 i with
        | some (r, (a, b, c, d)) => some (r, ([a * 256 + b, c * 256 + d], true))
        | none => none
      else none
    match v4try with
    | some res => some res
    | none =>
      match readSep ':' idx (readNumber hexDigitVal 16 (some 4) 65535 true) i with
      | none => some (i, ([], false))
      | some (r, g) =>
        match readIpv6Groups limit (idx + 1) r with
        | some (r2, (gs, b)) => some (r2, (g :: gs, b))
        | none => none

/-- Model of std `Parser::read_ipv6_addr`: head groups, then a `::` gap
covering at least one zero group, then tail groups. -/
def readIpv6 : Parser (List Nat) := fun i =>
  match readIpv6Groups 8 0 i with
  | none => none
  | some (r, (head, headV4)) =>
    if head.length = 8 then some (r, head)
    else if headV4 then none
    else
      match r with
      | ':' :: ':' :: r2 =>
        match readIpv6Groups (7 - head.length) 0 r2 with
        | none => none
        | some (r3, (tail, _)) =>
          some (r3, head ++ List.replicate (8 - head.length - tail.length) 0 ++ tail)
      | _ => none

/-- Model of `Ipv4Addr::from_str` (whole-string parse). -/
def rustParseIpv4 (s : List Char) : Option IpAddr :=
  match readIpv4 s with
  | some ([], (a, b, c, d)) => some (.v4 a b c d)
  | _ => none

/-- Model of `Ipv6Addr::from_str` (whole-string parse). -/
def rustParseIpv6 (s : List Char) : Option IpAddr :=
  match readIpv6 s with
  | some ([], [a, b, c, d, e, f, g, h]) => some (.v6 a b c d e f g h)
  | _ => none

/-- Model of `IpAddr::from_str`: IPv4 first, then IPv6. -/
def rustParseIp (s : List Char) : Option IpAddr :=
  match rustParseIpv4 s with
  | some a => some a
  | none => rustParseIpv6 s

/-- Fuel-driven digit rendering in a given base, most significant first. -/
def natToBaseGo (base : Nat) : Nat → Nat → List Char
  | 0, _ => []
  | fuel + 1, n =>
    if n < base then [Nat.digitChar n]
    else natToBaseGo base fuel (n / base) ++ [Nat.digitChar (n % base)]

/-- Decimal rendering of a natural number, as Rust `Display` for `u8`. -/
def natToDec (n : Nat) : List Char := natToBaseGo 10 (n + 1) n

/-- Lowercase hexadecimal rendering, as Rust `{:x}` for `u16`. -/
def natToHex (n : Nat) : List Char := natToBaseGo 16 (n + 1) n

/-- The longest run of zero groups (earliest wins ties), as computed by the
Rust `Display` implementation for `Ipv6Addr`. -/
def zeroRunGo : List Nat → Nat → Nat × Nat → Nat × Nat → Nat × Nat
  | [], _, _, best => best
  | x :: rest, i, cur, best =>
    if x = 0 then
      let curStart := if cur.2 = 0 then i else cur.1
      let cur2 := (curStart, cur.2 + 1)
      let best2 := if best.2 < cur2.2 then cur2 else best
      zeroRunGo rest (i + 1) cur2 best2
    else zeroRunGo rest (i + 1) (0, 0) best

/-- Rust slice `join`: elements interleaved with the separator. -/
def joinSep (sep : List Char) : List (List Char) → List Char
  | [] => []
  | [x] => x
  | x :: y :: t => x ++ sep ++ joinSep sep (y :: t)

def hexGroups (g : List Nat) : List Char :=
  joinSep [':'] (g.map natToHex)

/-- Model of the Rust `Display` implementation for `Ipv6Addr` (default
formatting): special cases for the unspecified address, loopback and
IPv4-mapped addresses, otherwise compression of the longest zero run when it
has length at least two. -/
def v6Display (g : List Nat) : List Char :=
  if g = [0, 0, 0, 0, 0, 0, 0, 0] then [':', ':']
  else if g = [0, 0, 0, 0, 0, 0, 0, 1] then [':', ':', '1']
  else
    match g with
    | [0, 0, 0, 0, 0, 65535, s6, s7] =>
      [':', ':', 'f', 'f', 'f', 'f', ':'] ++ natToDec (s6 / 256) ++ '.' :: natToDec (s6 % 256)
        ++ '.' :: natToDec (s7 / 256) ++ '.' :: natToDec (s7 % 256)
    | _ =>
      let best := zeroRunGo g 0 (0, 0) (0, 0)
      if 1 < best.2 then
        hexGroups (g.take best.1) ++ ([':', ':'] ++ hexGroups (g.drop (best.1 + best.2)))
      else hexGroups g

/-- Model of `IpAddr::to_string` via the std `Display` implementations. -/
def ipToChars : IpAddr → List Char
  | .v4 a b c d =>
    natToDec a ++ '.' :: natToDec b ++ '.' :: natToDec c ++ '.' :: natToDec d
  | .v6 a b c d e f g h => v6Display [a, b, c, d, e, f, g, h]

/-- An address whose textual form parses back to itself; all addresses
produced by the parsers satisfy this, and it is decidable so witnesses can
check it on concrete addresses. -/
def ipRoundTrips (a : IpAddr) : Bool :=
  rustParseIp (ipToChars a) = some a

/-- The numeric value of a decimal digit string. -/
def decDigitsVal (s : List Char) : Nat :=
  s.foldl (fun acc c => acc * 10 + (c.toNat - '0'.toNat)) 0

/-- Rust `str::parse::<u16>().ok()` on a digit string: the value when it fits
in sixteen bits, `none` on overflow. -/
def u16FromDigits (s : List Char) : Option Nat :=
  if decDigitsVal s ≤ 65535 then some (decDigitsVal s) else none

/-- Whether `pat` occurs as a contiguous substring, via the same search as
nom `take_until`. -/
def containsSub (pat s : List Char) : Bool :=
  (splitAtSub pat s).isSome

/-! ## Zone configuration data model (src/rndc_types.rs)

Rust `String` values are modelled as `List Char`; the `HashMap` for
`raw_options` is modelled as an association list in which `insert` replaces
an existing binding, and the serializer iterates it in list order (the Rust
iteration order is unspecified). -/

inductive DnsClass where
  | IN | CH | HS
deriving DecidableEq, Repr

def DnsClass.as_str : DnsClass → List Char
  | .IN => "IN".data
  | .CH => "CH".data
  | .HS => "HS".data

inductive ZoneType where
  | Primary | Secondary | Stub | Forward | Hint | Mirror | Delegation | Redirect
deriving DecidableEq, Repr

def ZoneType.as_str : ZoneType → List Char
  | .Primary => "primary".data
  | .Secondary => "secondary".data
  | .Stub => "stub".data
  | .Forward => "forward".data
  | .Hint => "hint".data
  | .Mirror => "mirror".data
  | .Delegation => "delegation-only".data
  | .Redirect => "redirect".data

/-- `ZoneType::parse`: accepts both new and old terminology. -/
def ZoneType.parse (s : List Char) : Option ZoneType :=
  if s = "primary".data || s = "master".data then some .Primary
  else if s = "secondary".data || s = "slave".data then some .Secondary
  else if s = "stub".data then some .Stub
  else if s = "forward".data then some .Forward
  else if s = "hint".data then some .Hint
  else if s = "mirror".data then some .Mirror
  else if s = "delegation-only".data then some .Delegation
  else if s = "redirect".data then some .Redirect
  else none

structure PrimarySpec where
  address : IpAddr
  port : Option Nat
deriving DecidableEq, Repr

structure ForwarderSpec where
  address : IpAddr
  port : Option Nat
  tls_config : Option (List Char)
deriving DecidableEq, Repr

inductive NotifyMode where
  | Yes | No | Explicit | MasterOnly | PrimaryOnly
deriving DecidableEq, Repr

def NotifyMode.as_str : NotifyMode → List Char
  | .Yes => "yes".data
  | .No => "no".data
  | .Explicit => "explicit".data
  | .MasterOnly => "master-only".data
  | .PrimaryOnly => "primary-only".data

inductive ForwardMode where
  | Only | First
deriving DecidableEq, Repr

def ForwardMode.as_str : ForwardMode → List Char
  | .Only => "only".data
  | .First => "first".data

inductive AutoDnssecMode where
  | Off | Maintain | Create
deriving DecidableEq, Repr

def AutoDnssecMode.as_str : AutoDnssecMode → List Char
  | .Off => "off".data
  | .Maintain => "maintain".data
  | .Create => "create".data

inductive CheckNamesMode where
  | Fail | Warn | Ignore
deriving DecidableEq, Repr

def CheckNamesMode.as_str : CheckNamesMode → List Char
  | .Fail => "fail".data
  | .Warn => "warn".data
  | .Ignore => "ignore".data

inductive MasterfileFormat where
  | Text | Raw | Map
deriving DecidableEq, Repr

def MasterfileFormat.as_str : MasterfileFormat → List Char
  | .Text => "text".data
  | .Raw => "raw".data
  | .Map => "map".data

/-- Zone configuration from `rndc showzone` (src/rndc_types.rs). -/
@[ext]
structure ZoneConfig where
  zone_name : List Char
  class_ : DnsClass
  zone_type : ZoneType
  file : Option (List Char)
  primaries : Option (List PrimarySpec)
  also_notify : Option (List IpAddr)
  notify : Option NotifyMode
  allow_query : Option (List IpAddr)
  allow_transfer : Option (List IpAddr)
  allow_update : Option (List IpAddr)
  allow_update_raw : Option (List Char)
  allow_update_forwarding : Option (List IpAddr)
  allow_notify : Option (List IpAddr)
  max_transfer_time_in : Option Nat
  max_transfer_time_out : Option Nat
  max_transfer_idle_in : Option Nat
  max_transfer_idle_out : Option Nat
  transfer_source : Option IpAddr
  transfer_source_v6 : Option IpAddr
  notify_source : Option IpAddr
  notify_source_v6 : Option IpAddr
  update_policy : Option (List Char)
  journal : Option (List Char)
  ixfr_from_differences : Option Bool
  inline_signing : Option Bool
  auto_dnssec : Option AutoDnssecMode
  key_directory : Option (List Char)
  sig_validity_interval : Option Nat
  dnskey_sig_validity : Option Nat
  forward : Option ForwardMode
  forwarders : Option (List ForwarderSpec)
  check_names : Option CheckNamesMode
  check_mx : Option CheckNamesMode
  check_integrity : Option Bool
  masterfile_format : Option MasterfileFormat
  max_zone_ttl : Option Nat
  max_refresh_time : Option Nat
  min_refresh_time : Option Nat
  max_retry_time : Option Nat
  min_retry_time : Option Nat
  multi_master : Option Bool
  request_ixfr : Option Bool
  request_expire : Option Bool
  raw_options : List (List Char × List Char)
deriving DecidableEq, Repr

/-- `ZoneConfig::new`: every optional field absent, class defaulting to IN. -/
def ZoneConfig.new (zone_name : List Char) (zone_type : ZoneType) : ZoneConfig where
  zone_name := zone_name
  class_ := .IN
  zone_type := zone_type
  file := none
  primaries := none
  also_notify := none
  notify := none
  allow_query := none
  allow_transfer := none
  allow_update := none
  allow_update_raw := none
  allow_update_forwarding := none
  allow_notify := none
  max_transfer_time_in := none
  max_transfer_time_out := none
  max_transfer_idle_in := none
  max_transfer_idle_out := none
  transfer_source := none
  transfer_source_v6 := none
  notify_source := none
  notify_source_v6 := none
  update_policy := none
  journal := none
  ixfr_from_differences := none
  inline_signing := none
  auto_dnssec := none
  key_directory := none
  sig_validity_interval := none
  dnskey_sig_validity := none
  forward := none
  forwarders := none
  check_names := none
  check_mx := none
  check_integrity := none
  masterfile_format := none
  max_zone_ttl := none
  max_refresh_time := none
  min_refresh_time := none
  max_retry_time := none
  min_retry_time := none
  multi_master := none
  request_ixfr := none
  request_expire := none
  raw_options := []

/-! ### Serializer `ZoneConfig::to_rndc_block` -/

/-- Drop matching characters from the end of a list, as Rust
`str::trim_end_matches` and `str::trim_end`. -/
def dropWhileEnd (p : Char → Bool) (s : List Char) : List Char :=
  (s.reverse.dropWhile p).reverse

/-- Rust `str::trim`: whitespace stripped from both ends. -/
def trimChars (s : List Char) : List Char :=
  dropWhileEnd isMultispace (s.dropWhile isMultispace)

/-- The `raw.trim_end().trim_end_matches(';').trim()` pipeline the serializer
applies to every raw-text value. -/
def stripRawValue (s : List Char) : List Char :=
  trimChars (dropWhileEnd (fun c => c = ';') (dropWhileEnd isMultispace s))

def boolYesNo (b : Bool) : List Char :=
  if b then "yes".data else "no".data

def primarySpecChars (p : PrimarySpec) : List Char :=
  ipToChars p.address ++
    (match p.port with
     | some pt => " port ".data ++ natToDec pt
     | none => [])

def forwarderSpecChars (f : ForwarderSpec) : List Char :=
  match f.tls_config with
  | some tls => ipToChars f.address ++ " tls ".data ++ tls
  | none =>
    match f.port with
    | some pt => ipToChars f.address ++ " port ".data ++ natToDec pt
    | none => ipToChars f.address

/-- A `name { a; b; }` part built from a list of renderings. -/
def bracePart (name : List Char) (items : List (List Char)) : List Char :=
  name ++ " \x7b ".data ++ joinSep "; ".data items ++ "; \x7d".data

/-- A guarded IP-list part: emitted only when the optional list is present and
non-empty, exactly as in the source. -/
def ipListParts (name : List Char) (o : Option (List IpAddr)) : List (List Char) :=
  match o with
  | some l => if l.isEmpty then [] else [bracePart name (l.map ipToChars)]
  | none => []

/-- The allow-update part of the serializer: the raw directive is preferred
when present, otherwise the typed IP list when non-empty, otherwise nothing. -/
def allowUpdatePart (cfg : ZoneConfig) : Option (List Char) :=
  match cfg.allow_update_raw with
  | some raw => some ("allow-update ".data ++ stripRawValue raw)
  | none =>
    match cfg.allow_update with
    | some l =>
      if l.isEmpty then none
      else some (bracePart "allow-update".data (l.map ipToChars))
    | none => none

def optPart (o : Option α) (f : α → List Char) : List (List Char) :=
  match o with
  | some x => [f x]
  | none => []

def quotedField (name : List Char) (v : List Char) : List Char :=
  name ++ ' ' :: '"' :: v ++ ['"']

def numField (name : List Char) (v : Nat) : List Char :=
  name ++ ' ' :: natToDec v

def boolField (name : List Char) (v : Bool) : List Char :=
  name ++ ' ' :: boolYesNo v

/-- The ordered list of `parts` assembled by `ZoneConfig::to_rndc_block`. -/
def toRndcParts (cfg : ZoneConfig) : List (List Char) :=
  ["type ".data ++ cfg.zone_type.as_str]
  ++ optPart cfg.file (quotedField "file".data)
  ++ (match cfg.primaries with
      | some l => if l.isEmpty then [] else [bracePart "primaries".data (l.map primarySpecChars)]
      | none => [])
  ++ ipListParts "also-notify".data cfg.also_notify
  ++ optPart cfg.notify (fun m => "notify ".data ++ m.as_str)
  ++ ipListParts "allow-query".data cfg.allow_query
  ++ ipListParts "allow-transfer".data cfg.allow_transfer
  ++ (allowUpdatePart cfg).toList
  ++ ipListParts "allow-update-forwarding".data cfg.allow_update_forwarding
  ++ ipListParts "allow-notify".data cfg.allow_notify
  ++ optPart cfg.max_transfer_time_in (numField "max-transfer-time-in".data)
  ++ optPart cfg.max_transfer_time_out (numField "max-transfer-time-out".data)
  ++ optPart cfg.max_transfer_idle_in (numField "max-transfer-idle-in".data)
  ++ optPart cfg.max_transfer_idle_out (numField "max-transfer-idle-out".data)
  ++ optPart cfg.transfer_source (fun ip => "transfer-source ".data ++ ipToChars ip)
  ++ optPart cfg.transfer_source_v6 (fun ip => "transfer-source-v6 ".data ++ ipToChars ip)
  ++ optPart cfg.notify_source (fun ip => "notify-source ".data ++ ipToChars ip)
  ++ optPart cfg.notify_source_v6 (fun ip => "notify-source-v6 ".data ++ ipToChars ip)
  ++ optPart cfg.update_policy (fun p => "update-policy ".data ++ stripRawValue p)
  ++ optPart cfg.journal (quotedField "journal".data)
  ++ optPart cfg.ixfr_from_differences (boolField "ixfr-from-differences".data)
  ++ optPart cfg.inline_signing (boolField "inline-signing".data)
  ++ optPart cfg.auto_dnssec (fun m => "auto-dnssec ".data ++ m.as_str)
  ++ optPart cfg.key_directory (quotedField "key-directory".data)
  ++ optPart cfg.sig_validity_interval (numField "sig-validity-interval".data)
  ++ optPart cfg.dnskey_sig_validity (numField "dnskey-sig-validity".data)
  ++ optPart cfg.forward (fun m => "forward ".data ++ m.as_str)
  ++ (match cfg.forwarders with
      | some l => if l.isEmpty then [] else [bracePart "forwarders".data (l.map forwarderSpecChars)]
      | none => [])
  ++ optPart cfg.check_names (fun m => "check-names ".data ++ m.as_str)
  ++ optPart cfg.check_mx (fun m => "check-mx ".data ++ m.as_str)
  ++ optPart cfg.check_integrity (boolField "check-integrity".data)
  ++ optPart cfg.masterfile_format (fun m => "masterfile-format ".data ++ m.as_str)
  ++ optPart cfg.max_zone_ttl (numField "max-zone-ttl".data)
  ++ optPart cfg.max_refresh_time (numField "max-refresh-time".data)
  ++ optPart cfg.min_refresh_time (numField "min-refresh-time".data)
  ++ optPart cfg.max_retry_time (numField "max-retry-time".data)
  ++ optPart cfg.min_retry_time (numField "min-retry-time".data)
  ++ optPart cfg.multi_master (boolField "multi-master".data)
  ++ optPart cfg.request_ixfr (boolField "request-ixfr".data)
  ++ optPart cfg.request_expire (boolField "request-expire".data)
  ++ cfg.raw_options.map (fun kv => kv.1 ++ ' ' :: stripRawValue kv.2)

/-- `ZoneConfig::to_rndc_block`. -/
def ZoneConfig.to_rndc_block (cfg : ZoneConfig) : List Char :=
  "\x7b ".data ++ joinSep "; ".data (toRndcParts cfg) ++ "; \x7d;".data

/-! ## RNDC showzone output parser (src/rndc_parser.rs)

`char::is_alphanumeric` and `char::is_numeric` are approximated by their
ASCII restrictions, which is exact on every input the grammar produces. -/

namespace Rndc

def multispace0 : Parser (List Char) := pTakeWhile isMultispace

/-- `ws`: skip plain whitespace around a parser (this module has no comment
handling). -/
def ws (f : Parser α) : Parser α :=
  pDelimited multispace0 f multispace0

def semicolon : Parser Char := ws (pChar ';')

/-- `quoted_string`: everything up to the next double quote, no escapes. -/
def quoted_string : Parser (List Char) :=
  pDelimited (pChar '"') (pTakeUntil ['"']) (pChar '"')

def isIdentChar (c : Char) : Bool :=
  c.isAlphanum || c = '_' || c = '-'

def identifier : Parser (List Char) := pTakeWhile1 isIdentChar

def isIpChar (c : Char) : Bool :=
  (hexDigitVal c).isSome || c = '.' || c = ':'

/-- `ip_addr`: longest run of hex digits, dots and colons, parsed as an
address, with an optional consumed-and-discarded `/<digits>` CIDR suffix. -/
def ip_addr : Parser IpAddr :=
  pTerminated (pFilterMap (pTakeWhile1 isIpChar) rustParseIp)
    (pOpt (pPreceded (pChar '/') (pTakeWhile1 Char.isDigit)))

/-- `ip_with_port`: an address with an optional `port <digits>` suffix. -/
def ip_with_port : Parser PrimarySpec :=
  pMap (pSeq (ws ip_addr)
      (pOpt (pPreceded (ws (pTag "port".data)) (pMap (pTakeWhile1 Char.isDigit) u16FromDigits))))
    (fun x => ⟨x.1, x.2.join⟩)

def ip_list : Parser (List IpAddr) :=
  pDelimited (ws (pChar '{')) (pMany0 (pTerminated (ws ip_addr) semicolon)) (ws (pChar '}'))

def primary_list : Parser (List PrimarySpec) :=
  pDelimited (ws (pChar '{')) (pMany0 (pTerminated ip_with_port semicolon)) (ws (pChar '}'))

/-- Statement types within a zone configuration; only the variants the
statement parsers actually construct are included (the Rust enum declares
many more behind `allow(dead_code)`). -/
inductive ZoneStatement where
  | Type (t : ZoneType)
  | File (f : List Char)
  | Primaries (p : List PrimarySpec)
  | AlsoNotify (a : List IpAddr)
  | AllowTransfer (a : List IpAddr)
  | AllowUpdate (a : List IpAddr)
  | AllowUpdateRaw (raw : List Char)
  | Unknown (name : List Char) (raw : List Char)
deriving DecidableEq, Repr

def parse_type_statement : Parser ZoneStatement :=
  pFilterMap (pSeq (ws (pTag "type".data)) (pSeq (ws identifier) semicolon))
    (fun x => (ZoneType.parse x.2.1).map ZoneStatement.Type)

def parse_file_statement : Parser ZoneStatement :=
  pMap (pSeq (ws (pTag "file".data)) (pSeq (ws quoted_string) semicolon))
    (fun x => .File x.2.1)

/-- Handles both the modern `primaries` and the legacy `masters` keyword. -/
def parse_primaries_statement : Parser ZoneStatement :=
  pMap (pSeq (ws (pAlt (pTag "primaries".data) (pTag "masters".data)))
      (pSeq primary_list semicolon))
    (fun x => .Primaries x.2.1)

def parse_also_notify_statement : Parser ZoneStatement :=
  pMap (pSeq (ws (pTag "also-notify".data)) (pSeq ip_list semicolon))
    (fun x => .AlsoNotify x.2.1)

def parse_allow_transfer_statement : Parser ZoneStatement :=
  pMap (pSeq (ws (pTag "allow-transfer".data)) (pSeq ip_list semicolon))
    (fun x => .AllowTransfer x.2.1)

/-- The statement-body loop of `parse_allow_update_statement`, collecting the
IP entries and whether any `key` reference was seen; fuel bounds the loop,
which consumes at least one character per iteration. -/
def allowUpdateLoop : Nat → Input → Option (Input × (List IpAddr × Bool))
  | 0, _ => none
  | fuel + 1, remaining =>
    let i1 := remaining.dropWhile isMultispace
    match pChar '}' i1 with
    | some (i2, _) => some (i2, ([], false))
    | none =>
      match ws (pTag "key".data) i1 with
      | some (i2, _) =>
        match pTakeUntil [';'] i2 with
        | none => none
        | some (i3, _) =>
          match pChar ';' i3 with
          | none => none
          | some (i4, _) =>
            match allowUpdateLoop fuel i4 with
            | some (r, (addrs, _)) => some (r, (addrs, true))
            | none => none
      | none =>
        match ip_addr i1 with
        | some (i2, addr) =>
          match semicolon i2 with
          | none => none
          | some (i3, _) =>
            match allowUpdateLoop fuel i3 with
            | some (r, (addrs, hk)) => some (r, (addr :: addrs, hk))
            | none => none
        | none =>
          match pTakeUntil [';'] i1 with
          | none => none
          | some (i3, _) =>
            match pChar ';' i3 with
            | none => none
            | some (i4, _) => allowUpdateLoop fuel i4

/-- `parse_allow_update_statement`: scans the braced body for IP entries and
key references; if any key reference occurs, the whole raw directive text
(from the opening brace through the terminating semicolon as consumed) is
captured instead of the typed list. -/
def parse_allow_update_statement : Parser ZoneStatement := fun i =>
  match ws (pTag "allow-update".data) i with
  | none => none
  | some (start_input, _) =>
    match ws (pChar '{') start_input with
    | none => none
    | some (i1, _) =>
      match allowUpdateLoop (i1.length + 1) i1 with
      | none => none
      | some (remaining, (addrs, has_key_ref)) =>
        match semicolon remaining with
        | none => none
        | some (input, _) =>
          if has_key_ref then
            let raw_len := start_input.length - input.length
            some (input, .AllowUpdateRaw (start_input.take raw_len))
          else some (input, .AllowUpdate addrs)

/-- `parse_unknown_statement`: generic `name value;` or `name { ... };`
capture with the raw value trimmed. -/
def parse_unknown_statement : Parser ZoneStatement := fun i =>
  match ws identifier i with
  | none => none
  | some (start_input, option_name) =>
    match pAlt (pDelimited (ws (pChar '{')) (pTakeUntil ['\x7d']) (ws (pChar '\x7d')))
        (pTakeUntil [';']) start_input with
    | none => none
    | some (i2, _) =>
      let value_len := start_input.length - i2.length
      let raw_value := trimChars (start_input.take value_len)
      match semicolon i2 with
      | none => none
      | some (i3, _) => some (i3, .Unknown option_name raw_value)

def parse_zone_statement : Parser ZoneStatement :=
  pAlt parse_type_statement
    (pAlt parse_file_statement
      (pAlt parse_primaries_statement
        (pAlt parse_also_notify_statement
          (pAlt parse_allow_transfer_statement
            (pAlt parse_allow_update_statement parse_unknown_statement)))))

/-- The statement-fold of `parse_zone_config_internal`. -/
def applyZoneStatement (cfg : ZoneConfig) : ZoneStatement → ZoneConfig
  | .Type t => { cfg with zone_type := t }
  | .File f => { cfg with file := some f }
  | .Primaries p => { cfg with primaries := some p }
  | .AlsoNotify a => { cfg with also_notify := some a }
  | .AllowTransfer a => { cfg with allow_transfer := some a }
  | .AllowUpdate a => { cfg with allow_update := some a }
  | .AllowUpdateRaw raw => { cfg with allow_update_raw := some raw }
  | .Unknown key value => { cfg with raw_options := hmInsert key value cfg.raw_options }

def parse_zone_config_internal : Parser ZoneConfig := fun i =>
  match ws (pTag "zone".data) i with
  | none => none
  | some (i1, _) =>
    match ws quoted_string i1 with
    | none => none
    | some (i2, zone_name) =>
      match pOpt (ws (pAlt (pTag "IN".data) (pAlt (pTag "CH".data) (pTag "HS".data)))) i2 with
      | none => none
      | some (i3, cls) =>
        let class_ : DnsClass :=
          if cls = some "IN".data then .IN
          else if cls = some "CH".data then .CH
          else if cls = some "HS".data then .HS
          else .IN
        match pDelimited (ws (pChar '{')) (pMany0 parse_zone_statement) (ws (pTag "\x7d;".data)) i3 with
        | none => none
        | some (i4, statements) =>
          let config := { ZoneConfig.new zone_name .Primary with class_ := class_ }
          some (i4, statements.foldl applyZoneStatement config)

inductive RndcParseError where
  | ParseError
  | InvalidZoneType
  | InvalidDnsClass
  | InvalidIpAddress
  | MissingField
  | Incomplete
deriving DecidableEq, Repr

/-- `parse_showzone`: trim the input, run the internal parser, discard any
leftover input on success. -/
def parse_showzone (input : List Char) : Except RndcParseError ZoneConfig :=
  match parse_zone_config_internal (trimChars input) with
  | some (_, config) => .ok config
  | none => .error .ParseError

end Rndc

/-! ## rndc.conf data model (src/rndc_conf_types.rs) -/

structure KeyBlock where
  name : List Char
  algorithm : List Char
  secret : List Char
deriving DecidableEq, Repr

inductive ServerAddress where
  | Hostname (h : List Char)
  | IpAddr (ip : IpAddr)
deriving DecidableEq, Repr

/-- `Display` for `ServerAddress`. -/
def ServerAddress.toChars : ServerAddress → List Char
  | .Hostname h => h
  | .IpAddr ip => ipToChars ip

structure ServerBlock where
  address : ServerAddress
  key : Option (List Char)
  port : Option Nat
  addresses : Option (List IpAddr)
deriving DecidableEq, Repr

def ServerBlock.new (address : ServerAddress) : ServerBlock :=
  ⟨address, none, none, none⟩

structure OptionsBlock where
  default_server : Option (List Char)
  default_key : Option (List Char)
  default_port : Option Nat
deriving DecidableEq, Repr

def OptionsBlock.new : OptionsBlock := ⟨none, none, none⟩

structure RndcConfFile where
  keys : List (List Char × KeyBlock)
  servers : List (List Char × ServerBlock)
  options : OptionsBlock
  includes : List (List Char)
deriving DecidableEq, Repr

def RndcConfFile.new : RndcConfFile := ⟨[], [], OptionsBlock.new, []⟩

/-! ## rndc.conf parser (src/rndc_conf_parser.rs) -/

namespace RndcConf

inductive RndcConfParseError where
  | ParseError
  | InvalidServerAddress
  | InvalidIpAddress
  | MissingField
  | CircularInclude (path : List Char)
  | FileNotFound (path : List Char)
  | IoError
  | Incomplete
deriving DecidableEq, Repr

def line_comment : Parser Unit :=
  pValue () (pSeq (pTag "//".data) (pTakeWhile (fun c => c ≠ '\n')))

def hash_comment : Parser Unit :=
  pValue () (pSeq (pChar '#') (pTakeWhile (fun c => c ≠ '\n')))

def block_comment : Parser Unit :=
  pValue () (pSeq (pTag "/*".data) (pSeq (pTakeUntil "*/".data) (pTag "*/".data)))

def comment : Parser Unit :=
  pAlt line_comment (pAlt hash_comment block_comment)

def multispace1 : Parser (List Char) := pTakeWhile1 isMultispace

/-- The whitespace-and-comment skipper both sides of `ws`. -/
def skip : Parser (List Unit) :=
  pMany0 (pAlt (pValue () multispace1) comment)

/-- `ws`: skip whitespace and comments around a parser. -/
def ws (f : Parser α) : Parser α :=
  pDelimited skip f skip

def semicolon : Parser Char := ws (pChar ';')

def escaped_char : Parser Char := fun i =>
  match i with
  | b :: c :: rest =>
    if b = '\\' then
      if c = '"' then some (rest, '"')
      else if c = '\\' then some (rest, '\\')
      else if c = 'n' then some (rest, '\n')
      else if c = 'r' then some (rest, '\r')
      else if c = 't' then some (rest, '\t')
      else none
    else none
  | _ => none

/-- `quoted_string` with escape sequences. -/
def quoted_string : Parser (List Char) :=
  pDelimited (pChar '"')
    (pMap (pMany0 (pAlt (pMap escaped_char (fun c => [c]))
      (pTakeWhile1 (fun c => c ≠ '"' && c ≠ '\\')))) List.flatten)
    (pChar '"')

def isIdentChar (c : Char) : Bool :=
  c.isAlphanum || c = '_' || c = '-' || c = '.' || c = ':'

def identifier : Parser (List Char) := pTakeWhile1 isIdentChar

def digit1 : Parser (List Char) := pTakeWhile1 Char.isDigit

/-- `ipv4_addr`: four dot-separated digit runs, parsed as an address. -/
def ipv4_addr : Parser IpAddr :=
  pFilterMap (pRecognize (pSeq digit1 (pSeq (pChar '.') (pSeq digit1 (pSeq (pChar '.')
      (pSeq digit1 (pSeq (pChar '.') digit1)))))))
    rustParseIp

/-- `ipv6_addr`: longest run of hex digits and colons, requiring either a
`::` or at least two colons, parsed as an address. -/
def ipv6_addr : Parser IpAddr :=
  pFilterMap (pTakeWhile1 (fun c => (hexDigitVal c).isSome || c = ':'))
    (fun addr_str =>
      if !containsSub [':', ':'] addr_str && addr_str.count ':' < 2 then none
      else rustParseIp addr_str)

def ip_addr : Parser IpAddr := pAlt ipv6_addr ipv4_addr

/-- `port_number`: digits parsed as `u16`, substituting 953 on failure. -/
def port_number : Parser Nat :=
  pMap digit1 (fun s => (u16FromDigits s).getD 953)

/-- `server_address`: IP tried before hostname. -/
def server_address : Parser ServerAddress :=
  pAlt (pMap ip_addr ServerAddress.IpAddr) (pMap identifier ServerAddress.Hostname)

inductive KeyField where
  | Algorithm (a : List Char)
  | Secret (s : List Char)
deriving DecidableEq, Repr

def parse_algorithm_field : Parser KeyField :=
  pMap (pSeq (ws (pTag "algorithm".data)) (pSeq (ws identifier) semicolon))
    (fun x => .Algorithm x.2.1)

def parse_secret_field : Parser KeyField :=
  pMap (pSeq (ws (pTag "secret".data)) (pSeq (ws quoted_string) semicolon))
    (fun x => .Secret x.2.1)

def parse_key_field : Parser KeyField :=
  pAlt parse_algorithm_field parse_secret_field

/-- The field-fold of `parse_key_block`: the last occurrence of each field
kind wins. -/
def keyFieldsFold (fields : List KeyField) : Option (List Char) × Option (List Char) :=
  fields.foldl
    (fun acc f =>
      match f with
      | .Algorithm a => (some a, acc.2)
      | .Secret s => (acc.1, some s))
    (none, none)

/-- `parse_key_block`: missing algorithm defaults to hmac-sha256, missing
secret to the empty string. -/
def parse_key_block : Parser (List Char × KeyBlock) :=
  pMap (pSeq (ws (pTag "key".data)) (pSeq (ws quoted_string)
      (pDelimited (ws (pChar '{')) (pMany0 parse_key_field) (ws (pTag "\x7d;".data)))))
    (fun x =>
      let name := x.2.1
      let folded := keyFieldsFold x.2.2
      (name,
        { name := name
          algorithm := folded.1.getD "hmac-sha256".data
          secret := folded.2.getD [] }))

inductive ServerField where
  | Key (k : List Char)
  | Port (p : Nat)
  | Addresses (a : List IpAddr)
deriving DecidableEq, Repr

def parse_server_key_field : Parser ServerField :=
  pMap (pSeq (ws (pTag "key".data)) (pSeq (ws quoted_string) semicolon))
    (fun x => .Key x.2.1)

def parse_server_port_field : Parser ServerField :=
  pMap (pSeq (ws (pTag "port".data)) (pSeq (ws port_number) semicolon))
    (fun x => .Port x.2.1)

def parse_server_addresses_field : Parser ServerField :=
  pMap (pSeq (ws (pTag "addresses".data))
      (pDelimited (ws (pChar '{')) (pSepList0 semicolon (ws ip_addr)) (ws (pTag "\x7d;".data))))
    (fun x => .Addresses x.2)

def parse_server_field : Parser ServerField :=
  pAlt parse_server_key_field (pAlt parse_server_port_field parse_server_addresses_field)

def serverFieldsFold (server : ServerBlock) (fields : List ServerField) : ServerBlock :=
  fields.foldl
    (fun s f =>
      match f with
      | .Key k => { s with key := some k }
      | .Port p => { s with port := some p }
      | .Addresses a => { s with addresses := some a })
    server

def parse_server_block : Parser (List Char × ServerBlock) :=
  pMap (pSeq (ws (pTag "server".data)) (pSeq (ws server_address)
      (pDelimited (ws (pChar '{')) (pMany0 parse_server_field) (ws (pTag "\x7d;".data)))))
    (fun x => (x.2.1.toChars, serverFieldsFold (ServerBlock.new x.2.1) x.2.2))

inductive OptionField where
  | DefaultServer (s : List Char)
  | DefaultKey (k : List Char)
  | DefaultPort (p : Nat)
deriving DecidableEq, Repr

def parse_default_server_field : Parser OptionField :=
  pMap (pSeq (ws (pTag "default-server".data)) (pSeq (ws identifier) semicolon))
    (fun x => .DefaultServer x.2.1)

def parse_default_key_field : Parser OptionField :=
  pMap (pSeq (ws (pTag "default-key".data)) (pSeq (ws quoted_string) semicolon))
    (fun x => .DefaultKey x.2.1)

def parse_default_port_field : Parser OptionField :=
  pMap (pSeq (ws (pTag "default-port".data)) (pSeq (ws port_number) semicolon))
    (fun x => .DefaultPort x.2.1)

def parse_option_field : Parser OptionField :=
  pAlt parse_default_server_field (pAlt parse_default_key_field parse_default_port_field)

def optionFieldsFold (fields : List OptionField) : OptionsBlock :=
  fields.foldl
    (fun o f =>
      match f with
      | .DefaultServer s => { o with default_server := some s }
      | .DefaultKey k => { o with default_key := some k }
      | .DefaultPort p => { o with default_port := some p })
    OptionsBlock.new

def parse_options_block : Parser OptionsBlock :=
  pMap (pSeq (ws (pTag "options".data))
      (pDelimited (ws (pChar '{')) (pMany0 parse_option_field) (ws (pTag "\x7d;".data))))
    (fun x => optionFieldsFold x.2)

def parse_include_stmt : Parser (List Char) :=
  pMap (pSeq (ws (pTag "include".data)) (pSeq (ws quoted_string) semicolon))
    (fun x => x.2.1)

inductive Statement where
  | Include (path : List Char)
  | Key (name : List Char) (key : KeyBlock)
  | Server (addr : List Char) (srv : ServerBlock)
  | Options (opts : OptionsBlock)
deriving DecidableEq, Repr

def parse_statement : Parser Statement :=
  pAlt (pMap parse_include_stmt Statement.Include)
    (pAlt (pMap parse_key_block (fun nk => Statement.Key nk.1 nk.2))
      (pAlt (pMap parse_server_block (fun as2 => Statement.Server as2.1 as2.2))
        (pMap parse_options_block Statement.Options)))

/-- The statement-fold of `parse_rndc_conf_internal`: includes accumulate,
keys and servers insert (later same-name definitions overwrite), options merge
per-field with the later block winning where it sets a field. -/
def applyConfStatement (conf : RndcConfFile) : Statement → RndcConfFile
  | .Include path => { conf with includes := conf.includes ++ [path] }
  | .Key name key => { conf with keys := hmInsert name key conf.keys }
  | .Server addr server => { conf with servers := hmInsert addr server conf.servers }
  | .Options opts =>
    { conf with options :=
      { default_server :=
          match opts.default_server with
          | some s => some s
          | none => conf.options.default_server
        default_key :=
          match opts.default_key with
          | some k => some k
          | none => conf.options.default_key
        default_port :=
          match opts.default_port with
          | some p => some p
          | none => conf.options.default_port } }

/-- `parse_rndc_conf_internal`: as many leading statements as possible, then
trailing whitespace; any unparsable suffix is left unconsumed. -/
def parse_rndc_conf_internal : Parser RndcConfFile := fun i =>
  match pMany0 (ws parse_statement) i with
  | none => none
  | some (i1, statements) =>
    some (i1.dropWhile isMultispace, statements.foldl applyConfStatement RndcConfFile.new)

/-- `parse_rndc_conf_str`. -/
def parse_rndc_conf_str (input : List Char) : Except RndcConfParseError RndcConfFile :=
  match parse_rndc_conf_internal input with
  | some (_, conf) => .ok conf
  | none => .error .ParseError

/-! ### Include resolution (parse_rndc_conf_file)

The filesystem is modelled as an association list from paths to contents.
`Path::canonicalize` is modelled as the identity on existing paths (failing
like the original when the file does not exist), so the canonical identity of
a file is its path. -/

abbrev Path := List Char

abbrev Fs := List (Path × List Char)

def canonicalizeFs (fs : Fs) (p : Path) : Option Path :=
  if (hmGet p fs).isSome then some p else none

def readFs (fs : Fs) (p : Path) : Option (List Char) := hmGet p fs

def isAbsolute (p : Path) : Bool := p.head? = some '/'

/-- Model of `Path::parent` for slash-separated paths. -/
def parentDir (p : Path) : Path :=
  let q := dropWhileEnd (fun c => c ≠ '/') p
  if q.length ≤ 1 then q else q.dropLast

/-- Model of `Path::join` for a relative right-hand side. -/
def joinPath (a b : Path) : Path :=
  if a = [] then b
  else if a.getLast? = some '/' then a ++ b
  else a ++ '/' :: b

/-- Relative include paths resolve against the including file's directory. -/
def resolveIncludePath (basePath inc : Path) : Path :=
  if isAbsolute inc then inc else joinPath (parentDir basePath) inc

def optKeep (a b : Option α) : Option α :=
  match a with
  | some x => some x
  | none => b

/-- The merge the resolver performs when folding one included document into
the including one: keys and servers keep the includer's entry on name
collision, options fill only the fields the includer left unset. -/
def mergeIncluded (conf included : RndcConfFile) : RndcConfFile :=
  { conf with
    keys := included.keys.foldl (fun m kv => hmOrInsert kv.1 kv.2 m) conf.keys
    servers := included.servers.foldl (fun m kv => hmOrInsert kv.1 kv.2 m) conf.servers
    options :=
      { default_server := optKeep conf.options.default_server included.options.default_server
        default_key := optKeep conf.options.default_key included.options.default_key
        default_port := optKeep conf.options.default_port included.options.default_port } }

mutual

/-- `parse_rndc_conf_file_recursive`: canonicalize, detect a revisit as a
circular include, read and parse, then resolve the includes in order while
threading the visited set.  The fuel only bounds the nesting depth; the
top-level entry point supplies fuel exceeding the number of files, which the
strictly growing visited set makes unreachable. -/
def parse_rndc_conf_file_recursive (fs : Fs) (fuel : Nat) (path : Path)
    (visited : List Path) : Except RndcConfParseError (List Path × RndcConfFile) :=
  match fuel with
  | 0 => .error .IoError
  | fuel + 1 =>
    match canonicalizeFs fs path with
    | none => .error (.FileNotFound path)
    | some canonical_path =>
      if canonical_path ∈ visited then .error (.CircularInclude canonical_path)
      else
        match readFs fs path with
        | none => .error .IoError
        | some content =>
          match parse_rndc_conf_str content with
          | .error e => .error e
          | .ok conf =>
            resolveIncludes fs fuel path conf.includes (canonical_path :: visited)
              { conf with includes := [] }
termination_by (fuel, 0)

/-- The include-resolution loop inside `parse_rndc_conf_file_recursive`. -/
def resolveIncludes (fs : Fs) (fuel : Nat) (basePath : Path) (includes : List Path)
    (visited : List Path) (conf : RndcConfFile) :
    Except RndcConfParseError (List Path × RndcConfFile) :=
  match includes with
  | [] => .ok (visited, conf)
  | inc :: rest =>
    let resolved := resolveIncludePath basePath inc
    match parse_rndc_conf_file_recursive fs fuel resolved visited with
    | .error e => .error e
    | .ok (visited2, included) =>
      let merged := mergeIncluded conf included
      resolveIncludes fs fuel basePath rest visited2
        { merged with includes := merged.includes ++ [resolved] }
termination_by (fuel, includes.length + 1)

end

/-- `parse_rndc_conf_file`: resolution entry point with a fresh visited set. -/
def parse_rndc_conf_file (fs : Fs) (path : Path) : Except RndcConfParseError RndcConfFile :=
  match parse_rndc_conf_file_recursive fs (fs.length + 1) path [] with
  | .ok (_, conf) => .ok conf
  | .error e => .error e

end RndcConf

/-! ## Definitions used by the theorem statements -/

/-- The zone header `parse_showzone` expects in front of a serialized block,
carrying the zone name and class of the configuration. -/
def zoneHeader (cfg : ZoneConfig) : List Char :=
  "zone \"".data ++ cfg.zone_name ++ "\" ".data ++ cfg.class_.as_str ++ " ".data

/-- The typed fields of `ZoneConfig` for which `parse_zone_statement` has a
dedicated statement parser; every other optional typed field is absent and
the raw-option map is empty.  (The statement parsers cover exactly type,
file, primaries/masters, also-notify, allow-transfer and allow-update.) -/
def supportedFieldsOnly (cfg : ZoneConfig) : Prop :=
  cfg.notify = none ∧ cfg.allow_query = none ∧ cfg.allow_update_raw = none ∧
  cfg.allow_update_forwarding = none ∧ cfg.allow_notify = none ∧
  cfg.max_transfer_time_in = none ∧ cfg.max_transfer_time_out = none ∧
  cfg.max_transfer_idle_in = none ∧ cfg.max_transfer_idle_out = none ∧
  cfg.transfer_source = none ∧ cfg.transfer_source_v6 = none ∧
  cfg.notify_source = none ∧ cfg.notify_source_v6 = none ∧
  cfg.update_policy = none ∧ cfg.journal = none ∧ cfg.ixfr_from_differences = none ∧
  cfg.inline_signing = none ∧ cfg.auto_dnssec = none ∧ cfg.key_directory = none ∧
  cfg.sig_validity_interval = none ∧ cfg.dnskey_sig_validity = none ∧
  cfg.forward = none ∧ cfg.forwarders = none ∧ cfg.check_names = none ∧
  cfg.check_mx = none ∧ cfg.check_integrity = none ∧ cfg.masterfile_format = none ∧
  cfg.max_zone_ttl = none ∧ cfg.max_refresh_time = none ∧ cfg.min_refresh_time = none ∧
  cfg.max_retry_time = none ∧ cfg.min_retry_time = none ∧ cfg.multi_master = none ∧
  cfg.request_ixfr = none ∧ cfg.request_expire = none ∧ cfg.raw_options = []

/-- Well-formedness of the values populating the supported fields: quoted
strings carry no quote character, lists are absent or non-empty, addresses
print-parse round-trip and ports fit in sixteen bits (as the Rust `u16`
guarantees). -/
def supportedFieldsWf (cfg : ZoneConfig) : Prop :=
  ('"' ∉ cfg.zone_name) ∧
  (∀ f, cfg.file = some f → '"' ∉ f) ∧
  (∀ l, cfg.primaries = some l → l ≠ [] ∧
    ∀ p ∈ l, ipRoundTrips p.address ∧ ∀ pt, p.port = some pt → pt ≤ 65535) ∧
  (∀ l, cfg.also_notify = some l → l ≠ [] ∧ ∀ a ∈ l, ipRoundTrips a = true) ∧
  (∀ l, cfg.allow_transfer = some l → l ≠ [] ∧ ∀ a ∈ l, ipRoundTrips a = true) ∧
  (∀ l, cfg.allow_update = some l → l ≠ [] ∧ ∀ a ∈ l, ipRoundTrips a = true)

/-- One entry of an allow-update statement body: a key reference or an IP
literal. -/
inductive AUEntry where
  | key (name : List Char)
  | ip (a : IpAddr)
deriving DecidableEq, Repr

def AUEntry.isKey : AUEntry → Bool
  | .key _ => true
  | .ip _ => false

def AUEntry.render : AUEntry → List Char
  | .key n => "key \"".data ++ n ++ "\"; ".data
  | .ip a => ipToChars a ++ "; ".data

/-- A rendered allow-update body: the entries in order, each terminated by a
semicolon and a space. -/
def renderAUBody (entries : List AUEntry) : List Char :=
  (entries.map AUEntry.render).flatten

/-- A zone block whose single statement is an allow-update directive with the
given body. -/
def renderAUZone (name : List Char) (entries : List AUEntry) : List Char :=
  "zone \"".data ++ name ++ "\" \x7b allow-update \x7b ".data ++ renderAUBody entries
    ++ "\x7d; \x7d;".data

/-- Well-formedness of an allow-update body entry for the round-trip
statements: key names carry neither quote nor semicolon, addresses
round-trip. -/
def AUEntry.wf : AUEntry → Prop
  | .key n => '"' ∉ n ∧ ';' ∉ n
  | .ip a => ipRoundTrips a = true

/-- The IP entries of an allow-update body, in order. -/
def auIps (entries : List AUEntry) : List IpAddr :=
  entries.filterMap (fun e => match e with | .ip a => some a | .key _ => none)

/-- The statements a configuration restricted to the supported fields
serializes to, in the order `to_rndc_block` emits them. -/
def stmtsOf (cfg : ZoneConfig) : List Rndc.ZoneStatement :=
  [.Type cfg.zone_type]
  ++ (cfg.file.toList.map .File)
  ++ (cfg.primaries.toList.map .Primaries)
  ++ (cfg.also_notify.toList.map .AlsoNotify)
  ++ (cfg.allow_transfer.toList.map .AllowTransfer)
  ++ (cfg.allow_update.toList.map .AllowUpdate)

/-- The serialized text of one supported statement, matching the part
`to_rndc_block` builds for it. -/
def renderZS : Rndc.ZoneStatement → List Char
  | .Type t => "type ".data ++ t.as_str
  | .File f => quotedField "file".data f
  | .Primaries l => bracePart "primaries".data (l.map primarySpecChars)
  | .AlsoNotify l => bracePart "also-notify".data (l.map ipToChars)
  | .AllowTransfer l => bracePart "allow-transfer".data (l.map ipToChars)
  | .AllowUpdate l => bracePart "allow-update".data (l.map ipToChars)
  | .AllowUpdateRaw raw => "allow-update ".data ++ raw
  | .Unknown n v => n ++ ' ' :: v

/-- Well-formedness of a supported statement's payload for the round-trip:
quote-free file names, non-empty lists, round-tripping addresses, 16-bit
ports. -/
def zsWf : Rndc.ZoneStatement → Prop
  | .Type _ => True
  | .File f => '"' ∉ f
  | .Primaries l => l ≠ [] ∧ ∀ p ∈ l,
      ipRoundTrips p.address = true ∧ ∀ pt, p.port = some pt → pt ≤ 65535
  | .AlsoNotify l => l ≠ [] ∧ ∀ a ∈ l, ipRoundTrips a = true
  | .AllowTransfer l => l ≠ [] ∧ ∀ a ∈ l, ipRoundTrips a = true
  | .AllowUpdate l => l ≠ [] ∧ ∀ a ∈ l, ipRoundTrips a = true
  | .AllowUpdateRaw _ => False
  | .Unknown _ _ => False

/-- A statement list as it appears inside the zone block: each statement
followed by a semicolon and a space. -/
def renderStmts (ss : List Rndc.ZoneStatement) : List Char :=
  (ss.map (fun s => renderZS s ++ [';', ' '])).flatten

def KeyField.render : RndcConf.KeyField → List Char
  | .Algorithm a => "algorithm ".data ++ a ++ "; ".data
  | .Secret s => "secret \"".data ++ s ++ "\"; ".data

/-- A rendered key block `key "<name>" { <fields> };`. -/
def renderKeyBlock (name : List Char) (fields : List RndcConf.KeyField) : List Char :=
  "key \"".data ++ name ++ "\" \x7b ".data ++ (fields.map KeyField.render).flatten
    ++ "\x7d;".data

/-- Well-formedness of a rendered key field: algorithms are non-empty
identifier text, secrets contain neither quote nor backslash. -/
def KeyField.wf : RndcConf.KeyField → Prop
  | .Algorithm a => a ≠ [] ∧ ∀ c ∈ a, RndcConf.isIdentChar c = true
  | .Secret s => '"' ∉ s ∧ '\\' ∉ s

/-- The algorithm selected by the key-block fold: the last algorithm
sub-statement, defaulting to hmac-sha256. -/
def lastAlgorithm (fields : List RndcConf.KeyField) : List Char :=
  ((fields.filterMap fun f =>
    match f with
    | .Algorithm a => some a
    | .Secret _ => none).getLast?).getD "hmac-sha256".data

/-- The secret selected by the key-block fold: the last secret sub-statement,
defaulting to the empty string. -/
def lastSecret (fields : List RndcConf.KeyField) : List Char :=
  ((fields.filterMap fun f =>
    match f with
    | .Algorithm _ => none
    | .Secret s => some s).getLast?).getD []

/-! ### Concrete values used by counterexamples and witnesses -/

/-- A configuration with only the typed notify field set (raw options empty),
used to refute the unrestricted round-trip claim. -/
def c1cex : ZoneConfig :=
  { ZoneConfig.new "n".data .Primary with notify := some .Yes }

/-- A configuration populating every supported typed field, used as the
round-trip witness. -/
def c1wit : ZoneConfig :=
  { ZoneConfig.new "example.com".data .Primary with
    file := some "/var/cache/bind/example.com.zone".data
    primaries := some [⟨IpAddr.v4 192 0 2 1, none⟩, ⟨IpAddr.v4 192 0 2 2, some 5353⟩]
    also_notify := some [IpAddr.v4 10 0 0 1]
    allow_transfer := some [IpAddr.v4 10 0 0 2]
    allow_update := some [IpAddr.v4 10 1 1 1, IpAddr.v6 8193 3512 0 0 0 0 0 1] }

/-- A configuration whose raw option value defeats the single-pass semicolon
stripping (`"full; ;"` strips to `"full;"`), used to refute the no-`;;`
claim. -/
def c4cex : ZoneConfig :=
  { ZoneConfig.new "e".data .Primary with
    raw_options := [("zone-statistics".data, "full; ;".data)] }

/-- The two-file filesystem of merge Scenario 3: the includer sets only the
default server, the included file only the default port. -/
def scenario3Fs : RndcConf.Fs :=
  [("/etc/a.conf".data,
    "include \"/etc/b.conf\";\noptions \x7b default-server localhost; \x7d;\n".data),
   ("/etc/b.conf".data,
    "options \x7b default-port 8953; \x7d;\n".data)]

/-- Two files including each other, the cycle used by the witnesses. -/
def cycleFs : RndcConf.Fs :=
  [("/etc/f1.conf".data, "include \"/etc/f2.conf\";\n".data),
   ("/etc/f2.conf".data, "include \"/etc/f1.conf\";\n".data)]

/-- A configuration carrying both a raw allow-update directive and a typed
allow-update list, exercising the preference rule. -/
def c3wit : ZoneConfig :=
  { ZoneConfig.new "test.com".data .Primary with
    allow_update := some [IpAddr.v4 10 1 1 1]
    allow_update_raw := some "\x7b key \"bindy-operator\"; \x7d;".data }

/-- A parser that never grows its input: the remaining input of a success is
no longer than what was given. -/
def ConsumesLe (f : Parser α) : Prop :=
  ∀ i r a, f i = some (r, a) → r.length ≤ i.length

/-- A parser that always consumes on success. -/
def ConsumesLt (f : Parser α) : Prop :=
  ∀ i r a, f i = some (r, a) → r.length < i.length

def exceptIsOk : Except ε α → Bool
  | .ok _ => true
  | .error _ => false

/-- No double semicolon occurs as a substring. -/
def noSS (s : List Char) : Prop := containsSub [';', ';'] s = false

/-- A serializer part that cannot create a double semicolon when joined:
contains none itself and does not end with a semicolon. -/
def partSafe (s : List Char) : Prop := noSS s ∧ s.getLast? ≠ some ';'

/-- A raw text value that is safe after the serializer's strip pass. -/
def rawSafe (v : List Char) : Prop := partSafe (stripRawValue v)

/-- The well-formedness condition on the free-form string fields under which
the no-double-semicolon invariant actually holds: raw texts are strip-safe,
quoted fields and raw option keys contain no `;;`, forwarder tls strings are
safe. -/
def c4Hyp (cfg : ZoneConfig) : Prop :=
  (∀ r, cfg.allow_update_raw = some r → rawSafe r) ∧
  (∀ p, cfg.update_policy = some p → rawSafe p) ∧
  (∀ f, cfg.file = some f → noSS f) ∧
  (∀ j, cfg.journal = some j → noSS j) ∧
  (∀ k, cfg.key_directory = some k → noSS k) ∧
  (∀ l, cfg.forwarders = some l → ∀ fw ∈ l, ∀ t, fw.tls_config = some t →
    noSS t ∧ t.getLast? ≠ some ';') ∧
  (∀ kv ∈ cfg.raw_options, noSS kv.1 ∧ rawSafe kv.2)


/-! ### Rendered key blocks, for the quantified key-block theorem -/

namespace RndcConf

/-- An input on which the whitespace-and-comment skipper consumes nothing:
it is empty or starts with a non-whitespace character that can open no
comment. -/
def noSkipHead : List Char → Prop
  | [] => True
  | c :: _ => isMultispace c = false ∧ c ≠ '/' ∧ c ≠ '#'

end RndcConf

/-! ## Consumption lemmas for the combinator core -/

theorem consumesLe_pTag (s : List Char) : ConsumesLe (pTag s) := by
  intro i r a h
  unfold pTag at h
  split at h
  · cases h
    simp
  · cases h

theorem consumesLt_pTag (s : List Char) (hs : s ≠ []) : ConsumesLt (pTag s) := by
  intro i r a h
  unfold pTag at h
  split at h
  next hpre =>
    cases h
    have hle : s.length ≤ i.length :=
      (List.isPrefixOf_iff_prefix.mp hpre).length_le
    have hpos : 0 < s.length := List.length_pos.mpr hs
    simp only [List.length_drop]
    omega
  · cases h

theorem consumesLt_pChar (c : Char) : ConsumesLt (pChar c) := by
  intro i r a h
  unfold pChar at h
  cases i with
  | nil => cases h
  | cons x rest =>
    simp only at h
    split at h
    · cases h; simp
    · cases h

theorem length_dropWhile_le (p : Char → Bool) (l : List Char) :
    (l.dropWhile p).length ≤ l.length :=
  (List.dropWhile_sublist (l := l) (p := p)).length_le

theorem consumesLe_pTakeWhile (p : Char → Bool) : ConsumesLe (pTakeWhile p) := by
  intro i r a h
  unfold pTakeWhile at h
  cases h
  exact length_dropWhile_le p i

theorem consumesLt_pTakeWhile1 (p : Char → Bool) : ConsumesLt (pTakeWhile1 p) := by
  intro i r a h
  unfold pTakeWhile1 at h
  cases i with
  | nil => cases h
  | cons x rest =>
    simp only at h
    split at h
    next hp =>
      cases h
      simp only [List.dropWhile_cons, hp, if_pos, List.length_cons]
      exact Nat.lt_succ_of_le (length_dropWhile_le p rest)
    · cases h

theorem splitAtSub_post_length (pat : List Char) :
    ∀ i pre post, splitAtSub pat i = some (pre, post) → post.length ≤ i.length := by
  intro i
  induction i with
  | nil =>
    intro pre post h
    unfold splitAtSub at h
    split at h
    · cases h; simp
    · cases h
  | cons x rest ih =>
    intro pre post h
    unfold splitAtSub at h
    split at h
    · cases h; simp
    · cases h2 : splitAtSub pat rest with
      | none => simp only [h2] at h; cases h
      | some v =>
        obtain ⟨pre2, post2⟩ := v
        simp only [h2, Option.some.injEq, Prod.mk.injEq] at h
        obtain ⟨hpre, hpost⟩ := h
        have hlen := ih pre2 post2 h2
        rw [hpost] at hlen
        simp only [List.length_cons]
        omega

theorem consumesLe_pTakeUntil (pat : List Char) : ConsumesLe (pTakeUntil pat) := by
  intro i r a h
  unfold pTakeUntil at h
  cases h2 : splitAtSub pat i with
  | none => simp only [h2] at h; cases h
  | some v =>
    obtain ⟨pre, post⟩ := v
    simp only [h2, Option.some.injEq, Prod.mk.injEq] at h
    obtain ⟨hpost, hpre⟩ := h
    have hlen := splitAtSub_post_length pat i pre post h2
    rw [hpost] at hlen
    exact hlen

theorem consumesLe_pOpt {α : Type} {f : Parser α} (hf : ConsumesLe f) :
    ConsumesLe (pOpt f) := by
  intro i r a h
  unfold pOpt at h
  cases h2 : f i with
  | none => simp only [h2] at h; cases h; exact Nat.le_refl _
  | some v =>
    obtain ⟨i1, a1⟩ := v
    simp only [h2, Option.some.injEq, Prod.mk.injEq] at h
    obtain ⟨h3, _⟩ := h
    rw [h3] at h2
    exact hf i r a1 h2

theorem consumesLe_pMap {α β : Type} {f : Parser α} (hf : ConsumesLe f) (fn : α → β) :
    ConsumesLe (pMap f fn) := by
  intro i r a h
  unfold pMap at h
  cases h2 : f i with
  | none => simp only [h2] at h; cases h
  | some v =>
    obtain ⟨i1, a1⟩ := v
    simp only [h2, Option.some.injEq, Prod.mk.injEq] at h
    obtain ⟨h3, _⟩ := h
    rw [h3] at h2
    exact hf i r a1 h2

theorem consumesLt_pMap {α β : Type} {f : Parser α} (hf : ConsumesLt f) (fn : α → β) :
    ConsumesLt (pMap f fn) := by
  intro i r a h
  unfold pMap at h
  cases h2 : f i with
  | none => simp only [h2] at h; cases h
  | some v =>
    obtain ⟨i1, a1⟩ := v
    simp only [h2, Option.some.injEq, Prod.mk.injEq] at h
    obtain ⟨h3, _⟩ := h
    rw [h3] at h2
    exact hf i r a1 h2

theorem consumesLe_pAlt {α : Type} {f g : Parser α} (hf : ConsumesLe f) (hg : ConsumesLe g) :
    ConsumesLe (pAlt f g) := by
  intro i r a h
  unfold pAlt at h
  cases h2 : f i with
  | none => simp only [h2] at h; exact hg i r a h
  | some v =>
    obtain ⟨i1, a1⟩ := v
    simp only [h2, Option.some.injEq, Prod.mk.injEq] at h
    obtain ⟨h3, _⟩ := h
    rw [h3] at h2
    exact hf i r a1 h2

theorem consumesLt_pAlt {α : Type} {f g : Parser α} (hf : ConsumesLt f) (hg : ConsumesLt g) :
    ConsumesLt (pAlt f g) := by
  intro i r a h
  unfold pAlt at h
  cases h2 : f i with
  | none => simp only [h2] at h; exact hg i r a h
  | some v =>
    obtain ⟨i1, a1⟩ := v
    simp only [h2, Option.some.injEq, Prod.mk.injEq] at h
    obtain ⟨h3, _⟩ := h
    rw [h3] at h2
    exact hf i r a1 h2

theorem consumesLe_pSeq {α β : Type} {f : Parser α} {g : Parser β}
    (hf : ConsumesLe f) (hg : ConsumesLe g) : ConsumesLe (pSeq f g) := by
  intro i r a h
  unfold pSeq at h
  cases h2 : f i with
  | none => simp only [h2] at h; cases h
  | some v =>
    obtain ⟨i1, a1⟩ := v
    simp only [h2] at h
    cases h3 : g i1 with
    | none => simp only [h3] at h; cases h
    | some w =>
      obtain ⟨i2, a2⟩ := w
      simp only [h3, Option.some.injEq, Prod.mk.injEq] at h
      obtain ⟨h4, _⟩ := h
      rw [h4] at h3
      exact Nat.le_trans (hg i1 r a2 h3) (hf i i1 a1 h2)

theorem consumesLt_pSeq_left {α β : Type} {f : Parser α} {g : Parser β}
    (hf : ConsumesLt f) (hg : ConsumesLe g) : ConsumesLt (pSeq f g) := by
  intro i r a h
  unfold pSeq at h
  cases h2 : f i with
  | none => simp only [h2] at h; cases h
  | some v =>
    obtain ⟨i1, a1⟩ := v
    simp only [h2] at h
    cases h3 : g i1 with
    | none => simp only [h3] at h; cases h
    | some w =>
      obtain ⟨i2, a2⟩ := w
      simp only [h3, Option.some.injEq, Prod.mk.injEq] at h
      obtain ⟨h4, _⟩ := h
      rw [h4] at h3
      exact Nat.lt_of_le_of_lt (hg i1 r a2 h3) (hf i i1 a1 h2)

theorem consumesLt_pSeq_right {α β : Type} {f : Parser α} {g : Parser β}
    (hf : ConsumesLe f) (hg : ConsumesLt g) : ConsumesLt (pSeq f g) := by
  intro i r a h
  unfold pSeq at h
  cases h2 : f i with
  | none => simp only [h2] at h; cases h
  | some v =>
    obtain ⟨i1, a1⟩ := v
    simp only [h2] at h
    cases h3 : g i1 with
    | none => simp only [h3] at h; cases h
    | some w =>
      obtain ⟨i2, a2⟩ := w
      simp only [h3, Option.some.injEq, Prod.mk.injEq] at h
      obtain ⟨h4, _⟩ := h
      rw [h4] at h3
      exact Nat.lt_of_lt_of_le (hg i1 r a2 h3) (hf i i1 a1 h2)

theorem consumesLe_pValue {α β : Type} {f : Parser α} (b : β) (hf : ConsumesLe f) :
    ConsumesLe (pValue b f) :=
  consumesLe_pMap hf _

theorem consumesLt_pValue {α β : Type} {f : Parser α} (b : β) (hf : ConsumesLt f) :
    ConsumesLt (pValue b f) :=
  consumesLt_pMap hf _

theorem consumesLe_pPreceded {α β : Type} {f : Parser α} {g : Parser β}
    (hf : ConsumesLe f) (hg : ConsumesLe g) : ConsumesLe (pPreceded f g) :=
  consumesLe_pMap (consumesLe_pSeq hf hg) _

theorem consumesLe_pTerminated {α β : Type} {f : Parser α} {g : Parser β}
    (hf : ConsumesLe f) (hg : ConsumesLe g) : ConsumesLe (pTerminated f g) :=
  consumesLe_pMap (consumesLe_pSeq hf hg) _

theorem consumesLt_pTerminated_left {α β : Type} {f : Parser α} {g : Parser β}
    (hf : ConsumesLt f) (hg : ConsumesLe g) : ConsumesLt (pTerminated f g) :=
  consumesLt_pMap (consumesLt_pSeq_left hf hg) _

theorem consumesLe_pDelimited {α β γ : Type} {l : Parser α} {f : Parser β} {r : Parser γ}
    (hl : ConsumesLe l) (hf : ConsumesLe f) (hr : ConsumesLe r) :
    ConsumesLe (pDelimited l f r) :=
  consumesLe_pMap (consumesLe_pSeq hl (consumesLe_pSeq hf hr)) _

theorem consumesLt_pDelimited_left {α β γ : Type} {l : Parser α} {f : Parser β} {r : Parser γ}
    (hl : ConsumesLt l) (hf : ConsumesLe f) (hr : ConsumesLe r) :
    ConsumesLt (pDelimited l f r) :=
  consumesLt_pMap (consumesLt_pSeq_left hl (consumesLe_pSeq hf hr)) _

theorem consumesLe_pRecognize {α : Type} {f : Parser α} (hf : ConsumesLe f) :
    ConsumesLe (pRecognize f) := by
  intro i r a h
  unfold pRecognize at h
  cases h2 : f i with
  | none => simp only [h2] at h; cases h
  | some v =>
    obtain ⟨i1, a1⟩ := v
    simp only [h2, Option.some.injEq, Prod.mk.injEq] at h
    obtain ⟨h3, _⟩ := h
    rw [h3] at h2
    exact hf i r a1 h2

theorem consumesLe_pMany0Go {α : Type} {f : Parser α} (hf : ConsumesLe f) :
    ∀ fuel, ConsumesLe (pMany0Go f fuel) := by
  intro fuel
  induction fuel with
  | zero => intro i r a h; cases h
  | succ fuel ih =>
    intro i r a h
    unfold pMany0Go at h
    cases h2 : f i with
    | none => simp only [h2] at h; cases h; exact Nat.le_refl _
    | some v =>
      obtain ⟨i1, a1⟩ := v
      simp only [h2] at h
      split at h
      next hlt =>
        cases h3 : pMany0Go f fuel i1 with
        | none => simp only [h3] at h; cases h
        | some w =>
          obtain ⟨i2, as2⟩ := w
          simp only [h3, Option.some.injEq, Prod.mk.injEq] at h
          obtain ⟨h4, _⟩ := h
          rw [h4] at h3
          exact Nat.le_trans (ih i1 r as2 h3) (Nat.le_of_lt hlt)
      · cases h

theorem consumesLe_pMany0 {α : Type} {f : Parser α} (hf : ConsumesLe f) :
    ConsumesLe (pMany0 f) := by
  intro i r a h
  exact consumesLe_pMany0Go hf (i.length + 1) i r a h

theorem consumesLe_pSepList0Go {α σ : Type} {s : Parser σ} {f : Parser α}
    (hs : ConsumesLe s) (hf : ConsumesLe f) :
    ∀ fuel, ConsumesLe (pSepList0Go s f fuel) := by
  intro fuel
  induction fuel with
  | zero => intro i r a h; cases h
  | succ fuel ih =>
    intro i r a h
    unfold pSepList0Go at h
    cases h2 : pSeq s f i with
    | none => simp only [h2] at h; cases h; exact Nat.le_refl _
    | some v =>
      obtain ⟨i1, a1⟩ := v
      simp only [h2] at h
      split at h
      next hlt =>
        cases h3 : pSepList0Go s f fuel i1 with
        | none => simp only [h3] at h; cases h
        | some w =>
          obtain ⟨i2, as2⟩ := w
          simp only [h3, Option.some.injEq, Prod.mk.injEq] at h
          obtain ⟨h4, _⟩ := h
          rw [h4] at h3
          exact Nat.le_trans (ih i1 r as2 h3) (Nat.le_of_lt hlt)
      · cases h

theorem consumesLe_pSepList0 {α σ : Type} {s : Parser σ} {f : Parser α}
    (hs : ConsumesLe s) (hf : ConsumesLe f) : ConsumesLe (pSepList0 s f) := by
  intro i r a h
  unfold pSepList0 at h
  cases h2 : f i with
  | none => simp only [h2] at h; cases h; exact Nat.le_refl _
  | some v =>
    obtain ⟨i1, a1⟩ := v
    simp only [h2] at h
    split at h
    next hlt =>
      cases h3 : pSepList0Go s f (i1.length + 1) i1 with
      | none => simp only [h3] at h; cases h
      | some w =>
        obtain ⟨i2, as2⟩ := w
        simp only [h3, Option.some.injEq, Prod.mk.injEq] at h
        obtain ⟨h4, _⟩ := h
        rw [h4] at h3
        exact Nat.le_trans (consumesLe_pSepList0Go hs hf _ i1 r as2 h3) (Nat.le_of_lt hlt)
    · cases h

/-- With an always-consuming inner parser, `pMany0Go` given enough fuel cannot
fail, so nom `many0` always succeeds. -/
theorem pMany0Go_isSome {α : Type} {f : Parser α} (hf : ConsumesLt f) :
    ∀ fuel i, i.length < fuel → (pMany0Go f fuel i).isSome = true := by
  intro fuel
  induction fuel with
  | zero => intro i h; omega
  | succ fuel ih =>
    intro i hfuel
    unfold pMany0Go
    cases h2 : f i with
    | none => simp
    | some v =>
      obtain ⟨i1, a1⟩ := v
      have hlt := hf i i1 a1 h2
      simp only [hlt, if_pos]
      have hih := ih i1 (by omega)
      cases h3 : pMany0Go f fuel i1 with
      | none => rw [h3] at hih; cases hih
      | some w => simp

theorem pMany0_isSome {α : Type} {f : Parser α} (hf : ConsumesLt f) (i : Input) :
    (pMany0 f i).isSome = true :=
  pMany0Go_isSome hf (i.length + 1) i (Nat.lt_succ_self _)

end Bindcar

namespace Bindcar

theorem consumesLe_of_lt {α : Type} {f : Parser α} (h : ConsumesLt f) : ConsumesLe f :=
  fun i r a hs => Nat.le_of_lt (h i r a hs)

theorem consumesLe_pFilterMap {α β : Type} {f : Parser α} (hf : ConsumesLe f)
    (g : α → Option β) : ConsumesLe (pFilterMap f g) := by
  intro i r a h
  unfold pFilterMap at h
  cases h2 : f i with
  | none => simp only [h2] at h; cases h
  | some v =>
    obtain ⟨i1, a1⟩ := v
    simp only [h2] at h
    cases h3 : g a1 with
    | none => simp only [h3] at h; cases h
    | some b =>
      simp only [h3, Option.some.injEq, Prod.mk.injEq] at h
      obtain ⟨h4, _⟩ := h
      rw [h4] at h2
      exact hf i r a1 h2

theorem consumesLt_pFilterMap {α β : Type} {f : Parser α} (hf : ConsumesLt f)
    (g : α → Option β) : ConsumesLt (pFilterMap f g) := by
  intro i r a h
  unfold pFilterMap at h
  cases h2 : f i with
  | none => simp only [h2] at h; cases h
  | some v =>
    obtain ⟨i1, a1⟩ := v
    simp only [h2] at h
    cases h3 : g a1 with
    | none => simp only [h3] at h; cases h
    | some b =>
      simp only [h3, Option.some.injEq, Prod.mk.injEq] at h
      obtain ⟨h4, _⟩ := h
      rw [h4] at h2
      exact hf i r a1 h2

/-! ### Consumption facts for the showzone parser -/

namespace Rndc

theorem consumesLe_multispace0 : ConsumesLe multispace0 :=
  consumesLe_pTakeWhile _

theorem consumesLe_ws {α : Type} {f : Parser α} (hf : ConsumesLe f) : ConsumesLe (ws f) :=
  consumesLe_pDelimited consumesLe_multispace0 hf consumesLe_multispace0

theorem consumesLt_ws {α : Type} {f : Parser α} (hf : ConsumesLt f) : ConsumesLt (ws f) :=
  consumesLt_pMap
    (consumesLt_pSeq_right consumesLe_multispace0
      (consumesLt_pSeq_left hf consumesLe_multispace0)) _

theorem consumesLt_semicolon : ConsumesLt semicolon :=
  consumesLt_ws (consumesLt_pChar _)

theorem consumesLe_quoted_string : ConsumesLe quoted_string :=
  consumesLe_pDelimited (consumesLe_of_lt (consumesLt_pChar _)) (consumesLe_pTakeUntil _)
    (consumesLe_of_lt (consumesLt_pChar _))

theorem consumesLt_identifier : ConsumesLt identifier :=
  consumesLt_pTakeWhile1 _

theorem consumesLt_ip_addr : ConsumesLt ip_addr :=
  consumesLt_pTerminated_left (consumesLt_pFilterMap (consumesLt_pTakeWhile1 _) _)
    (consumesLe_pOpt (consumesLe_pPreceded (consumesLe_of_lt (consumesLt_pChar _))
      (consumesLe_of_lt (consumesLt_pTakeWhile1 _))))

theorem consumesLe_ip_with_port : ConsumesLe ip_with_port :=
  consumesLe_pMap
    (consumesLe_pSeq (consumesLe_ws (consumesLe_of_lt consumesLt_ip_addr))
      (consumesLe_pOpt (consumesLe_pPreceded
        (consumesLe_ws (consumesLe_pTag _))
        (consumesLe_pMap (consumesLe_of_lt (consumesLt_pTakeWhile1 _)) _)))) _

theorem consumesLe_ip_list : ConsumesLe ip_list :=
  consumesLe_pDelimited (consumesLe_ws (consumesLe_of_lt (consumesLt_pChar _)))
    (consumesLe_pMany0 (consumesLe_pTerminated
      (consumesLe_ws (consumesLe_of_lt consumesLt_ip_addr))
      (consumesLe_of_lt consumesLt_semicolon)))
    (consumesLe_ws (consumesLe_of_lt (consumesLt_pChar _)))

theorem consumesLe_primary_list : ConsumesLe primary_list :=
  consumesLe_pDelimited (consumesLe_ws (consumesLe_of_lt (consumesLt_pChar _)))
    (consumesLe_pMany0 (consumesLe_pTerminated consumesLe_ip_with_port
      (consumesLe_of_lt consumesLt_semicolon)))
    (consumesLe_ws (consumesLe_of_lt (consumesLt_pChar _)))

theorem consumesLt_parse_type_statement : ConsumesLt parse_type_statement :=
  consumesLt_pFilterMap
    (consumesLt_pSeq_left (consumesLt_ws (consumesLt_pTag _ (by decide)))
      (consumesLe_pSeq (consumesLe_ws (consumesLe_of_lt consumesLt_identifier))
        (consumesLe_of_lt consumesLt_semicolon))) _

theorem consumesLt_parse_file_statement : ConsumesLt parse_file_statement :=
  consumesLt_pMap
    (consumesLt_pSeq_left (consumesLt_ws (consumesLt_pTag _ (by decide)))
      (consumesLe_pSeq (consumesLe_ws consumesLe_quoted_string)
        (consumesLe_of_lt consumesLt_semicolon))) _

theorem consumesLt_parse_primaries_statement : ConsumesLt parse_primaries_statement :=
  consumesLt_pMap
    (consumesLt_pSeq_left
      (consumesLt_ws (consumesLt_pAlt (consumesLt_pTag _ (by decide))
        (consumesLt_pTag _ (by decide))))
      (consumesLe_pSeq consumesLe_primary_list (consumesLe_of_lt consumesLt_semicolon))) _

theorem consumesLt_parse_also_notify_statement : ConsumesLt parse_also_notify_statement :=
  consumesLt_pMap
    (consumesLt_pSeq_left (consumesLt_ws (consumesLt_pTag _ (by decide)))
      (consumesLe_pSeq consumesLe_ip_list (consumesLe_of_lt consumesLt_semicolon))) _

theorem consumesLt_parse_allow_transfer_statement : ConsumesLt parse_allow_transfer_statement :=
  consumesLt_pMap
    (consumesLt_pSeq_left (consumesLt_ws (consumesLt_pTag _ (by decide)))
      (consumesLe_pSeq consumesLe_ip_list (consumesLe_of_lt consumesLt_semicolon))) _

theorem consumesLe_allowUpdateLoop :
    ∀ fuel i r v, allowUpdateLoop fuel i = some (r, v) → r.length ≤ i.length := by
  intro fuel
  induction fuel with
  | zero => intro i r v h; cases h
  | succ fuel ih =>
    intro i r v h
    unfold allowUpdateLoop at h
    have hdw : (i.dropWhile isMultispace).length ≤ i.length := length_dropWhile_le _ _
    cases h1 : pChar '\x7d' (i.dropWhile isMultispace) with
    | some w =>
      obtain ⟨i2, c2⟩ := w
      simp only [h1, Option.some.injEq, Prod.mk.injEq] at h
      obtain ⟨h2, _⟩ := h
      rw [h2] at h1
      have := consumesLt_pChar '\x7d' _ r c2 h1
      omega
    | none =>
      simp only [h1] at h
      cases h2 : ws (pTag "key".data) (i.dropWhile isMultispace) with
      | some w =>
        obtain ⟨i2, k2⟩ := w
        simp only [h2] at h
        have hle2 : i2.length ≤ i.length :=
          Nat.le_trans (consumesLe_ws (consumesLe_pTag _) _ i2 k2 h2) hdw
        cases h3 : pTakeUntil [';'] i2 with
        | none => simp only [h3] at h; cases h
        | some w3 =>
          obtain ⟨i3, s3⟩ := w3
          simp only [h3] at h
          have hle3 : i3.length ≤ i2.length := consumesLe_pTakeUntil _ i2 i3 s3 h3
          cases h4 : pChar ';' i3 with
          | none => simp only [h4] at h; cases h
          | some w4 =>
            obtain ⟨i4, c4⟩ := w4
            simp only [h4] at h
            have hle4 : i4.length ≤ i3.length := Nat.le_of_lt (consumesLt_pChar ';' i3 i4 c4 h4)
            cases h5 : allowUpdateLoop fuel i4 with
            | none => simp only [h5] at h; cases h
            | some w5 =>
              obtain ⟨i5, v5⟩ := w5
              simp only [h5, Option.some.injEq, Prod.mk.injEq] at h
              obtain ⟨h6, _⟩ := h
              rw [h6] at h5
              have := ih i4 r v5 h5
              omega
      | none =>
        simp only [h2] at h
        cases h3 : ip_addr (i.dropWhile isMultispace) with
        | some w3 =>
          obtain ⟨i3, a3⟩ := w3
          simp only [h3] at h
          have hle3 : i3.length ≤ i.length :=
            Nat.le_trans (Nat.le_of_lt (consumesLt_ip_addr _ i3 a3 h3)) hdw
          cases h4 : semicolon i3 with
          | none => simp only [h4] at h; cases h
          | some w4 =>
            obtain ⟨i4, c4⟩ := w4
            simp only [h4] at h
            have hle4 : i4.length ≤ i3.length := Nat.le_of_lt (consumesLt_semicolon i3 i4 c4 h4)
            cases h5 : allowUpdateLoop fuel i4 with
            | none => simp only [h5] at h; cases h
            | some w5 =>
              obtain ⟨i5, v5⟩ := w5
              simp only [h5, Option.some.injEq, Prod.mk.injEq] at h
              obtain ⟨h6, _⟩ := h
              rw [h6] at h5
              have := ih i4 r v5 h5
              omega
        | none =>
          simp only [h3] at h
          cases h4 : pTakeUntil [';'] (i.dropWhile isMultispace) with
          | none => simp only [h4] at h; cases h
          | some w4 =>
            obtain ⟨i4, s4⟩ := w4
            simp only [h4] at h
            have hle4 : i4.length ≤ i.length :=
              Nat.le_trans (consumesLe_pTakeUntil _ _ i4 s4 h4) hdw
            cases h5 : pChar ';' i4 with
            | none => simp only [h5] at h; cases h
            | some w5 =>
              obtain ⟨i5, c5⟩ := w5
              simp only [h5] at h
              have hle5 : i5.length ≤ i4.length :=
                Nat.le_of_lt (consumesLt_pChar ';' i4 i5 c5 h5)
              have := ih i5 r v h
              omega

theorem consumesLt_parse_allow_update_statement : ConsumesLt parse_allow_update_statement := by
  intro i r a h
  unfold parse_allow_update_statement at h
  cases h1 : ws (pTag "allow-update".data) i with
  | none => simp only [h1] at h; cases h
  | some w1 =>
    obtain ⟨i1, t1⟩ := w1
    simp only [h1] at h
    have hlt1 : i1.length < i.length :=
      consumesLt_ws (consumesLt_pTag _ (by decide)) i i1 t1 h1
    cases h2 : ws (pChar '\x7b') i1 with
    | none => simp only [h2] at h; cases h
    | some w2 =>
      obtain ⟨i2, c2⟩ := w2
      simp only [h2] at h
      have hle2 : i2.length ≤ i1.length :=
        consumesLe_ws (consumesLe_of_lt (consumesLt_pChar _)) i1 i2 c2 h2
      cases h3 : allowUpdateLoop (i2.length + 1) i2 with
      | none => simp only [h3] at h; cases h
      | some w3 =>
        obtain ⟨i3, v3⟩ := w3
        simp only [h3] at h
        have hle3 : i3.length ≤ i2.length := consumesLe_allowUpdateLoop _ i2 i3 v3 h3
        cases h4 : semicolon i3 with
        | none => simp only [h4] at h; cases h
        | some w4 =>
          obtain ⟨i4, c4⟩ := w4
          simp only [h4] at h
          have hle4 : i4.length ≤ i3.length := Nat.le_of_lt (consumesLt_semicolon i3 i4 c4 h4)
          obtain ⟨v3a, v3b⟩ := v3
          split at h
          · simp only [Option.some.injEq, Prod.mk.injEq] at h
            obtain ⟨h5, _⟩ := h
            rw [← h5]
            omega
          · simp only [Option.some.injEq, Prod.mk.injEq] at h
            obtain ⟨h5, _⟩ := h
            rw [← h5]
            omega

theorem consumesLt_parse_unknown_statement : ConsumesLt parse_unknown_statement := by
  intro i r a h
  unfold parse_unknown_statement at h
  cases h1 : ws identifier i with
  | none => simp only [h1] at h; cases h
  | some w1 =>
    obtain ⟨i1, n1⟩ := w1
    simp only [h1] at h
    have hlt1 : i1.length < i.length := consumesLt_ws consumesLt_identifier i i1 n1 h1
    cases h2 : pAlt (pDelimited (ws (pChar '\x7b')) (pTakeUntil ['\x7d']) (ws (pChar '\x7d')))
        (pTakeUntil [';']) i1 with
    | none => simp only [h2] at h; cases h
    | some w2 =>
      obtain ⟨i2, s2⟩ := w2
      simp only [h2] at h
      have hle2 : i2.length ≤ i1.length :=
        consumesLe_pAlt
          (consumesLe_pDelimited (consumesLe_ws (consumesLe_of_lt (consumesLt_pChar _)))
            (consumesLe_pTakeUntil _) (consumesLe_ws (consumesLe_of_lt (consumesLt_pChar _))))
          (consumesLe_pTakeUntil _) i1 i2 s2 h2
      cases h3 : semicolon i2 with
      | none => simp only [h3] at h; cases h
      | some w3 =>
        obtain ⟨i3, c3⟩ := w3
        simp only [h3, Option.some.injEq, Prod.mk.injEq] at h
        obtain ⟨h4, _⟩ := h
        rw [h4] at h3
        have := consumesLt_semicolon i2 r c3 h3
        omega

theorem consumesLt_parse_zone_statement : ConsumesLt parse_zone_statement :=
  consumesLt_pAlt consumesLt_parse_type_statement
    (consumesLt_pAlt consumesLt_parse_file_statement
      (consumesLt_pAlt consumesLt_parse_primaries_statement
        (consumesLt_pAlt consumesLt_parse_also_notify_statement
          (consumesLt_pAlt consumesLt_parse_allow_transfer_statement
            (consumesLt_pAlt consumesLt_parse_allow_update_statement
              consumesLt_parse_unknown_statement)))))

end Rndc

end Bindcar

namespace Bindcar

/-! ### Consumption facts for the rndc.conf parser and claim C10 -/

namespace RndcConf

theorem consumesLt_escaped_char : ConsumesLt escaped_char := by
  intro i r a h
  unfold escaped_char at h
  cases i with
  | nil => cases h
  | cons b tail =>
    cases tail with
    | nil => cases h
    | cons c rest =>
      simp only at h
      split at h
      · split at h
        · cases h; simp only [List.length_cons]; omega
        · split at h
          · cases h; simp only [List.length_cons]; omega
          · split at h
            · cases h; simp only [List.length_cons]; omega
            · split at h
              · cases h; simp only [List.length_cons]; omega
              · split at h
                · cases h; simp only [List.length_cons]; omega
                · cases h
      · cases h

theorem consumesLe_comment : ConsumesLe comment :=
  consumesLe_pAlt (consumesLe_pValue _ (consumesLe_pSeq (consumesLe_pTag _) (consumesLe_pTakeWhile _)))
    (consumesLe_pAlt
      (consumesLe_pValue _ (consumesLe_pSeq (consumesLe_of_lt (consumesLt_pChar _)) (consumesLe_pTakeWhile _)))
      (consumesLe_pValue _ (consumesLe_pSeq (consumesLe_pTag _)
        (consumesLe_pSeq (consumesLe_pTakeUntil _) (consumesLe_pTag _)))))

theorem consumesLe_skip : ConsumesLe skip :=
  consumesLe_pMany0 (consumesLe_pAlt
    (consumesLe_pValue _ (consumesLe_of_lt (consumesLt_pTakeWhile1 _))) consumesLe_comment)

theorem consumesLe_conf_ws {α : Type} {f : Parser α} (hf : ConsumesLe f) : ConsumesLe (ws f) :=
  consumesLe_pDelimited consumesLe_skip hf consumesLe_skip

theorem consumesLt_conf_ws {α : Type} {f : Parser α} (hf : ConsumesLt f) : ConsumesLt (ws f) :=
  consumesLt_pMap
    (consumesLt_pSeq_right consumesLe_skip (consumesLt_pSeq_left hf consumesLe_skip)) _

theorem consumesLt_conf_semicolon : ConsumesLt semicolon :=
  consumesLt_conf_ws (consumesLt_pChar _)

theorem consumesLe_conf_quoted_string : ConsumesLe quoted_string :=
  consumesLe_pDelimited (consumesLe_of_lt (consumesLt_pChar _))
    (consumesLe_pMap (consumesLe_pMany0 (consumesLe_pAlt
      (consumesLe_pMap (consumesLe_of_lt consumesLt_escaped_char) _)
      (consumesLe_of_lt (consumesLt_pTakeWhile1 _)))) _)
    (consumesLe_of_lt (consumesLt_pChar _))

theorem consumesLe_conf_ip_addr : ConsumesLe ip_addr :=
  consumesLe_pAlt
    (consumesLe_pFilterMap (consumesLe_of_lt (consumesLt_pTakeWhile1 _)) _)
    (consumesLe_pFilterMap (consumesLe_pRecognize
      (consumesLe_pSeq (consumesLe_of_lt (consumesLt_pTakeWhile1 _))
        (consumesLe_pSeq (consumesLe_of_lt (consumesLt_pChar _))
          (consumesLe_pSeq (consumesLe_of_lt (consumesLt_pTakeWhile1 _))
            (consumesLe_pSeq (consumesLe_of_lt (consumesLt_pChar _))
              (consumesLe_pSeq (consumesLe_of_lt (consumesLt_pTakeWhile1 _))
                (consumesLe_pSeq (consumesLe_of_lt (consumesLt_pChar _))
                  (consumesLe_of_lt (consumesLt_pTakeWhile1 _))))))))) _)

theorem consumesLe_port_number : ConsumesLe port_number :=
  consumesLe_pMap (consumesLe_of_lt (consumesLt_pTakeWhile1 _)) _

theorem consumesLe_server_address : ConsumesLe server_address :=
  consumesLe_pAlt (consumesLe_pMap consumesLe_conf_ip_addr _)
    (consumesLe_pMap (consumesLe_of_lt (consumesLt_pTakeWhile1 _)) _)

theorem consumesLe_parse_key_field : ConsumesLe parse_key_field :=
  consumesLe_pAlt
    (consumesLe_pMap (consumesLe_pSeq (consumesLe_conf_ws (consumesLe_pTag _))
      (consumesLe_pSeq (consumesLe_conf_ws (consumesLe_of_lt (consumesLt_pTakeWhile1 _)))
        (consumesLe_of_lt consumesLt_conf_semicolon))) _)
    (consumesLe_pMap (consumesLe_pSeq (consumesLe_conf_ws (consumesLe_pTag _))
      (consumesLe_pSeq (consumesLe_conf_ws consumesLe_conf_quoted_string)
        (consumesLe_of_lt consumesLt_conf_semicolon))) _)

theorem consumesLe_parse_server_field : ConsumesLe parse_server_field :=
  consumesLe_pAlt
    (consumesLe_pMap (consumesLe_pSeq (consumesLe_conf_ws (consumesLe_pTag _))
      (consumesLe_pSeq (consumesLe_conf_ws consumesLe_conf_quoted_string)
        (consumesLe_of_lt consumesLt_conf_semicolon))) _)
    (consumesLe_pAlt
      (consumesLe_pMap (consumesLe_pSeq (consumesLe_conf_ws (consumesLe_pTag _))
        (consumesLe_pSeq (consumesLe_conf_ws consumesLe_port_number)
          (consumesLe_of_lt consumesLt_conf_semicolon))) _)
      (consumesLe_pMap (consumesLe_pSeq (consumesLe_conf_ws (consumesLe_pTag _))
        (consumesLe_pDelimited (consumesLe_conf_ws (consumesLe_of_lt (consumesLt_pChar _)))
          (consumesLe_pSepList0 (consumesLe_of_lt consumesLt_conf_semicolon)
            (consumesLe_conf_ws consumesLe_conf_ip_addr))
          (consumesLe_conf_ws (consumesLe_pTag _)))) _))

theorem consumesLe_parse_option_field : ConsumesLe parse_option_field :=
  consumesLe_pAlt
    (consumesLe_pMap (consumesLe_pSeq (consumesLe_conf_ws (consumesLe_pTag _))
      (consumesLe_pSeq (consumesLe_conf_ws (consumesLe_of_lt (consumesLt_pTakeWhile1 _)))
        (consumesLe_of_lt consumesLt_conf_semicolon))) _)
    (consumesLe_pAlt
      (consumesLe_pMap (consumesLe_pSeq (consumesLe_conf_ws (consumesLe_pTag _))
        (consumesLe_pSeq (consumesLe_conf_ws consumesLe_conf_quoted_string)
          (consumesLe_of_lt consumesLt_conf_semicolon))) _)
      (consumesLe_pMap (consumesLe_pSeq (consumesLe_conf_ws (consumesLe_pTag _))
        (consumesLe_pSeq (consumesLe_conf_ws consumesLe_port_number)
          (consumesLe_of_lt consumesLt_conf_semicolon))) _))

theorem consumesLt_parse_include_stmt : ConsumesLt parse_include_stmt :=
  consumesLt_pMap
    (consumesLt_pSeq_left (consumesLt_conf_ws (consumesLt_pTag _ (by decide)))
      (consumesLe_pSeq (consumesLe_conf_ws consumesLe_conf_quoted_string)
        (consumesLe_of_lt consumesLt_conf_semicolon))) _

theorem consumesLt_parse_key_block : ConsumesLt parse_key_block :=
  consumesLt_pMap
    (consumesLt_pSeq_left (consumesLt_conf_ws (consumesLt_pTag _ (by decide)))
      (consumesLe_pSeq (consumesLe_conf_ws consumesLe_conf_quoted_string)
        (consumesLe_pDelimited (consumesLe_conf_ws (consumesLe_of_lt (consumesLt_pChar _)))
          (consumesLe_pMany0 consumesLe_parse_key_field)
          (consumesLe_conf_ws (consumesLe_pTag _))))) _

theorem consumesLt_parse_server_block : ConsumesLt parse_server_block :=
  consumesLt_pMap
    (consumesLt_pSeq_left (consumesLt_conf_ws (consumesLt_pTag _ (by decide)))
      (consumesLe_pSeq (consumesLe_conf_ws consumesLe_server_address)
        (consumesLe_pDelimited (consumesLe_conf_ws (consumesLe_of_lt (consumesLt_pChar _)))
          (consumesLe_pMany0 consumesLe_parse_server_field)
          (consumesLe_conf_ws (consumesLe_pTag _))))) _

theorem consumesLt_parse_options_block : ConsumesLt parse_options_block :=
  consumesLt_pMap
    (consumesLt_pSeq_left (consumesLt_conf_ws (consumesLt_pTag _ (by decide)))
      (consumesLe_pDelimited (consumesLe_conf_ws (consumesLe_of_lt (consumesLt_pChar _)))
        (consumesLe_pMany0 consumesLe_parse_option_field)
        (consumesLe_conf_ws (consumesLe_pTag _)))) _

theorem consumesLt_parse_statement : ConsumesLt parse_statement :=
  consumesLt_pAlt (consumesLt_pMap consumesLt_parse_include_stmt _)
    (consumesLt_pAlt (consumesLt_pMap consumesLt_parse_key_block _)
      (consumesLt_pAlt (consumesLt_pMap consumesLt_parse_server_block _)
        (consumesLt_pMap consumesLt_parse_options_block _)))

end RndcConf

end Bindcar

namespace Bindcar

/-- C10: for every input string, including malformed ones,
`parse_rndc_conf_str` returns Ok — the top-level parser consumes as many
leading well-formed statements as it can and silently discards any remaining
unparseable suffix, never returning the error variants. -/
theorem C10_conf_parse_total (s : List Char) :
    exceptIsOk (RndcConf.parse_rndc_conf_str s) = true := by
  unfold RndcConf.parse_rndc_conf_str RndcConf.parse_rndc_conf_internal
  have h := pMany0_isSome (RndcConf.consumesLt_conf_ws RndcConf.consumesLt_parse_statement) s
  cases h2 : pMany0 (RndcConf.ws RndcConf.parse_statement) s with
  | none => rw [h2] at h; cases h
  | some v =>
    obtain ⟨i1, stmts⟩ := v
    simp only [h2, exceptIsOk]

/-- C3: the serializer prefers the raw allow-update text whenever present
(never the typed list), emits the typed list only when the raw text is absent
and the list non-empty, emits nothing when the raw text is absent and the
typed list is empty or absent, and the emitted part occurs among the parts of
`to_rndc_block`. -/
theorem C3_allow_update_preference (cfg : ZoneConfig) :
    (∀ r, cfg.allow_update_raw = some r →
      allowUpdatePart cfg = some ("allow-update ".data ++ stripRawValue r)) ∧
    (cfg.allow_update_raw = none → ∀ l, cfg.allow_update = some l → l ≠ [] →
      allowUpdatePart cfg = some (bracePart "allow-update".data (l.map ipToChars))) ∧
    (cfg.allow_update_raw = none → (cfg.allow_update = none ∨ cfg.allow_update = some []) →
      allowUpdatePart cfg = none) ∧
    (∀ p, allowUpdatePart cfg = some p → p ∈ toRndcParts cfg) := by
  refine ⟨?_, ?_, ?_, ?_⟩
  · intro r h
    unfold allowUpdatePart
    rw [h]
  · intro h l h2 h3
    unfold allowUpdatePart
    rw [h, h2]
    simp [h3]
  · intro h h2
    unfold allowUpdatePart
    rcases h2 with h2 | h2 <;> rw [h, h2] <;> simp
  · intro p h
    unfold toRndcParts
    simp only [List.mem_append, h]
    simp

/-- Witness for C3 at a configuration carrying both representations. -/
theorem C3_witness :
    allowUpdatePart c3wit = some "allow-update \x7b key \"bindy-operator\"; \x7d".data ∧
    "allow-update \x7b key \"bindy-operator\"; \x7d".data ∈ toRndcParts c3wit := by
  have h := C3_allow_update_preference c3wit
  have h1 := h.1 "\x7b key \"bindy-operator\"; \x7d;".data rfl
  have h2 : allowUpdatePart c3wit = some "allow-update \x7b key \"bindy-operator\"; \x7d".data :=
    h1.trans (by rfl)
  exact ⟨h2, h.2.2.2 _ h2⟩

/-- C5 counterexample: a port whose decimal value exceeds 65535 does not make
the parse fail — `port_number` substitutes the default port 953 and the
surrounding server-port field succeeds. -/
theorem C5_counterexample :
    RndcConf.port_number "70000".data = some ([], 953) ∧
    RndcConf.parse_server_port_field "port 70000;".data =
      some ([], .Port 953) ∧
    65535 < decDigitsVal "70000".data := by
  refine ⟨by rfl, by rfl, by decide⟩

/-- C5 as amended: for every decimal digit string whose numeric value exceeds
65535, `port_number` succeeds and substitutes the default port 953 (rather
than failing or wrapping). -/
theorem C5_amended (ds : List Char) (hne : ds ≠ [])
    (hdig : ∀ c ∈ ds, c.isDigit = true) (hov : 65535 < decDigitsVal ds) :
    RndcConf.port_number ds = some ([], 953) := by
  unfold RndcConf.port_number RndcConf.digit1 pMap pTakeWhile1
  cases ds with
  | nil => exact absurd rfl hne
  | cons c rest =>
    have hc : c.isDigit = true := hdig c (List.mem_cons_self c rest)
    have hall : ∀ x ∈ c :: rest, Char.isDigit x = true := hdig
    have hdrop : (c :: rest).dropWhile Char.isDigit = [] := by
      rw [List.dropWhile_eq_nil_iff]
      intro x hx
      exact hall x hx
    have htake : (c :: rest).takeWhile Char.isDigit = c :: rest := by
      rw [List.takeWhile_eq_self_iff]
      intro x hx
      exact hall x hx
    simp only [hc, if_pos, hdrop, htake]
    have hval : u16FromDigits (c :: rest) = none := by
      unfold u16FromDigits
      have hgt : ¬ decDigitsVal (c :: rest) ≤ 65535 := by omega
      rw [if_neg hgt]
    rw [hval]
    rfl

/-- Witness for C5 as amended, at the digit string 99999. -/
theorem C5_witness : RndcConf.port_number "99999".data = some ([], 953) :=
  C5_amended "99999".data (by decide) (by decide) (by decide)

/-- C4 counterexample: a raw option value that already carries a trailing
semicolon pattern the single-pass strip cannot remove (`"full; ;"` strips to
`"full;"`) makes the serialized block contain `;;`. -/
theorem C4_counterexample :
    c4cex.raw_options = [("zone-statistics".data, "full; ;".data)] ∧
    containsSub [';', ';'] c4cex.to_rndc_block = true := by
  exact ⟨rfl, by rfl⟩

/-- C6 counterexample: the rndc.conf IP parser accepts `10.244.1.18/32` and
returns the address of `10.244.1.18`, but leaves the suffix `/32` unconsumed
instead of discarding it, so an addresses list containing a CIDR-suffixed
entry fails to parse. -/
theorem C6_counterexample :
    RndcConf.ip_addr "10.244.1.18/32".data = some ("/32".data, IpAddr.v4 10 244 1 18) ∧
    "/32".data ≠ ([] : List Char) ∧
    RndcConf.parse_server_addresses_field "addresses \x7b 10.244.1.18/32; \x7d;".data = none := by
  refine ⟨by rfl, by decide, by rfl⟩

set_option maxRecDepth 10000 in
/-- C1 counterexample: a configuration with empty raw options whose only
optional typed field is notify does not round-trip: the reparsed
configuration has no typed notify value (the directive lands in the raw
option map instead). -/
theorem C1_counterexample :
    c1cex.raw_options = [] ∧
    Rndc.parse_showzone (zoneHeader c1cex ++ c1cex.to_rndc_block) =
      .ok { c1cex with
            notify := none
            raw_options := [("notify".data, "yes".data)] } ∧
    ({ c1cex with
       notify := none
       raw_options := [("notify".data, "yes".data)] } : ZoneConfig).notify ≠ c1cex.notify := by
  refine ⟨rfl, by rfl, by decide⟩

end Bindcar

namespace Bindcar

/-! ## Evaluation lemmas for symbolic inputs -/

theorem takeWhile_append_all {p : Char → Bool} (s rest : List Char)
    (h : ∀ c ∈ s, p c = true) :
    (s ++ rest).takeWhile p = s ++ rest.takeWhile p := by
  induction s with
  | nil => simp
  | cons c s2 ih =>
    have hc := h c (List.mem_cons_self c s2)
    simp only [List.cons_append, List.takeWhile_cons, hc, if_pos, List.cons.injEq]
    exact ⟨trivial, ih (fun x hx => h x (List.mem_cons_of_mem c hx))⟩

theorem dropWhile_append_all {p : Char → Bool} (s rest : List Char)
    (h : ∀ c ∈ s, p c = true) :
    (s ++ rest).dropWhile p = rest.dropWhile p := by
  induction s with
  | nil => simp
  | cons c s2 ih =>
    have hc := h c (List.mem_cons_self c s2)
    simp only [List.cons_append, List.dropWhile_cons, hc, if_pos]
    exact ih (fun x hx => h x (List.mem_cons_of_mem c hx))

/-- The normal form `rest.dropWhile p = rest` says `rest` does not start with
a `p`-character; `takeWhile` is then empty. -/
theorem takeWhile_eq_nil_of_dropWhile_self {p : Char → Bool} {rest : List Char}
    (h : rest.dropWhile p = rest) : rest.takeWhile p = [] := by
  cases rest with
  | nil => simp
  | cons c r2 =>
    simp only [List.dropWhile_cons] at h
    split at h
    · have : (c :: r2).length ≤ r2.length := by
        conv_lhs => rw [← h]
        exact length_dropWhile_le p r2
      simp at this
    next hc => simp [List.takeWhile_cons, hc]

theorem head_false_of_dropWhile_self {p : Char → Bool} {c : Char} {r2 : List Char}
    (h : (c :: r2).dropWhile p = c :: r2) : p c = false := by
  by_contra hc
  simp only [List.dropWhile_cons] at h
  rw [if_pos (by revert hc; cases p c <;> simp)] at h
  have : (c :: r2).length ≤ r2.length := by
    conv_lhs => rw [← h]
    exact length_dropWhile_le p r2
  simp at this

/-- `pTakeWhile1` on `s ++ rest` where all of `s` satisfies the predicate and
`rest` starts with a failing character: exactly `s` is consumed. -/
theorem pTakeWhile1_eval {p : Char → Bool} {s rest : List Char}
    (hne : s ≠ []) (hall : ∀ c ∈ s, p c = true)
    (hrest : rest.dropWhile p = rest) :
    pTakeWhile1 p (s ++ rest) = some (rest, s) := by
  cases s with
  | nil => exact absurd rfl hne
  | cons c s2 =>
    have hc := hall c (List.mem_cons_self c s2)
    unfold pTakeWhile1
    simp only [List.cons_append]
    rw [if_pos hc]
    have h1 : ((c :: s2) ++ rest).dropWhile p = rest := by
      rw [dropWhile_append_all _ _ hall, hrest]
    have h2 : ((c :: s2) ++ rest).takeWhile p = c :: s2 := by
      rw [takeWhile_append_all _ _ hall, takeWhile_eq_nil_of_dropWhile_self hrest,
        List.append_nil]
    simp only [List.cons_append] at h1 h2
    rw [h1, h2]

/-- `pTakeWhile` under the same conditions. -/
theorem pTakeWhile_eval {p : Char → Bool} {s rest : List Char}
    (hall : ∀ c ∈ s, p c = true) (hrest : rest.dropWhile p = rest) :
    pTakeWhile p (s ++ rest) = some (rest, s) := by
  unfold pTakeWhile
  rw [dropWhile_append_all _ _ hall, hrest, takeWhile_append_all _ _ hall,
    takeWhile_eq_nil_of_dropWhile_self hrest, List.append_nil]

theorem pTag_append (s rest : List Char) : pTag s (s ++ rest) = some (rest, s) := by
  unfold pTag
  rw [if_pos (List.isPrefixOf_iff_prefix.mpr (List.prefix_append s rest))]
  rw [List.drop_left]

theorem pTag_cons_ne {c d : Char} {s i : List Char} (h : c ≠ d) :
    pTag (c :: s) (d :: i) = none := by
  unfold pTag
  rw [if_neg]
  intro hpre
  obtain ⟨t, ht⟩ := List.isPrefixOf_iff_prefix.mp hpre
  simp only [List.cons_append, List.cons.injEq] at ht
  exact h ht.1

theorem pChar_cons (c : Char) (rest : List Char) : pChar c (c :: rest) = some (rest, c) := by
  unfold pChar
  simp

theorem pChar_cons_ne {c d : Char} (rest : List Char) (h : d ≠ c) :
    pChar c (d :: rest) = none := by
  unfold pChar
  simp [h]

/-- `splitAtSub` with a single-character pattern that does not occur in the
prefix. -/
theorem splitAtSub_single {c : Char} {s rest : List Char} (h : c ∉ s) :
    splitAtSub [c] (s ++ c :: rest) = some (s, c :: rest) := by
  induction s with
  | nil =>
    simp only [List.nil_append]
    unfold splitAtSub
    have hp : [c].isPrefixOf (c :: rest) = true :=
      List.isPrefixOf_iff_prefix.mpr ⟨rest, rfl⟩
    rw [if_pos hp]
  | cons x s2 ih =>
    have hx : x ≠ c := by
      intro he
      exact h (he ▸ List.mem_cons_self x s2)
    simp only [List.cons_append]
    unfold splitAtSub
    rw [if_neg]
    · rw [ih (fun hm => h (List.mem_cons_of_mem x hm))]
    · intro hpre
      obtain ⟨t, ht⟩ := List.isPrefixOf_iff_prefix.mp hpre
      simp only [List.cons_append, List.cons.injEq] at ht
      exact hx ht.1.symm

theorem pTakeUntil_single {c : Char} {s rest : List Char} (h : c ∉ s) :
    pTakeUntil [c] (s ++ c :: rest) = some (c :: rest, s) := by
  unfold pTakeUntil
  rw [splitAtSub_single h]

end Bindcar

namespace Bindcar

theorem pSeq_eval {α β : Type} {f : Parser α} {g : Parser β} {i i1 i2 : Input} {a : α} {b : β}
    (hf : f i = some (i1, a)) (hg : g i1 = some (i2, b)) :
    pSeq f g i = some (i2, (a, b)) := by
  unfold pSeq
  simp only [hf, hg]

theorem pMap_eval {α β : Type} {f : Parser α} {fn : α → β} {i i1 : Input} {a : α}
    (hf : f i = some (i1, a)) : pMap f fn i = some (i1, fn a) := by
  unfold pMap
  simp only [hf]

theorem pMap_none {α β : Type} {f : Parser α} {fn : α → β} {i : Input}
    (hf : f i = none) : pMap f fn i = none := by
  unfold pMap
  simp only [hf]

theorem pValue_eval {α β : Type} {f : Parser α} {b : β} {i i1 : Input} {a : α}
    (hf : f i = some (i1, a)) : pValue b f i = some (i1, b) :=
  pMap_eval hf

theorem pFilterMap_eval {α β : Type} {f : Parser α} {g : α → Option β} {i i1 : Input}
    {a : α} {b : β} (hf : f i = some (i1, a)) (hg : g a = some b) :
    pFilterMap f g i = some (i1, b) := by
  unfold pFilterMap
  simp only [hf, hg]

theorem pFilterMap_none_inner {α β : Type} {f : Parser α} {g : α → Option β} {i i1 : Input}
    {a : α} (hf : f i = some (i1, a)) (hg : g a = none) :
    pFilterMap f g i = none := by
  unfold pFilterMap
  simp only [hf, hg]

theorem pFilterMap_none {α β : Type} {f : Parser α} {g : α → Option β} {i : Input}
    (hf : f i = none) : pFilterMap f g i = none := by
  unfold pFilterMap
  simp only [hf]

theorem pOpt_eval_some {α : Type} {f : Parser α} {i i1 : Input} {a : α}
    (hf : f i = some (i1, a)) : pOpt f i = some (i1, some a) := by
  unfold pOpt
  simp only [hf]

theorem pOpt_eval_none {α : Type} {f : Parser α} {i : Input}
    (hf : f i = none) : pOpt f i = some (i, none) := by
  unfold pOpt
  simp only [hf]

theorem pPreceded_eval {α β : Type} {f : Parser α} {g : Parser β} {i i1 i2 : Input}
    {a : α} {b : β} (hf : f i = some (i1, a)) (hg : g i1 = some (i2, b)) :
    pPreceded f g i = some (i2, b) := by
  unfold pPreceded
  rw [pMap_eval (pSeq_eval hf hg)]

theorem pTerminated_eval {α β : Type} {f : Parser α} {g : Parser β} {i i1 i2 : Input}
    {a : α} {b : β} (hf : f i = some (i1, a)) (hg : g i1 = some (i2, b)) :
    pTerminated f g i = some (i2, a) := by
  unfold pTerminated
  rw [pMap_eval (pSeq_eval hf hg)]

theorem pDelimited_eval {α β γ : Type} {l : Parser α} {f : Parser β} {r : Parser γ}
    {i i1 i2 i3 : Input} {a : α} {b : β} {c : γ}
    (hl : l i = some (i1, a)) (hf : f i1 = some (i2, b)) (hr : r i2 = some (i3, c)) :
    pDelimited l f r i = some (i3, b) := by
  unfold pDelimited
  rw [pMap_eval (pSeq_eval hl (pSeq_eval hf hr))]

theorem pAlt_eval_left {α : Type} {f g : Parser α} {i i1 : Input} {a : α}
    (hf : f i = some (i1, a)) : pAlt f g i = some (i1, a) := by
  unfold pAlt
  simp only [hf]

theorem pAlt_eval_right {α : Type} {f g : Parser α} {i : Input}
    (hf : f i = none) : pAlt f g i = g i := by
  unfold pAlt
  simp only [hf]

theorem pMany0Go_congr {α : Type} {f : Parser α} :
    ∀ f1 f2 i, i.length < f1 → i.length < f2 → pMany0Go f f1 i = pMany0Go f f2 i := by
  intro f1
  induction f1 with
  | zero => intro f2 i h1 h2; omega
  | succ f1 ih =>
    intro f2 i h1 h2
    cases f2 with
    | zero => omega
    | succ f2 =>
      unfold pMany0Go
      cases hf : f i with
      | none => rfl
      | some v =>
        obtain ⟨i2, a⟩ := v
        simp only
        by_cases hlt : i2.length < i.length
        · rw [if_pos hlt, if_pos hlt, ih f2 i2 (by omega) (by omega)]
        · rw [if_neg hlt, if_neg hlt]

theorem pMany0_eval_nil {α : Type} {f : Parser α} {i : Input} (hf : f i = none) :
    pMany0 f i = some (i, []) := by
  unfold pMany0 pMany0Go
  simp only [hf]

theorem pMany0_eval_cons {α : Type} {f : Parser α} {i i1 r : Input} {a : α} {as : List α}
    (hf : f i = some (i1, a)) (hlt : i1.length < i.length)
    (hrest : pMany0 f i1 = some (r, as)) :
    pMany0 f i = some (r, a :: as) := by
  unfold pMany0
  unfold pMany0Go
  simp only [hf, hlt, if_pos]
  rw [pMany0Go_congr i.length (i1.length + 1) i1 (by omega) (by omega)]
  unfold pMany0 at hrest
  rw [hrest]

end Bindcar

namespace Bindcar

theorem pSeq_none_left {α β : Type} {f : Parser α} {g : Parser β} {i : Input}
    (hf : f i = none) : pSeq f g i = none := by
  unfold pSeq
  simp only [hf]

theorem pSeq_none_right {α β : Type} {f : Parser α} {g : Parser β} {i i1 : Input} {a : α}
    (hf : f i = some (i1, a)) (hg : g i1 = none) : pSeq f g i = none := by
  unfold pSeq
  simp only [hf, hg]

theorem pPreceded_none_left {α β : Type} {f : Parser α} {g : Parser β} {i : Input}
    (hf : f i = none) : pPreceded f g i = none := by
  unfold pPreceded
  rw [pMap_none (pSeq_none_left hf)]

theorem pChar_nil (c : Char) : pChar c [] = none := rfl

theorem pTakeWhile1_all {p : Char → Bool} {s : List Char}
    (hne : s ≠ []) (hall : ∀ c ∈ s, p c = true) : pTakeWhile1 p s = some ([], s) := by
  have h := @pTakeWhile1_eval p s [] hne hall (by simp)
  simpa using h

theorem pRecognize_eval {α : Type} {f : Parser α} {s rest : Input} {a : α}
    (hf : f (s ++ rest) = some (rest, a)) :
    pRecognize f (s ++ rest) = some (rest, s) := by
  unfold pRecognize
  simp only [hf, Option.some.injEq, Prod.mk.injEq]
  constructor
  · trivial
  · rw [List.length_append, Nat.add_sub_cancel, List.take_left]

theorem splitAtSub_none_of_not_mem {c : Char} {p s : List Char} (h : c ∉ s) :
    splitAtSub (c :: p) s = none := by
  induction s with
  | nil =>
    unfold splitAtSub
    rw [if_neg]
    intro hpre
    obtain ⟨t, ht⟩ := List.isPrefixOf_iff_prefix.mp hpre
    cases ht
  | cons x s2 ih =>
    have hx : x ≠ c := fun he => h (he ▸ List.mem_cons_self x s2)
    unfold splitAtSub
    rw [if_neg, ih (fun hm => h (List.mem_cons_of_mem x hm))]
    intro hpre
    obtain ⟨t, ht⟩ := List.isPrefixOf_iff_prefix.mp hpre
    simp only [List.cons_append, List.cons.injEq] at ht
    exact hx ht.1.symm

theorem containsSub_false_of_not_mem {c : Char} {p s : List Char} (h : c ∉ s) :
    containsSub (c :: p) s = false := by
  unfold containsSub
  rw [splitAtSub_none_of_not_mem h]
  rfl

/-- The showzone `ip_addr` on a valid literal followed by a CIDR suffix:
the suffix is consumed and discarded. -/
theorem rndc_ip_addr_cidr {s d : List Char} {a : IpAddr}
    (hs : s ≠ []) (hall : ∀ c ∈ s, Rndc.isIpChar c = true) (hp : rustParseIp s = some a)
    (hd : d ≠ []) (hdig : ∀ c ∈ d, c.isDigit = true) :
    Rndc.ip_addr (s ++ '/' :: d) = some ([], a) := by
  unfold Rndc.ip_addr
  have hslash : Rndc.isIpChar '/' = false := by decide
  have h1 : pTakeWhile1 Rndc.isIpChar (s ++ '/' :: d) = some ('/' :: d, s) :=
    pTakeWhile1_eval hs hall (by rw [List.dropWhile_cons, hslash]; simp)
  exact pTerminated_eval (pFilterMap_eval h1 hp)
    (pOpt_eval_some (pPreceded_eval (pChar_cons '/' d) (pTakeWhile1_all hd hdig)))

/-- The showzone `ip_addr` on a valid literal alone. -/
theorem rndc_ip_addr_plain {s : List Char} {a : IpAddr}
    (hs : s ≠ []) (hall : ∀ c ∈ s, Rndc.isIpChar c = true) (hp : rustParseIp s = some a) :
    Rndc.ip_addr s = some ([], a) := by
  unfold Rndc.ip_addr
  exact pTerminated_eval (pFilterMap_eval (pTakeWhile1_all hs hall) hp)
    (pOpt_eval_none (pPreceded_none_left (pChar_nil '/')))

/-- The rndc.conf `ipv6_addr` on a colon-form literal followed by any suffix
not starting with a hex digit or colon: the suffix is left unconsumed. -/
theorem conf_ipv6_addr_eval {s rest : List Char} {a : IpAddr}
    (hs : s ≠ []) (hall : ∀ c ∈ s, ((hexDigitVal c).isSome || c = ':') = true)
    (hcheck : containsSub [':', ':'] s = true ∨ 2 ≤ s.count ':')
    (hp : rustParseIp s = some a)
    (hrest : rest.dropWhile (fun c => (hexDigitVal c).isSome || c = ':') = rest) :
    RndcConf.ipv6_addr (s ++ rest) = some (rest, a) := by
  unfold RndcConf.ipv6_addr
  refine pFilterMap_eval (pTakeWhile1_eval hs hall hrest) ?_
  rcases hcheck with hc | hc
  · rw [hc]
    simpa using hp
  · have : (s.count ':' < 2) = False := by simp; omega
    rw [if_neg]
    · exact hp
    · simp only [Bool.and_eq_true, Bool.not_eq_true', decide_eq_true_eq]
      intro hfalse
      omega

/-- The rndc.conf `ipv4_addr` on a dotted-quad literal followed by any suffix
not starting with a digit: the suffix is left unconsumed. -/
theorem conf_ipv4_addr_eval {d1 d2 d3 d4 rest : List Char} {a : IpAddr}
    (h1 : d1 ≠ []) (h2 : d2 ≠ []) (h3 : d3 ≠ []) (h4 : d4 ≠ [])
    (hd1 : ∀ c ∈ d1, c.isDigit = true) (hd2 : ∀ c ∈ d2, c.isDigit = true)
    (hd3 : ∀ c ∈ d3, c.isDigit = true) (hd4 : ∀ c ∈ d4, c.isDigit = true)
    (hp : rustParseIp (d1 ++ '.' :: d2 ++ '.' :: d3 ++ '.' :: d4) = some a)
    (hrest : rest.dropWhile Char.isDigit = rest) :
    RndcConf.ipv4_addr ((d1 ++ '.' :: d2 ++ '.' :: d3 ++ '.' :: d4) ++ rest) =
      some (rest, a) := by
  unfold RndcConf.ipv4_addr RndcConf.digit1
  have hdot : ∀ x : List Char, ('.' :: x).dropWhile Char.isDigit = '.' :: x := by
    intro x
    rw [List.dropWhile_cons]
    simp
  have e4 : pTakeWhile1 Char.isDigit (d4 ++ rest) = some (rest, d4) :=
    pTakeWhile1_eval h4 hd4 hrest
  have e3 : pTakeWhile1 Char.isDigit (d3 ++ '.' :: (d4 ++ rest)) = some ('.' :: (d4 ++ rest), d3) :=
    pTakeWhile1_eval h3 hd3 (hdot _)
  have e2 : pTakeWhile1 Char.isDigit (d2 ++ '.' :: (d3 ++ '.' :: (d4 ++ rest))) =
      some ('.' :: (d3 ++ '.' :: (d4 ++ rest)), d2) :=
    pTakeWhile1_eval h2 hd2 (hdot _)
  have e1 : pTakeWhile1 Char.isDigit (d1 ++ '.' :: (d2 ++ '.' :: (d3 ++ '.' :: (d4 ++ rest)))) =
      some ('.' :: (d2 ++ '.' :: (d3 ++ '.' :: (d4 ++ rest))), d1) :=
    pTakeWhile1_eval h1 hd1 (hdot _)
  have heq : (d1 ++ '.' :: d2 ++ '.' :: d3 ++ '.' :: d4) ++ rest =
      d1 ++ '.' :: (d2 ++ '.' :: (d3 ++ '.' :: (d4 ++ rest))) := by
    simp [List.append_assoc]
  have hchain := pSeq_eval e1 (pSeq_eval (pChar_cons '.' _) (pSeq_eval e2
    (pSeq_eval (pChar_cons '.' _) (pSeq_eval e3 (pSeq_eval (pChar_cons '.' _) e4)))))
  rw [← heq] at hchain
  exact pFilterMap_eval (pRecognize_eval hchain) hp

end Bindcar

namespace Bindcar

theorem hexDigitVal_isSome_of_isDigit {c : Char} (h : c.isDigit = true) :
    (hexDigitVal c).isSome = true := by
  unfold hexDigitVal
  rw [if_pos h]
  rfl

/-- The rndc.conf `ipv6_addr` fails on input starting with a digit run that
is followed by a non-hex non-colon character: the taken run has no colons. -/
theorem conf_ipv6_none_digits {d1 rest2 : List Char}
    (h1 : d1 ≠ []) (hd1 : ∀ c ∈ d1, c.isDigit = true)
    (hr : rest2.dropWhile (fun c => (hexDigitVal c).isSome || c = ':') = rest2) :
    RndcConf.ipv6_addr (d1 ++ rest2) = none := by
  unfold RndcConf.ipv6_addr
  have hall : ∀ c ∈ d1, ((hexDigitVal c).isSome || c = ':') = true := by
    intro c hc
    rw [hexDigitVal_isSome_of_isDigit (hd1 c hc)]
    rfl
  have hnc : ':' ∉ d1 := by
    intro hm
    have := hd1 ':' hm
    exact absurd this (by decide)
  refine pFilterMap_none_inner (pTakeWhile1_eval h1 hall hr) ?_
  rw [if_pos]
  rw [containsSub_false_of_not_mem hnc]
  have : d1.count ':' = 0 := List.count_eq_zero.mpr hnc
  simp [this]

/-- C6: the claim as amended.  For every valid IP literal and nonempty digit
string: the showzone parser's ip_addr consumes and discards the `/<digits>`
suffix, returning the same typed address as for the literal alone; the
rndc.conf parser's ip_addr (both its IPv6 hex-colon and IPv4 dotted-quad
branches) also returns the same typed address but leaves the suffix
unconsumed rather than discarding it. -/
theorem C6_amended :
    (∀ s d a, s ≠ [] → (∀ c ∈ s, Rndc.isIpChar c = true) → rustParseIp s = some a →
      d ≠ [] → (∀ c ∈ d, c.isDigit = true) →
      Rndc.ip_addr (s ++ '/' :: d) = some ([], a) ∧ Rndc.ip_addr s = some ([], a)) ∧
    (∀ s d a, s ≠ [] → (∀ c ∈ s, ((hexDigitVal c).isSome || c = ':') = true) →
      (containsSub [':', ':'] s = true ∨ 2 ≤ s.count ':') → rustParseIp s = some a →
      d ≠ [] → (∀ c ∈ d, c.isDigit = true) →
      RndcConf.ip_addr (s ++ '/' :: d) = some ('/' :: d, a) ∧
      RndcConf.ip_addr s = some ([], a)) ∧
    (∀ d1 d2 d3 d4 d a, d1 ≠ [] → d2 ≠ [] → d3 ≠ [] → d4 ≠ [] →
      (∀ c ∈ d1, c.isDigit = true) → (∀ c ∈ d2, c.isDigit = true) →
      (∀ c ∈ d3, c.isDigit = true) → (∀ c ∈ d4, c.isDigit = true) →
      rustParseIp (d1 ++ '.' :: d2 ++ '.' :: d3 ++ '.' :: d4) = some a →
      d ≠ [] → (∀ c ∈ d, c.isDigit = true) →
      RndcConf.ip_addr ((d1 ++ '.' :: d2 ++ '.' :: d3 ++ '.' :: d4) ++ '/' :: d) =
        some ('/' :: d, a) ∧
      RndcConf.ip_addr (d1 ++ '.' :: d2 ++ '.' :: d3 ++ '.' :: d4) = some ([], a)) := by
  have hslash6 : ('/' :: ([] : List Char)).dropWhile
      (fun c => (hexDigitVal c).isSome || c = ':') = '/' :: [] := by decide
  refine ⟨?_, ?_, ?_⟩
  · intro s d a hs hall hp hd hdig
    exact ⟨rndc_ip_addr_cidr hs hall hp hd hdig, rndc_ip_addr_plain hs hall hp⟩
  · intro s d a hs hall hcheck hp hd hdig
    constructor
    · unfold RndcConf.ip_addr
      refine pAlt_eval_left (conf_ipv6_addr_eval hs hall hcheck hp ?_)
      rw [List.dropWhile_cons, if_neg (by decide)]
    · unfold RndcConf.ip_addr
      have h := @conf_ipv6_addr_eval s [] a hs hall hcheck hp (by simp)
      rw [List.append_nil] at h
      exact pAlt_eval_left h
  · intro d1 d2 d3 d4 d a h1 h2 h3 h4 hd1 hd2 hd3 hd4 hp hd hdig
    have heq : (d1 ++ '.' :: d2 ++ '.' :: d3 ++ '.' :: d4) =
        d1 ++ ('.' :: d2 ++ '.' :: d3 ++ '.' :: d4) := by
      simp [List.append_assoc]
    have hdot : ∀ x : List Char, ('.' :: x).dropWhile
        (fun c => (hexDigitVal c).isSome || c = ':') = '.' :: x := by
      intro x
      rw [List.dropWhile_cons, if_neg (by decide)]
    constructor
    · unfold RndcConf.ip_addr
      have h6 : RndcConf.ipv6_addr ((d1 ++ '.' :: d2 ++ '.' :: d3 ++ '.' :: d4) ++ '/' :: d)
          = none := by
        rw [heq, List.append_assoc]
        exact conf_ipv6_none_digits h1 hd1 (hdot _)
      rw [pAlt_eval_right h6]
      exact conf_ipv4_addr_eval h1 h2 h3 h4 hd1 hd2 hd3 hd4 hp
        (by rw [List.dropWhile_cons]; simp)
    · unfold RndcConf.ip_addr
      have h6 : RndcConf.ipv6_addr (d1 ++ '.' :: d2 ++ '.' :: d3 ++ '.' :: d4) = none := by
        rw [heq]
        exact conf_ipv6_none_digits h1 hd1 (hdot _)
      rw [pAlt_eval_right h6]
      have h := @conf_ipv4_addr_eval d1 d2 d3 d4 [] a h1 h2 h3 h4 hd1 hd2 hd3 hd4 hp
        (by simp)
      rw [List.append_nil] at h
      exact h

set_option maxRecDepth 4000 in
/-- Witness for C6 as amended: `10.244.1.18/32` and `2001:db8::1/128` at both
parsers. -/
theorem C6_witness :
    Rndc.ip_addr "10.244.1.18/32".data = some ([], IpAddr.v4 10 244 1 18) ∧
    Rndc.ip_addr "2001:db8::1/128".data = some ([], IpAddr.v6 8193 3512 0 0 0 0 0 1) ∧
    RndcConf.ip_addr "2001:db8::1/128".data = some ("/128".data, IpAddr.v6 8193 3512 0 0 0 0 0 1) ∧
    RndcConf.ip_addr "10.244.1.18/32".data = some ("/32".data, IpAddr.v4 10 244 1 18) := by
  have h1 := (C6_amended.1 "10.244.1.18".data "32".data (IpAddr.v4 10 244 1 18)
    (by decide) (by decide) (by decide) (by decide) (by decide)).1
  have h2 := (C6_amended.1 "2001:db8::1".data "128".data (IpAddr.v6 8193 3512 0 0 0 0 0 1)
    (by decide) (by decide) (by decide) (by decide) (by decide)).1
  have h3 := (C6_amended.2.1 "2001:db8::1".data "128".data (IpAddr.v6 8193 3512 0 0 0 0 0 1)
    (by decide) (by decide) (by decide) (by decide) (by decide) (by decide)).1
  have h4 := (C6_amended.2.2 "10".data "244".data "1".data "18".data "32".data
    (IpAddr.v4 10 244 1 18) (by decide) (by decide) (by decide) (by decide)
    (by decide) (by decide) (by decide) (by decide) (by decide) (by decide) (by decide)).1
  exact ⟨by exact h1, by exact h2, by exact h3, by exact h4⟩

end Bindcar

namespace Bindcar

/-! ## Double-semicolon lemmas for the serializer -/

theorem containsSub_pair_split {a b : Char} :
    ∀ {s : List Char}, containsSub [a, b] s = true → ∃ x y, s = x ++ a :: b :: y := by
  intro s
  induction s with
  | nil =>
    intro h
    unfold containsSub splitAtSub at h
    simp at h
  | cons c rest ih =>
    intro h
    unfold containsSub splitAtSub at h
    split at h
    next hpre =>
      obtain ⟨t, ht⟩ := List.isPrefixOf_iff_prefix.mp hpre
      refine ⟨[], t, ?_⟩
      simpa using ht.symm
    · revert h
      cases h2 : splitAtSub [a, b] rest with
      | none => intro h; simp at h
      | some v =>
        intro _
        have : containsSub [a, b] rest = true := by
          unfold containsSub
          rw [h2]
          rfl
        obtain ⟨x, y, hxy⟩ := ih this
        exact ⟨c :: x, y, by rw [hxy]; rfl⟩

theorem mem_of_containsSub_pair {a b : Char} {s : List Char}
    (h : containsSub [a, b] s = true) : a ∈ s := by
  obtain ⟨x, y, hxy⟩ := containsSub_pair_split h
  rw [hxy]
  simp

theorem noSS_of_not_mem {s : List Char} (h : ';' ∉ s) : noSS s := by
  unfold noSS
  by_contra hc
  simp only [Bool.not_eq_false] at hc
  exact h (mem_of_containsSub_pair hc)

theorem containsSub_cons_of {a b c : Char} {s : List Char}
    (h : containsSub [a, b] s = true) : containsSub [a, b] (c :: s) = true := by
  unfold containsSub splitAtSub
  split
  · rfl
  · unfold containsSub at h
    revert h
    cases h2 : splitAtSub [a, b] s with
    | none => intro h; simp at h
    | some v => intro _; rfl


theorem containsSub_pair_append {a b : Char} :
    ∀ {x y : List Char}, containsSub [a, b] (x ++ y) = true →
    containsSub [a, b] x = true ∨ containsSub [a, b] y = true ∨
      (x.getLast? = some a ∧ y.head? = some b) := by
  intro x
  induction x with
  | nil =>
    intro y h
    simp only [List.nil_append] at h
    exact Or.inr (Or.inl h)
  | cons c x2 ih =>
    intro y h
    simp only [List.cons_append] at h
    unfold containsSub splitAtSub at h
    split at h
    next hpre =>
      obtain ⟨t, ht⟩ := List.isPrefixOf_iff_prefix.mp hpre
      simp only [List.cons_append, List.cons.injEq] at ht
      obtain ⟨hca, hrest⟩ := ht
      cases x2 with
      | nil =>
        simp only [List.nil_append] at hrest
        refine Or.inr (Or.inr ⟨by simp [hca], ?_⟩)
        rw [← hrest]
        rfl
      | cons d x3 =>
        simp only [List.cons_append, List.cons.injEq] at hrest
        obtain ⟨hdb, _⟩ := hrest
        refine Or.inl ?_
        unfold containsSub splitAtSub
        rw [if_pos]
        · rfl
        · exact List.isPrefixOf_iff_prefix.mpr (by rw [hca, hdb]; exact ⟨x3, rfl⟩)
    · revert h
      cases h2 : splitAtSub [a, b] (x2 ++ y) with
      | none => intro h; simp at h
      | some v =>
        intro _
        have hx2y : containsSub [a, b] (x2 ++ y) = true := by
          unfold containsSub
          rw [h2]
          rfl
        rcases ih hx2y with h3 | h3 | h3
        · exact Or.inl (containsSub_cons_of h3)
        · exact Or.inr (Or.inl h3)
        · refine Or.inr (Or.inr ⟨?_, h3.2⟩)
          cases x2 with
          | nil => simp at h3
          | cons d x3 =>
            rw [List.getLast?_cons_cons]
            exact h3.1

/-- The contrapositive building block: an append of safe pieces with a safe
boundary has no double semicolon. -/
theorem noSS_append {x y : List Char} (hx : noSS x) (hy : noSS y)
    (hb : ¬(x.getLast? = some ';' ∧ y.head? = some ';')) : noSS (x ++ y) := by
  unfold noSS
  by_contra hc
  simp only [Bool.not_eq_false] at hc
  rcases containsSub_pair_append hc with h | h | h
  · rw [hx] at h
    cases h
  · rw [hy] at h
    cases h
  · exact hb h

end Bindcar

namespace Bindcar

theorem partSafe_append {x y : List Char} (hx : partSafe x) (hy : partSafe y) :
    partSafe (x ++ y) := by
  obtain ⟨hx1, hx2⟩ := hx
  obtain ⟨hy1, hy2⟩ := hy
  constructor
  · exact noSS_append hx1 hy1 (fun hp => hx2 hp.1)
  · rw [List.getLast?_append]
    cases hyl : y.getLast? with
    | none => simpa [hyl, Option.or] using hx2
    | some c =>
      rw [hyl] at hy2
      simpa [Option.or] using hy2

theorem partSafe_of_not_mem {s : List Char} (h : ';' ∉ s) : partSafe s := by
  refine ⟨noSS_of_not_mem h, ?_⟩
  intro hl
  exact h (List.mem_of_mem_getLast? hl)

theorem joinSep_partSafe {parts : List (List Char)}
    (h : ∀ p ∈ parts, partSafe p) : partSafe (joinSep "; ".data parts) := by
  induction parts with
  | nil =>
    refine ⟨?_, ?_⟩
    · rfl
    · simp [joinSep]
  | cons x t ih =>
    cases t with
    | nil =>
      simpa [joinSep] using h x (List.mem_cons_self x [])
    | cons y t2 =>
      have hx := h x (List.mem_cons_self x _)
      have hrest : partSafe (joinSep "; ".data (y :: t2)) :=
        ih (fun p hp => h p (List.mem_cons_of_mem x hp))
      have hstep : joinSep "; ".data (x :: y :: t2) =
          x ++ ("; ".data ++ joinSep "; ".data (y :: t2)) := by
        simp [joinSep, List.append_assoc]
      rw [hstep]
      have hsep : partSafe "; ".data := ⟨rfl, by decide⟩
      exact partSafe_append hx (partSafe_append hsep hrest)

/-! ### Character classes of rendered numbers and addresses -/

theorem digitChar_isDigit {k : Nat} (h : k < 10) : (Nat.digitChar k).isDigit = true := by
  interval_cases k <;> decide

theorem digitChar_isIpChar {k : Nat} (h : k < 16) : Rndc.isIpChar (Nat.digitChar k) = true := by
  interval_cases k <;> decide

theorem natToBaseGo_digits10 :
    ∀ fuel n, n < fuel → ∀ c ∈ natToBaseGo 10 fuel n, c.isDigit = true := by
  intro fuel
  induction fuel with
  | zero => intro n h; omega
  | succ fuel ih =>
    intro n hn c hc
    unfold natToBaseGo at hc
    split at hc
    next h10 =>
      simp only [List.mem_singleton] at hc
      rw [hc]
      exact digitChar_isDigit h10
    next h10 =>
      rw [List.mem_append] at hc
      rcases hc with hc | hc
      · have hdiv : n / 10 < fuel := by
          have := Nat.div_lt_self (by omega : 0 < n) (by omega : 1 < 10)
          omega
        exact ih (n / 10) hdiv c hc
      · simp only [List.mem_singleton] at hc
        rw [hc]
        exact digitChar_isDigit (Nat.mod_lt n (by omega))

theorem natToDec_digits (n : Nat) : ∀ c ∈ natToDec n, c.isDigit = true :=
  natToBaseGo_digits10 (n + 1) n (Nat.lt_succ_self n)

theorem natToBaseGo_ne_nil (b : Nat) :
    ∀ fuel n, 0 < fuel → natToBaseGo b fuel n ≠ [] := by
  intro fuel n h
  cases fuel with
  | zero => omega
  | succ fuel =>
    unfold natToBaseGo
    split
    · simp
    · simp

theorem natToDec_ne_nil (n : Nat) : natToDec n ≠ [] :=
  natToBaseGo_ne_nil 10 (n + 1) n (Nat.succ_pos n)

theorem natToBaseGo_ipChar16 :
    ∀ fuel n, n < fuel → ∀ c ∈ natToBaseGo 16 fuel n, Rndc.isIpChar c = true := by
  intro fuel
  induction fuel with
  | zero => intro n h; omega
  | succ fuel ih =>
    intro n hn c hc
    unfold natToBaseGo at hc
    split at hc
    next h16 =>
      simp only [List.mem_singleton] at hc
      rw [hc]
      exact digitChar_isIpChar h16
    next h16 =>
      rw [List.mem_append] at hc
      rcases hc with hc | hc
      · have hdiv : n / 16 < fuel := by
          have := Nat.div_lt_self (by omega : 0 < n) (by omega : 1 < 16)
          omega
        exact ih (n / 16) hdiv c hc
      · simp only [List.mem_singleton] at hc
        rw [hc]
        exact digitChar_isIpChar (Nat.mod_lt n (by omega))

theorem natToHex_ipChar (n : Nat) : ∀ c ∈ natToHex n, Rndc.isIpChar c = true :=
  natToBaseGo_ipChar16 (n + 1) n (Nat.lt_succ_self n)

theorem isIpChar_of_isDigit {c : Char} (h : c.isDigit = true) : Rndc.isIpChar c = true := by
  unfold Rndc.isIpChar
  rw [hexDigitVal_isSome_of_isDigit h]
  rfl

theorem mem_joinSep {sep : List Char} {c : Char} :
    ∀ {l : List (List Char)}, c ∈ joinSep sep l → c ∈ sep ∨ ∃ x ∈ l, c ∈ x := by
  intro l
  induction l with
  | nil => intro h; cases h
  | cons x t ih =>
    cases t with
    | nil =>
      intro h
      simp only [joinSep] at h
      exact Or.inr ⟨x, List.mem_cons_self x [], h⟩
    | cons y t2 =>
      intro h
      simp only [joinSep, List.append_assoc, List.mem_append] at h
      rcases h with h | h | h
      · exact Or.inr ⟨x, List.mem_cons_self x _, h⟩
      · exact Or.inl h
      · rcases ih h with h2 | ⟨z, hz, hcz⟩
        · exact Or.inl h2
        · exact Or.inr ⟨z, List.mem_cons_of_mem x hz, hcz⟩

theorem mem_hexGroups {c : Char} {g : List Nat} (h : c ∈ hexGroups g) :
    Rndc.isIpChar c = true := by
  unfold hexGroups at h
  rcases mem_joinSep h with h2 | ⟨x, hx, hcx⟩
  · simp only [List.mem_singleton] at h2
    rw [h2]
    rfl
  · obtain ⟨n, _, hn⟩ := List.mem_map.mp hx
    rw [← hn] at hcx
    exact natToHex_ipChar n c hcx

theorem mem_v4Chars {c : Char} {a b d e : Nat}
    (h : c ∈ natToDec a ++ '.' :: natToDec b ++ '.' :: natToDec d ++ '.' :: natToDec e) :
    Rndc.isIpChar c = true := by
  simp only [List.mem_append, List.mem_cons] at h
  rcases h with ((h | h | h) | h | h) | h | h
  · exact isIpChar_of_isDigit (natToDec_digits a c h)
  · rw [h]; rfl
  · exact isIpChar_of_isDigit (natToDec_digits b c h)
  · rw [h]; rfl
  · exact isIpChar_of_isDigit (natToDec_digits d c h)
  · rw [h]; rfl
  · exact isIpChar_of_isDigit (natToDec_digits e c h)

theorem mem_v6Display {c : Char} {g : List Nat} (h : c ∈ v6Display g) :
    Rndc.isIpChar c = true := by
  unfold v6Display at h
  split at h
  · simp only [List.mem_cons, List.not_mem_nil, or_false, or_self] at h
    rw [h]; rfl
  · split at h
    · simp only [List.mem_cons, List.not_mem_nil, or_false] at h
      rcases h with h | h | h <;> (rw [h]; rfl)
    · split at h
      next s6 s7 =>
        simp only [List.append_assoc, List.cons_append, List.nil_append,
          List.mem_cons, List.mem_append] at h
        rcases h with h | h | h | h | h | h | h | h | h | h | h | h | h | h
        all_goals first
          | (rw [h]; rfl)
          | exact isIpChar_of_isDigit (natToDec_digits _ c h)
      next =>
        simp only at h
        split at h
        · simp only [List.mem_append, List.mem_cons, List.not_mem_nil, or_false] at h
          rcases h with h | h | h
          · exact mem_hexGroups h
          · rcases h with h | h <;> (rw [h]; rfl)
          · exact mem_hexGroups h
        · exact mem_hexGroups h

/-- Every character of a rendered address is a hex digit, dot or colon. -/
theorem ipToChars_ipChar (a : IpAddr) : ∀ c ∈ ipToChars a, Rndc.isIpChar c = true := by
  intro c hc
  cases a with
  | v4 x y z w => exact mem_v4Chars hc
  | v6 x1 x2 x3 x4 x5 x6 x7 x8 => exact mem_v6Display hc

theorem ipToChars_no_semi (a : IpAddr) : ';' ∉ ipToChars a := by
  intro h
  have := ipToChars_ipChar a ';' h
  exact absurd this (by decide)

end Bindcar

namespace Bindcar

/-! ### Per-part safety of the serializer -/

theorem no_semi_append {x y : List Char} (hx : ';' ∉ x) (hy : ';' ∉ y) :
    ';' ∉ x ++ y := by
  intro h
  rcases List.mem_append.mp h with h | h
  · exact hx h
  · exact hy h

theorem no_semi_cons {c : Char} {s : List Char} (hc : c ≠ ';') (hs : ';' ∉ s) :
    ';' ∉ c :: s := by
  intro h
  rcases List.mem_cons.mp h with h | h
  · exact hc h.symm
  · exact hs h

theorem natToDec_no_semi (n : Nat) : ';' ∉ natToDec n := by
  intro h
  exact absurd (natToDec_digits n ';' h) (by decide)

theorem zoneType_no_semi (z : ZoneType) : ';' ∉ z.as_str := by
  cases z <;> decide

theorem notifyMode_no_semi (m : NotifyMode) : ';' ∉ m.as_str := by
  cases m <;> decide

theorem forwardMode_no_semi (m : ForwardMode) : ';' ∉ m.as_str := by
  cases m <;> decide

theorem autoDnssecMode_no_semi (m : AutoDnssecMode) : ';' ∉ m.as_str := by
  cases m <;> decide

theorem checkNamesMode_no_semi (m : CheckNamesMode) : ';' ∉ m.as_str := by
  cases m <;> decide

theorem masterfileFormat_no_semi (m : MasterfileFormat) : ';' ∉ m.as_str := by
  cases m <;> decide

theorem boolYesNo_no_semi (b : Bool) : ';' ∉ boolYesNo b := by
  cases b <;> decide

theorem noSS_append_l {x y : List Char} (hx : noSS x) (hy : noSS y)
    (hl : x.getLast? ≠ some ';') : noSS (x ++ y) :=
  noSS_append hx hy (fun hb => hl hb.1)

theorem noSS_append_r {x y : List Char} (hx : noSS x) (hy : noSS y)
    (hh : y.head? ≠ some ';') : noSS (x ++ y) :=
  noSS_append hx hy (fun hb => hh hb.2)

theorem getLast?_append_ne {x y : List Char} {c : Char} (hy : y.getLast? = some c)
    (hc : c ≠ ';') : (x ++ y).getLast? ≠ some ';' := by
  rw [List.getLast?_append, hy]
  intro hcon
  exact hc (Option.some.inj hcon)

theorem prefixPart_partSafe {pre v : List Char} (hp : ';' ∉ pre) (hv : partSafe v) :
    partSafe (pre ++ v) :=
  partSafe_append (partSafe_of_not_mem hp) hv

theorem quotedField_partSafe {name v : List Char} (hn : ';' ∉ name) (hv : noSS v) :
    partSafe (quotedField name v) := by
  have heq : quotedField name v = ((name ++ [' ', '"']) ++ v) ++ ['"'] := by
    simp [quotedField, List.append_assoc]
  constructor
  · rw [heq]
    refine noSS_append_r ?_ (by rfl) (by decide)
    refine noSS_append_l (noSS_of_not_mem (no_semi_append hn (by decide))) hv ?_
    exact getLast?_append_ne rfl (by decide)
  · rw [heq, List.getLast?_concat]
    decide

theorem numField_partSafe {name : List Char} (hn : ';' ∉ name) (v : Nat) :
    partSafe (numField name v) :=
  partSafe_of_not_mem (no_semi_append hn (no_semi_cons (by decide) (natToDec_no_semi v)))

theorem boolField_partSafe {name : List Char} (hn : ';' ∉ name) (v : Bool) :
    partSafe (boolField name v) :=
  partSafe_of_not_mem (no_semi_append hn (no_semi_cons (by decide) (boolYesNo_no_semi v)))

theorem bracePart_partSafe {name : List Char} {items : List (List Char)}
    (hn : ';' ∉ name) (hi : ∀ x ∈ items, partSafe x) : partSafe (bracePart name items) := by
  have hJ := joinSep_partSafe hi
  have hleft : partSafe ((name ++ " \x7b ".data) ++ joinSep "; ".data items) :=
    partSafe_append (partSafe_of_not_mem (no_semi_append hn (by decide))) hJ
  constructor
  · exact noSS_append_l hleft.1 (by rfl) hleft.2
  · show (((name ++ " \x7b ".data) ++ joinSep "; ".data items) ++ "; \x7d".data).getLast? ≠
      some ';'
    exact getLast?_append_ne rfl (by decide)

theorem primarySpecChars_no_semi (p : PrimarySpec) : ';' ∉ primarySpecChars p := by
  obtain ⟨addr, port⟩ := p
  cases port with
  | none =>
    simp only [primarySpecChars, List.append_nil]
    exact ipToChars_no_semi addr
  | some pt =>
    simp only [primarySpecChars]
    exact no_semi_append (ipToChars_no_semi addr)
      (no_semi_append (by decide) (natToDec_no_semi pt))

theorem forwarderSpecChars_partSafe (f : ForwarderSpec)
    (h : ∀ t, f.tls_config = some t → noSS t ∧ t.getLast? ≠ some ';') :
    partSafe (forwarderSpecChars f) := by
  obtain ⟨addr, port, tls⟩ := f
  cases tls with
  | some t =>
    have ht := h t rfl
    simp only [forwarderSpecChars]
    exact partSafe_append
      (partSafe_of_not_mem (no_semi_append (ipToChars_no_semi addr) (by decide)))
      ⟨ht.1, ht.2⟩
  | none =>
    cases port with
    | none =>
      simp only [forwarderSpecChars]
      exact partSafe_of_not_mem (ipToChars_no_semi addr)
    | some pt =>
      simp only [forwarderSpecChars]
      exact partSafe_of_not_mem (no_semi_append
        (no_semi_append (ipToChars_no_semi addr) (by decide)) (natToDec_no_semi pt))

theorem rawOptionPart_partSafe {k v : List Char} (hk : noSS k) (hv : rawSafe v) :
    partSafe (k ++ ' ' :: stripRawValue v) := by
  have heq : k ++ ' ' :: stripRawValue v = (k ++ [' ']) ++ stripRawValue v := by
    simp [List.append_assoc]
  constructor
  · rw [heq]
    refine noSS_append_l (noSS_append_r hk (by rfl) (by decide)) hv.1 ?_
    exact getLast?_append_ne rfl (by decide)
  · rw [heq, List.getLast?_append]
    cases hsv : (stripRawValue v).getLast? with
    | none =>
      rw [List.getLast?_concat]
      decide
    | some c =>
      intro hcon
      have hc : c = ';' := Option.some.inj hcon
      exact hv.2 (by rw [hsv, hc])

theorem allP_append {P : List Char → Prop} {xs ys : List (List Char)}
    (hx : ∀ p ∈ xs, P p) (hy : ∀ p ∈ ys, P p) : ∀ p ∈ xs ++ ys, P p := by
  intro p hp
  rcases List.mem_append.mp hp with h | h
  · exact hx p h
  · exact hy p h

theorem optPart_safe {α : Type} {o : Option α} {f : α → List Char}
    (h : ∀ x, o = some x → partSafe (f x)) : ∀ p ∈ optPart o f, partSafe p := by
  intro p hp
  cases ho : o with
  | none => rw [ho] at hp; cases hp
  | some x =>
    simp only [ho, optPart, List.mem_singleton] at hp
    rw [hp]
    exact h x ho

theorem ipListParts_safe {name : List Char} (hn : ';' ∉ name) (o : Option (List IpAddr)) :
    ∀ p ∈ ipListParts name o, partSafe p := by
  intro p hp
  cases o with
  | none => cases hp
  | some l =>
    simp only [ipListParts] at hp
    split at hp
    · cases hp
    · rw [List.mem_singleton] at hp
      rw [hp]
      refine bracePart_partSafe hn ?_
      intro x hx
      obtain ⟨a, _, ha⟩ := List.mem_map.mp hx
      rw [← ha]
      exact partSafe_of_not_mem (ipToChars_no_semi a)

theorem allowUpdatePart_safe (cfg : ZoneConfig)
    (h1 : ∀ r, cfg.allow_update_raw = some r → rawSafe r) :
    ∀ p ∈ (allowUpdatePart cfg).toList, partSafe p := by
  intro p hp
  cases hr : cfg.allow_update_raw with
  | some raw =>
    simp only [allowUpdatePart, hr, Option.toList_some, List.mem_singleton] at hp
    rw [hp]
    exact prefixPart_partSafe (by decide) (h1 raw hr)
  | none =>
    simp only [allowUpdatePart, hr] at hp
    cases hau : cfg.allow_update with
    | none => simp only [hau, Option.toList_none] at hp; cases hp
    | some l =>
      simp only [hau] at hp
      split at hp
      · simp only [Option.toList_none] at hp
        cases hp
      · simp only [Option.toList_some, List.mem_singleton] at hp
        rw [hp]
        refine bracePart_partSafe (by decide) ?_
        intro x hx
        obtain ⟨a, _, ha⟩ := List.mem_map.mp hx
        rw [← ha]
        exact partSafe_of_not_mem (ipToChars_no_semi a)

theorem toRndcParts_partSafe (cfg : ZoneConfig) (h : c4Hyp cfg) :
    ∀ p ∈ toRndcParts cfg, partSafe p := by
  obtain ⟨h1, h2, h3, h4, h5, h6, h7⟩ := h
  unfold toRndcParts
  repeat' apply allP_append
  · intro p hp
    rw [List.mem_singleton] at hp
    rw [hp]
    exact partSafe_of_not_mem (no_semi_append (by decide) (zoneType_no_semi _))
  · exact optPart_safe (fun x hx => quotedField_partSafe (by decide) (h3 x hx))
  · intro p hp
    cases hpr : cfg.primaries with
    | none => rw [hpr] at hp; cases hp
    | some l =>
      simp only [hpr] at hp
      split at hp
      · cases hp
      · rw [List.mem_singleton] at hp
        rw [hp]
        refine bracePart_partSafe (by decide) ?_
        intro x hx
        obtain ⟨a, _, ha⟩ := List.mem_map.mp hx
        rw [← ha]
        exact partSafe_of_not_mem (primarySpecChars_no_semi a)
  · exact ipListParts_safe (by decide) _
  · exact optPart_safe (fun x hx =>
      partSafe_of_not_mem (no_semi_append (by decide) (notifyMode_no_semi x)))
  · exact ipListParts_safe (by decide) _
  · exact ipListParts_safe (by decide) _
  · exact allowUpdatePart_safe cfg h1
  · exact ipListParts_safe (by decide) _
  · exact ipListParts_safe (by decide) _
  · exact optPart_safe (fun x hx => numField_partSafe (by decide) x)
  · exact optPart_safe (fun x hx => numField_partSafe (by decide) x)
  · exact optPart_safe (fun x hx => numField_partSafe (by decide) x)
  · exact optPart_safe (fun x hx => numField_partSafe (by decide) x)
  · exact optPart_safe (fun x hx =>
      partSafe_of_not_mem (no_semi_append (by decide) (ipToChars_no_semi x)))
  · exact optPart_safe (fun x hx =>
      partSafe_of_not_mem (no_semi_append (by decide) (ipToChars_no_semi x)))
  · exact optPart_safe (fun x hx =>
      partSafe_of_not_mem (no_semi_append (by decide) (ipToChars_no_semi x)))
  · exact optPart_safe (fun x hx =>
      partSafe_of_not_mem (no_semi_append (by decide) (ipToChars_no_semi x)))
  · exact optPart_safe (fun x hx => prefixPart_partSafe (by decide) (h2 x hx))
  · exact optPart_safe (fun x hx => quotedField_partSafe (by decide) (h4 x hx))
  · exact optPart_safe (fun x hx => boolField_partSafe (by decide) x)
  · exact optPart_safe (fun x hx => boolField_partSafe (by decide) x)
  · exact optPart_safe (fun x hx =>
      partSafe_of_not_mem (no_semi_append (by decide) (autoDnssecMode_no_semi x)))
  · exact optPart_safe (fun x hx => quotedField_partSafe (by decide) (h5 x hx))
  · exact optPart_safe (fun x hx => numField_partSafe (by decide) x)
  · exact optPart_safe (fun x hx => numField_partSafe (by decide) x)
  · exact optPart_safe (fun x hx =>
      partSafe_of_not_mem (no_semi_append (by decide) (forwardMode_no_semi x)))
  · intro p hp
    cases hfr : cfg.forwarders with
    | none => rw [hfr] at hp; cases hp
    | some l =>
      simp only [hfr] at hp
      split at hp
      · cases hp
      · rw [List.mem_singleton] at hp
        rw [hp]
        refine bracePart_partSafe (by decide) ?_
        intro x hx
        obtain ⟨fw, hfw, hfx⟩ := List.mem_map.mp hx
        rw [← hfx]
        exact forwarderSpecChars_partSafe fw (fun t ht => h6 l hfr fw hfw t ht)
  · exact optPart_safe (fun x hx =>
      partSafe_of_not_mem (no_semi_append (by decide) (checkNamesMode_no_semi x)))
  · exact optPart_safe (fun x hx =>
      partSafe_of_not_mem (no_semi_append (by decide) (checkNamesMode_no_semi x)))
  · exact optPart_safe (fun x hx => boolField_partSafe (by decide) x)
  · exact optPart_safe (fun x hx =>
      partSafe_of_not_mem (no_semi_append (by decide) (masterfileFormat_no_semi x)))
  · exact optPart_safe (fun x hx => numField_partSafe (by decide) x)
  · exact optPart_safe (fun x hx => numField_partSafe (by decide) x)
  · exact optPart_safe (fun x hx => numField_partSafe (by decide) x)
  · exact optPart_safe (fun x hx => numField_partSafe (by decide) x)
  · exact optPart_safe (fun x hx => numField_partSafe (by decide) x)
  · exact optPart_safe (fun x hx => boolField_partSafe (by decide) x)
  · exact optPart_safe (fun x hx => boolField_partSafe (by decide) x)
  · exact optPart_safe (fun x hx => boolField_partSafe (by decide) x)
  · intro p hp
    obtain ⟨kv, hkv, hmap⟩ := List.mem_map.mp hp
    rw [← hmap]
    exact rawOptionPart_partSafe (h7 kv hkv).1 (h7 kv hkv).2

/-- C4, amended: under the side conditions `c4Hyp` — every free-form raw
value is still safe after the serializer's single strip pass, quoted fields
and raw option keys contain no `;;`, forwarder tls strings are safe — the
serialized block contains no `;;` and ends with the two characters
closing-brace semicolon. -/
theorem C4_amended (cfg : ZoneConfig) (h : c4Hyp cfg) :
    noSS cfg.to_rndc_block ∧ List.IsSuffix "\x7d;".data cfg.to_rndc_block := by
  have hJ : partSafe (joinSep "; ".data (toRndcParts cfg)) :=
    joinSep_partSafe (toRndcParts_partSafe cfg h)
  have hAJ : partSafe ("\x7b ".data ++ joinSep "; ".data (toRndcParts cfg)) :=
    partSafe_append ⟨by rfl, by decide⟩ hJ
  constructor
  · show noSS (("\x7b ".data ++ joinSep "; ".data (toRndcParts cfg)) ++ "; \x7d;".data)
    exact noSS_append_l hAJ.1 (by rfl) hAJ.2
  · refine ⟨"\x7b ".data ++ joinSep "; ".data (toRndcParts cfg) ++ [';', ' '], ?_⟩
    show ("\x7b ".data ++ joinSep "; ".data (toRndcParts cfg) ++ [';', ' ']) ++ "\x7d;".data =
      ("\x7b ".data ++ joinSep "; ".data (toRndcParts cfg)) ++ "; \x7d;".data
    simp only [List.append_assoc]
    rfl

/-- Witness for C4 as amended, at a configuration carrying a raw
allow-update value. -/
theorem C4_witness :
    noSS c3wit.to_rndc_block ∧ List.IsSuffix "\x7d;".data c3wit.to_rndc_block := by
  refine C4_amended c3wit ?_
  refine ⟨?_, ?_, ?_, ?_, ?_, ?_, ?_⟩
  · intro r hr
    cases hr
    exact ⟨by rfl, by decide⟩
  · intro p hp
    cases hp
  · intro f hf
    cases hf
  · intro j hj
    cases hj
  · intro k hk
    cases hk
  · intro l hl
    cases hl
  · intro kv hkv
    cases hkv

end Bindcar

namespace Bindcar

namespace RndcConf

/-! ### Evaluation of the whitespace-and-comment skipper -/

theorem escaped_char_none_head {c : Char} {i : List Char} (hc : c ≠ '\\') :
    escaped_char (c :: i) = none := by
  cases i with
  | nil => rfl
  | cons d r =>
    simp only [escaped_char]
    rw [if_neg hc]

theorem skipInner_none {c : Char} {rest : List Char}
    (h1 : isMultispace c = false) (h2 : c ≠ '/') (h3 : c ≠ '#') :
    pAlt (pValue () multispace1) comment (c :: rest) = none := by
  have hm : multispace1 (c :: rest) = none := by
    unfold multispace1 pTakeWhile1
    simp only [h1, Bool.false_eq_true, if_false]
  have hlc : line_comment (c :: rest) = none :=
    pMap_none (pSeq_none_left (pTag_cons_ne (Ne.symm h2)))
  have hhc : hash_comment (c :: rest) = none :=
    pMap_none (pSeq_none_left (pChar_cons_ne rest h3))
  have hbc : block_comment (c :: rest) = none :=
    pMap_none (pSeq_none_left (pTag_cons_ne (Ne.symm h2)))
  have hcm : comment (c :: rest) = none := by
    unfold comment
    rw [pAlt_eval_right hlc, pAlt_eval_right hhc, hbc]
  have hmv : pValue () multispace1 (c :: rest) = none := pMap_none hm
  rw [pAlt_eval_right hmv, hcm]

theorem skip_stop {i : Input} (h : noSkipHead i) : skip i = some (i, []) := by
  cases i with
  | nil => rfl
  | cons c rest =>
    obtain ⟨h1, h2, h3⟩ := h
    exact pMany0_eval_nil (skipInner_none h1 h2 h3)

theorem skip_ws {w i : Input} (hw : w ≠ []) (hall : ∀ c ∈ w, isMultispace c = true)
    (hi : noSkipHead i) : skip (w ++ i) = some (i, [()]) := by
  have hdrop : i.dropWhile isMultispace = i := by
    cases i with
    | nil => rfl
    | cons c rest =>
      rw [List.dropWhile_cons, if_neg (by simp [hi.1])]
  have hm : multispace1 (w ++ i) = some (i, w) := pTakeWhile1_eval hw hall hdrop
  have hinner : pAlt (pValue () multispace1) comment (w ++ i) = some (i, ()) :=
    pAlt_eval_left (pValue_eval hm)
  refine pMany0_eval_cons hinner ?_ (skip_stop hi)
  simp only [List.length_append]
  have := List.length_pos.mpr hw
  omega

theorem conf_ws_eval {α : Type} {f : Parser α} {i i1 i2 r : Input} {a : α}
    {u1 u2 : List Unit} (h1 : skip i = some (i1, u1)) (hf : f i1 = some (i2, a))
    (h2 : skip i2 = some (r, u2)) : ws f i = some (r, a) :=
  pDelimited_eval h1 hf h2

theorem identChar_props {c : Char} (h : isIdentChar c = true) :
    isMultispace c = false ∧ c ≠ '/' ∧ c ≠ '#' := by
  refine ⟨?_, ?_, ?_⟩
  · by_contra hm
    simp only [Bool.not_eq_false] at hm
    have h4 : ((c = ' ' ∨ c = '\t') ∨ c = '\n') ∨ c = '\r' := by
      unfold isMultispace at hm
      simpa [Bool.or_eq_true, decide_eq_true_eq] using hm
    rcases h4 with ((rfl | rfl) | rfl) | rfl
    all_goals exact absurd h (by decide)
  · intro he
    rw [he] at h
    exact absurd h (by decide)
  · intro he
    rw [he] at h
    exact absurd h (by decide)

theorem noSkipHead_ident {a rest : List Char} (ha : a ≠ [])
    (hall : ∀ c ∈ a, isIdentChar c = true) : noSkipHead (a ++ rest) := by
  cases a with
  | nil => exact absurd rfl ha
  | cons c a2 =>
    obtain ⟨h1, h2, h3⟩ := identChar_props (hall c (List.mem_cons_self c a2))
    exact ⟨h1, h2, h3⟩

/-! ### Evaluation of conf quoted strings and key fields -/

theorem conf_quoted_string_eval {s rest : List Char}
    (hq : '"' ∉ s) (hb : '\\' ∉ s) :
    quoted_string ('"' :: (s ++ ('"' :: rest))) = some (rest, s) := by
  have hp : ∀ c ∈ s, (c ≠ '"' && c ≠ '\\') = true := by
    intro c hc
    have h1 : c ≠ '"' := fun he => hq (he ▸ hc)
    have h2 : c ≠ '\\' := fun he => hb (he ▸ hc)
    simp [h1, h2]
  have hinnerFail : pAlt (pMap escaped_char (fun c => [c]))
      (pTakeWhile1 (fun c => c ≠ '"' && c ≠ '\\')) ('"' :: rest) = none := by
    have hesc : pMap escaped_char (fun c => ([c] : List Char)) ('"' :: rest) = none :=
      pMap_none (escaped_char_none_head (by decide))
    rw [pAlt_eval_right hesc]
    rfl
  have hmany : pMany0 (pAlt (pMap escaped_char (fun c => [c]))
      (pTakeWhile1 (fun c => c ≠ '"' && c ≠ '\\'))) (s ++ ('"' :: rest)) =
      some ('"' :: rest, if s = [] then [] else [s]) := by
    cases hs : s with
    | nil =>
      simpa using pMany0_eval_nil hinnerFail
    | cons c s2 =>
      rw [← hs]
      have hne : s ≠ [] := by rw [hs]; exact List.cons_ne_nil c s2
      have hesc : pMap escaped_char (fun c => ([c] : List Char)) (s ++ ('"' :: rest)) =
          none := by
        rw [hs]
        have hc : c ≠ '\\' := fun he => hb (by rw [hs, he]; exact List.mem_cons_self _ _)
        exact pMap_none (escaped_char_none_head hc)
      have htw : pTakeWhile1 (fun c => c ≠ '"' && c ≠ '\\') (s ++ ('"' :: rest)) =
          some ('"' :: rest, s) := by
        refine pTakeWhile1_eval hne hp ?_
        rw [List.dropWhile_cons, if_neg (by decide)]
      have hstep : pAlt (pMap escaped_char (fun c => [c]))
          (pTakeWhile1 (fun c => c ≠ '"' && c ≠ '\\')) (s ++ ('"' :: rest)) =
          some ('"' :: rest, s) := by
        rw [pAlt_eval_right hesc, htw]
      rw [if_neg hne]
      refine pMany0_eval_cons hstep ?_ (pMany0_eval_nil hinnerFail)
      simp only [List.length_append, List.length_cons]
      have := List.length_pos.mpr hne
      omega
  have hflat : List.flatten (if s = [] then ([] : List (List Char)) else [s]) = s := by
    cases hs : s with
    | nil => simp
    | cons c s2 => simp
  have hmid : pMap (pMany0 (pAlt (pMap escaped_char (fun c => [c]))
      (pTakeWhile1 (fun c => c ≠ '"' && c ≠ '\\')))) List.flatten (s ++ ('"' :: rest)) =
      some ('"' :: rest, List.flatten (if s = [] then [] else [s])) := pMap_eval hmany
  rw [hflat] at hmid
  exact pDelimited_eval (pChar_cons '"' (s ++ ('"' :: rest))) hmid (pChar_cons '"' rest)

theorem parse_algorithm_field_render {a : List Char} {tail : Input}
    (ha : a ≠ []) (hall : ∀ c ∈ a, isIdentChar c = true) (ht : noSkipHead tail) :
    parse_algorithm_field ("algorithm ".data ++ (a ++ (';' :: ' ' :: tail))) =
      some (tail, .Algorithm a) := by
  have hskip1 : skip ("algorithm ".data ++ (a ++ (';' :: ' ' :: tail))) =
      some ("algorithm ".data ++ (a ++ (';' :: ' ' :: tail)), []) :=
    skip_stop ⟨by decide, by decide, by decide⟩
  have htag : pTag "algorithm".data ("algorithm ".data ++ (a ++ (';' :: ' ' :: tail))) =
      some (' ' :: (a ++ (';' :: ' ' :: tail)), "algorithm".data) :=
    pTag_append "algorithm".data (' ' :: (a ++ (';' :: ' ' :: tail)))
  have hskip2 : skip (' ' :: (a ++ (';' :: ' ' :: tail))) =
      some (a ++ (';' :: ' ' :: tail), [()]) :=
    skip_ws (w := [' ']) (by decide) (by decide) (noSkipHead_ident ha hall)
  have hws1 := conf_ws_eval hskip1 htag hskip2
  have hid : identifier (a ++ (';' :: ' ' :: tail)) = some (';' :: ' ' :: tail, a) := by
    refine pTakeWhile1_eval ha hall ?_
    rw [List.dropWhile_cons, if_neg (by decide)]
  have hskip3 : skip (a ++ (';' :: ' ' :: tail)) = some (a ++ (';' :: ' ' :: tail), []) :=
    skip_stop (noSkipHead_ident ha hall)
  have hskip4 : skip (';' :: ' ' :: tail) = some (';' :: ' ' :: tail, []) :=
    skip_stop ⟨by decide, by decide, by decide⟩
  have hws2 := conf_ws_eval hskip3 hid hskip4
  have hchar : pChar ';' (';' :: ' ' :: tail) = some (' ' :: tail, ';') :=
    pChar_cons ';' (' ' :: tail)
  have hskip5 : skip (' ' :: tail) = some (tail, [()]) :=
    skip_ws (w := [' ']) (by decide) (by decide) ht
  have hsemi : semicolon (';' :: ' ' :: tail) = some (tail, ';') :=
    conf_ws_eval hskip4 hchar hskip5
  exact pMap_eval (pSeq_eval hws1 (pSeq_eval hws2 hsemi))

theorem parse_secret_field_render {s : List Char} {tail : Input}
    (hq : '"' ∉ s) (hb : '\\' ∉ s) (ht : noSkipHead tail) :
    parse_secret_field ("secret \"".data ++ (s ++ ('"' :: ';' :: ' ' :: tail))) =
      some (tail, .Secret s) := by
  have hskip1 : skip ("secret \"".data ++ (s ++ ('"' :: ';' :: ' ' :: tail))) =
      some ("secret \"".data ++ (s ++ ('"' :: ';' :: ' ' :: tail)), []) :=
    skip_stop ⟨by decide, by decide, by decide⟩
  have htag : pTag "secret".data ("secret \"".data ++ (s ++ ('"' :: ';' :: ' ' :: tail))) =
      some (' ' :: '"' :: (s ++ ('"' :: ';' :: ' ' :: tail)), "secret".data) :=
    pTag_append "secret".data (' ' :: '"' :: (s ++ ('"' :: ';' :: ' ' :: tail)))
  have hskip2 : skip (' ' :: '"' :: (s ++ ('"' :: ';' :: ' ' :: tail))) =
      some ('"' :: (s ++ ('"' :: ';' :: ' ' :: tail)), [()]) :=
    skip_ws (w := [' ']) (by decide) (by decide) ⟨by decide, by decide, by decide⟩
  have hws1 := conf_ws_eval hskip1 htag hskip2
  have hqs : quoted_string ('"' :: (s ++ ('"' :: ';' :: ' ' :: tail))) =
      some (';' :: ' ' :: tail, s) :=
    conf_quoted_string_eval hq hb
  have hskip3 : skip ('"' :: (s ++ ('"' :: ';' :: ' ' :: tail))) =
      some ('"' :: (s ++ ('"' :: ';' :: ' ' :: tail)), []) :=
    skip_stop ⟨by decide, by decide, by decide⟩
  have hskip4 : skip (';' :: ' ' :: tail) = some (';' :: ' ' :: tail, []) :=
    skip_stop ⟨by decide, by decide, by decide⟩
  have hws2 := conf_ws_eval hskip3 hqs hskip4
  have hchar : pChar ';' (';' :: ' ' :: tail) = some (' ' :: tail, ';') :=
    pChar_cons ';' (' ' :: tail)
  have hskip5 : skip (' ' :: tail) = some (tail, [()]) :=
    skip_ws (w := [' ']) (by decide) (by decide) ht
  have hsemi : semicolon (';' :: ' ' :: tail) = some (tail, ';') :=
    conf_ws_eval hskip4 hchar hskip5
  exact pMap_eval (pSeq_eval hws1 (pSeq_eval hws2 hsemi))

theorem getLast?_cons_or {α : Type} (a : α) (l : List α) :
    (a :: l).getLast? = l.getLast?.or (some a) := by
  cases l with
  | nil => rfl
  | cons b t =>
    rw [List.getLast?_cons_cons]
    cases h : (b :: t).getLast? with
    | none => exact absurd h (by simp)
    | some c => rfl

end RndcConf

/-! ### Key fields parse back from their rendering -/

theorem parse_key_field_render (f : RndcConf.KeyField) (hf : KeyField.wf f) {tail : Input}
    (ht : RndcConf.noSkipHead tail) :
    RndcConf.parse_key_field (KeyField.render f ++ tail) = some (tail, f) := by
  cases f with
  | Algorithm a =>
    obtain ⟨ha, hall⟩ := hf
    have heq : KeyField.render (.Algorithm a) ++ tail =
        "algorithm ".data ++ (a ++ (';' :: ' ' :: tail)) := by
      simp [KeyField.render, List.append_assoc]
    rw [heq]
    exact pAlt_eval_left (RndcConf.parse_algorithm_field_render ha hall ht)
  | Secret s =>
    obtain ⟨hq, hb⟩ := hf
    have heq : KeyField.render (.Secret s) ++ tail =
        "secret \"".data ++ (s ++ ('"' :: ';' :: ' ' :: tail)) := by
      simp [KeyField.render, List.append_assoc]
    rw [heq]
    have hskip : RndcConf.skip ("secret \"".data ++ (s ++ ('"' :: ';' :: ' ' :: tail))) =
        some ("secret \"".data ++ (s ++ ('"' :: ';' :: ' ' :: tail)), []) :=
      RndcConf.skip_stop ⟨by decide, by decide, by decide⟩
    have htagfail : pTag "algorithm".data
        ("secret \"".data ++ (s ++ ('"' :: ';' :: ' ' :: tail))) = none :=
      pTag_cons_ne (by decide)
    have hws : RndcConf.ws (pTag "algorithm".data)
        ("secret \"".data ++ (s ++ ('"' :: ';' :: ' ' :: tail))) = none := by
      show pMap (pSeq RndcConf.skip (pSeq (pTag "algorithm".data) RndcConf.skip))
          (fun x => x.2.1)
          ("secret \"".data ++ (s ++ ('"' :: ';' :: ' ' :: tail))) = none
      exact pMap_none (pSeq_none_right hskip (pSeq_none_left htagfail))
    have halg : RndcConf.parse_algorithm_field
        ("secret \"".data ++ (s ++ ('"' :: ';' :: ' ' :: tail))) = none :=
      pMap_none (pSeq_none_left hws)
    unfold RndcConf.parse_key_field
    rw [pAlt_eval_right halg]
    exact RndcConf.parse_secret_field_render hq hb ht

theorem noSkipHead_renderField (g : RndcConf.KeyField) (X : Input) :
    RndcConf.noSkipHead (KeyField.render g ++ X) := by
  cases g with
  | Algorithm a => exact ⟨by decide, by decide, by decide⟩
  | Secret s => exact ⟨by decide, by decide, by decide⟩

theorem renderField_ne_nil (g : RndcConf.KeyField) : KeyField.render g ≠ [] := by
  cases g with
  | Algorithm a => simp [KeyField.render]
  | Secret s => simp [KeyField.render]

theorem pMany0_key_fields (fields : List RndcConf.KeyField)
    (hf : ∀ f ∈ fields, KeyField.wf f) {tail : Input}
    (ht : RndcConf.noSkipHead tail) (hstop : RndcConf.parse_key_field tail = none) :
    pMany0 RndcConf.parse_key_field ((fields.map KeyField.render).flatten ++ tail) =
      some (tail, fields) := by
  induction fields with
  | nil =>
    simpa using pMany0_eval_nil hstop
  | cons f rest ih =>
    have hwf := hf f (List.mem_cons_self f rest)
    have hrest : ∀ g ∈ rest, KeyField.wf g := fun g hg => hf g (List.mem_cons_of_mem f hg)
    have hshape : (((f :: rest).map KeyField.render).flatten ++ tail) =
        KeyField.render f ++ ((rest.map KeyField.render).flatten ++ tail) := by
      simp [List.append_assoc]
    rw [hshape]
    have htail2 : RndcConf.noSkipHead ((rest.map KeyField.render).flatten ++ tail) := by
      cases rest with
      | nil => simpa using ht
      | cons g t =>
        simp only [List.map_cons, List.flatten_cons, List.append_assoc]
        exact noSkipHead_renderField g _
    refine pMany0_eval_cons (parse_key_field_render f hwf htail2) ?_ (ih hrest)
    simp only [List.length_append]
    have := List.length_pos.mpr (renderField_ne_nil f)
    omega

/-! ### The key-field fold keeps the last occurrence of each kind -/

theorem keyFoldGo (fields : List RndcConf.KeyField) :
    ∀ acc : Option (List Char) × Option (List Char),
      fields.foldl (fun acc f =>
        match f with
        | .Algorithm a => (some a, acc.2)
        | .Secret s => (acc.1, some s)) acc =
      (((fields.filterMap (fun f =>
          match f with
          | RndcConf.KeyField.Algorithm a => some a
          | RndcConf.KeyField.Secret _ => none)).getLast?).or acc.1,
       ((fields.filterMap (fun f =>
          match f with
          | RndcConf.KeyField.Algorithm _ => none
          | RndcConf.KeyField.Secret s => some s)).getLast?).or acc.2) := by
  induction fields with
  | nil =>
    intro acc
    simp [Option.none_or]
  | cons f rest ih =>
    intro acc
    cases f with
    | Algorithm a =>
      have hsomeor : ∀ x : Option (List Char), (some a).or x = some a := fun _ => rfl
      simp only [List.foldl_cons, List.filterMap_cons, ih, RndcConf.getLast?_cons_or,
        Option.or_assoc, hsomeor]
    | Secret b =>
      have hsomeor : ∀ x : Option (List Char), (some b).or x = some b := fun _ => rfl
      simp only [List.foldl_cons, List.filterMap_cons, ih, RndcConf.getLast?_cons_or,
        Option.or_assoc, hsomeor]

theorem keyFieldsFold_spec (fields : List RndcConf.KeyField) :
    RndcConf.keyFieldsFold fields =
      ((fields.filterMap (fun f =>
          match f with
          | RndcConf.KeyField.Algorithm a => some a
          | RndcConf.KeyField.Secret _ => none)).getLast?,
       (fields.filterMap (fun f =>
          match f with
          | RndcConf.KeyField.Algorithm _ => none
          | RndcConf.KeyField.Secret s => some s)).getLast?) := by
  have h := keyFoldGo fields (none, none)
  simpa [RndcConf.keyFieldsFold, Option.or_none] using h

/-- C9: for every well-formed key block — quote-and-backslash-free name,
algorithm payloads nonempty identifier text, secret payloads escape-free —
parsing the rendered block succeeds; the algorithm is the last algorithm
sub-statement (defaulting to hmac-sha256 when there is none) and the secret
is the last secret sub-statement (defaulting to the empty string), whatever
the order and number of sub-statements. -/
theorem C9_key_block_semantics (name : List Char) (fields : List RndcConf.KeyField)
    (hq : '"' ∉ name) (hb : '\\' ∉ name) (hf : ∀ f ∈ fields, KeyField.wf f) :
    RndcConf.parse_key_block (renderKeyBlock name fields) =
      some ([], (name,
        { name := name
          algorithm := lastAlgorithm fields
          secret := lastSecret fields })) := by
  have heq : renderKeyBlock name fields =
      "key \"".data ++ (name ++ ('"' :: ' ' :: '{' :: ' ' ::
        ((fields.map KeyField.render).flatten ++ "\x7d;".data))) := by
    simp [renderKeyBlock, List.append_assoc]
  have hbody : RndcConf.noSkipHead ((fields.map KeyField.render).flatten ++ "\x7d;".data) := by
    cases fields with
    | nil => exact ⟨by decide, by decide, by decide⟩
    | cons g t =>
      simp only [List.map_cons, List.flatten_cons, List.append_assoc]
      exact noSkipHead_renderField g _
  have hskip1 : RndcConf.skip ("key \"".data ++ (name ++ ('"' :: ' ' :: '{' :: ' ' ::
      ((fields.map KeyField.render).flatten ++ "\x7d;".data)))) =
      some ("key \"".data ++ (name ++ ('"' :: ' ' :: '{' :: ' ' ::
        ((fields.map KeyField.render).flatten ++ "\x7d;".data))), []) :=
    RndcConf.skip_stop ⟨by decide, by decide, by decide⟩
  have htag : pTag "key".data ("key \"".data ++ (name ++ ('"' :: ' ' :: '{' :: ' ' ::
      ((fields.map KeyField.render).flatten ++ "\x7d;".data)))) =
      some (' ' :: '"' :: (name ++ ('"' :: ' ' :: '{' :: ' ' ::
        ((fields.map KeyField.render).flatten ++ "\x7d;".data))), "key".data) :=
    pTag_append "key".data (' ' :: '"' :: (name ++ ('"' :: ' ' :: '{' :: ' ' ::
      ((fields.map KeyField.render).flatten ++ "\x7d;".data))))
  have hskip2 : RndcConf.skip (' ' :: '"' :: (name ++ ('"' :: ' ' :: '{' :: ' ' ::
      ((fields.map KeyField.render).flatten ++ "\x7d;".data)))) =
      some ('"' :: (name ++ ('"' :: ' ' :: '{' :: ' ' ::
        ((fields.map KeyField.render).flatten ++ "\x7d;".data))), [()]) :=
    RndcConf.skip_ws (w := [' ']) (by decide) (by decide) ⟨by decide, by decide, by decide⟩
  have hws1 := RndcConf.conf_ws_eval hskip1 htag hskip2
  have hqs : RndcConf.quoted_string ('"' :: (name ++ ('"' :: ' ' :: '{' :: ' ' ::
      ((fields.map KeyField.render).flatten ++ "\x7d;".data)))) =
      some (' ' :: '{' :: ' ' :: ((fields.map KeyField.render).flatten ++ "\x7d;".data),
        name) :=
    RndcConf.conf_quoted_string_eval hq hb
  have hskip3 : RndcConf.skip ('"' :: (name ++ ('"' :: ' ' :: '{' :: ' ' ::
      ((fields.map KeyField.render).flatten ++ "\x7d;".data)))) =
      some ('"' :: (name ++ ('"' :: ' ' :: '{' :: ' ' ::
        ((fields.map KeyField.render).flatten ++ "\x7d;".data))), []) :=
    RndcConf.skip_stop ⟨by decide, by decide, by decide⟩
  have hskip4 : RndcConf.skip (' ' :: '{' :: ' ' ::
      ((fields.map KeyField.render).flatten ++ "\x7d;".data)) =
      some ('{' :: ' ' :: ((fields.map KeyField.render).flatten ++ "\x7d;".data), [()]) :=
    RndcConf.skip_ws (w := [' ']) (by decide) (by decide) ⟨by decide, by decide, by decide⟩
  have hws2 := RndcConf.conf_ws_eval hskip3 hqs hskip4
  have hskip5 : RndcConf.skip ('{' :: ' ' ::
      ((fields.map KeyField.render).flatten ++ "\x7d;".data)) =
      some ('{' :: ' ' :: ((fields.map KeyField.render).flatten ++ "\x7d;".data), []) :=
    RndcConf.skip_stop ⟨by decide, by decide, by decide⟩
  have hchar : pChar '{' ('{' :: ' ' ::
      ((fields.map KeyField.render).flatten ++ "\x7d;".data)) =
      some (' ' :: ((fields.map KeyField.render).flatten ++ "\x7d;".data), '{') :=
    pChar_cons '{' (' ' :: ((fields.map KeyField.render).flatten ++ "\x7d;".data))
  have hskip6 : RndcConf.skip (' ' ::
      ((fields.map KeyField.render).flatten ++ "\x7d;".data)) =
      some ((fields.map KeyField.render).flatten ++ "\x7d;".data, [()]) :=
    RndcConf.skip_ws (w := [' ']) (by decide) (by decide) hbody
  have hwsl := RndcConf.conf_ws_eval hskip5 hchar hskip6
  have hstop : RndcConf.parse_key_field "\x7d;".data = none := by rfl
  have hmany := @pMany0_key_fields fields hf "\x7d;".data
    ⟨by decide, by decide, by decide⟩ hstop
  have hskip7 : RndcConf.skip "\x7d;".data = some ("\x7d;".data, []) :=
    RndcConf.skip_stop ⟨by decide, by decide, by decide⟩
  have htag2 : pTag "\x7d;".data "\x7d;".data = some ([], "\x7d;".data) := by rfl
  have hskip8 : RndcConf.skip ([] : List Char) = some ([], []) :=
    RndcConf.skip_stop trivial
  have hwsr := RndcConf.conf_ws_eval hskip7 htag2 hskip8
  have hdel := pDelimited_eval hwsl hmany hwsr
  rw [heq]
  unfold RndcConf.parse_key_block
  rw [pMap_eval (pSeq_eval hws1 (pSeq_eval hws2 hdel))]
  show some ([], (name,
    ({ name := name
       algorithm := (RndcConf.keyFieldsFold fields).1.getD "hmac-sha256".data
       secret := (RndcConf.keyFieldsFold fields).2.getD [] } : KeyBlock))) = _
  rw [keyFieldsFold_spec]
  rfl

/-- Witness for C9 at a key block with a secret first and two algorithm
sub-statements: the later algorithm wins. -/
theorem C9_witness :
    RndcConf.parse_key_block (renderKeyBlock "rndc-key".data
      [.Secret "dGVzdA==".data, .Algorithm "hmac-sha256".data,
       .Algorithm "hmac-md5".data]) =
      some ([], ("rndc-key".data,
        { name := "rndc-key".data
          algorithm := "hmac-md5".data
          secret := "dGVzdA==".data })) := by
  refine Eq.trans (C9_key_block_semantics "rndc-key".data
    [.Secret "dGVzdA==".data, .Algorithm "hmac-sha256".data,
     .Algorithm "hmac-md5".data] (by decide) (by decide) ?_) ?_
  · intro f hfm
    simp only [List.mem_cons, List.not_mem_nil, or_false] at hfm
    rcases hfm with rfl | rfl | rfl
    · exact ⟨by decide, by decide⟩
    · exact ⟨by decide, by decide⟩
    · exact ⟨by decide, by decide⟩
  · rfl

end Bindcar

namespace Bindcar

/-! ### Evaluation lemmas for the showzone whitespace skipper -/

theorem dropWhile_eq_self_append {p : Char → Bool} {s r : List Char}
    (hs : ∀ c ∈ s, p c = false) (hr : r.dropWhile p = r) :
    (s ++ r).dropWhile p = s ++ r := by
  cases s with
  | nil => simpa using hr
  | cons c t =>
    rw [List.cons_append, List.dropWhile_cons,
      if_neg (by simp [hs c (List.mem_cons_self c t)])]

theorem dropWhile_cons_self {p : Char → Bool} {c : Char} {r : List Char} (h : p c = false) :
    (c :: r).dropWhile p = c :: r := by
  rw [List.dropWhile_cons, if_neg (by simp [h])]

theorem isIpChar_not_ws {c : Char} (h : Rndc.isIpChar c = true) : isMultispace c = false := by
  by_contra hm
  simp only [Bool.not_eq_false] at hm
  have h4 : ((c = ' ' ∨ c = '\t') ∨ c = '\n') ∨ c = '\r' := by
    unfold isMultispace at hm
    simpa [Bool.or_eq_true, decide_eq_true_eq] using hm
  rcases h4 with ((rfl | rfl) | rfl) | rfl
  all_goals exact absurd h (by decide)

theorem rndc_multispace0_stop {i : Input} (h : i.dropWhile isMultispace = i) :
    Rndc.multispace0 i = some (i, []) := by
  unfold Rndc.multispace0 pTakeWhile
  rw [h, takeWhile_eq_nil_of_dropWhile_self h]

theorem rndc_multispace0_ws {w i : Input} (hall : ∀ c ∈ w, isMultispace c = true)
    (h : i.dropWhile isMultispace = i) : Rndc.multispace0 (w ++ i) = some (i, w) :=
  pTakeWhile_eval hall h

theorem rndc_ws_eval {α : Type} {f : Parser α} {i i1 i2 r : Input} {a : α}
    {u1 u2 : List Char} (h1 : Rndc.multispace0 i = some (i1, u1))
    (hf : f i1 = some (i2, a)) (h2 : Rndc.multispace0 i2 = some (r, u2)) :
    Rndc.ws f i = some (r, a) :=
  pDelimited_eval h1 hf h2

/-- The rendered allow-update body followed by a close-brace tail never
starts with whitespace. -/
theorem renderAUBody_dropWhile (entries : List AUEntry) {r : Input}
    (hr : r.dropWhile isMultispace = r) :
    (renderAUBody entries ++ r).dropWhile isMultispace = renderAUBody entries ++ r := by
  cases entries with
  | nil => simpa [renderAUBody] using hr
  | cons e t =>
    have hshape : renderAUBody (e :: t) ++ r =
        AUEntry.render e ++ (renderAUBody t ++ r) := by
      simp [renderAUBody, List.append_assoc]
    rw [hshape]
    cases e with
    | key n =>
      rw [show AUEntry.render (.key n) ++ (renderAUBody t ++ r) =
        'k' :: ("ey \"".data ++ (n ++ ("\"; ".data ++ (renderAUBody t ++ r)))) from by
          simp [AUEntry.render, List.append_assoc]]
      exact dropWhile_cons_self (by decide)
    | ip a =>
      have hshape2 : AUEntry.render (.ip a) ++ (renderAUBody t ++ r) =
          ipToChars a ++ ("; ".data ++ (renderAUBody t ++ r)) := by
        simp [AUEntry.render, List.append_assoc]
      rw [hshape2]
      refine dropWhile_eq_self_append ?_ ?_
      · intro c hc
        exact isIpChar_not_ws (ipToChars_ipChar a c hc)
      · exact dropWhile_cons_self (by decide)

theorem ipToChars_ne_nil_of_rt {a : IpAddr} (hrt : ipRoundTrips a = true) :
    ipToChars a ≠ [] := by
  intro h
  unfold ipRoundTrips at hrt
  rw [h] at hrt
  exact Option.noConfusion (of_decide_eq_true hrt)

/-- The showzone `ip_addr` on a round-tripping rendered address followed by a
semicolon: the address is consumed, the semicolon left. -/
theorem rndc_ip_addr_semi {a : IpAddr} {r2 : Input} (hrt : ipRoundTrips a = true) :
    Rndc.ip_addr (ipToChars a ++ (';' :: r2)) = some (';' :: r2, a) := by
  have hall : ∀ c ∈ ipToChars a, Rndc.isIpChar c = true := ipToChars_ipChar a
  have h1 : pTakeWhile1 Rndc.isIpChar (ipToChars a ++ (';' :: r2)) =
      some (';' :: r2, ipToChars a) :=
    pTakeWhile1_eval (ipToChars_ne_nil_of_rt hrt) hall (dropWhile_cons_self (by decide))
  have hparse : rustParseIp (ipToChars a) = some a := by
    unfold ipRoundTrips at hrt
    exact of_decide_eq_true hrt
  exact pTerminated_eval (pFilterMap_eval h1 hparse)
    (pOpt_eval_none (pPreceded_none_left (pChar_cons_ne r2 (by decide))))

theorem renderAUBody_cons (e : AUEntry) (t : List AUEntry) :
    renderAUBody (e :: t) = AUEntry.render e ++ renderAUBody t := by
  simp [renderAUBody]

/-- The allow-update body loop on a rendered body: collects the IP entries in
order and flags whether any key reference occurred, stopping at the closing
brace. -/
theorem allowUpdateLoop_render (entries : List AUEntry)
    (hwf : ∀ e ∈ entries, AUEntry.wf e) :
    ∀ fuel (w r : Input), (∀ c ∈ w, isMultispace c = true) →
      (w ++ (renderAUBody entries ++ ('\x7d' :: r))).length < fuel →
      Rndc.allowUpdateLoop fuel (w ++ (renderAUBody entries ++ ('\x7d' :: r))) =
        some (r, (auIps entries, entries.any AUEntry.isKey)) := by
  induction entries with
  | nil =>
    intro fuel w r hw hlen
    cases fuel with
    | zero => exact absurd hlen (Nat.not_lt_zero _)
    | succ n =>
      unfold Rndc.allowUpdateLoop
      have hdrop : (w ++ (renderAUBody [] ++ ('\x7d' :: r))).dropWhile isMultispace =
          '\x7d' :: r := by
        rw [dropWhile_append_all _ _ hw]
        simp only [renderAUBody, List.map_nil, List.flatten_nil, List.nil_append]
        exact dropWhile_cons_self (by decide)
      rw [hdrop]
      simp [pChar_cons, auIps]
  | cons e t ih =>
    intro fuel w r hw hlen
    have hwfe := hwf e (List.mem_cons_self e t)
    have hwft : ∀ x ∈ t, AUEntry.wf x := fun x hx => hwf x (List.mem_cons_of_mem e hx)
    cases fuel with
    | zero => exact absurd hlen (Nat.not_lt_zero _)
    | succ n =>
      unfold Rndc.allowUpdateLoop
      have hbody : (renderAUBody (e :: t) ++ ('\x7d' :: r)).dropWhile isMultispace =
          renderAUBody (e :: t) ++ ('\x7d' :: r) :=
        renderAUBody_dropWhile (e :: t) (dropWhile_cons_self (by decide))
      have hdrop : (w ++ (renderAUBody (e :: t) ++ ('\x7d' :: r))).dropWhile isMultispace =
          renderAUBody (e :: t) ++ ('\x7d' :: r) := by
        rw [dropWhile_append_all _ _ hw, hbody]
      rw [hdrop]
      cases e with
      | key nm =>
        obtain ⟨hq, hsm⟩ := hwfe
        have hshape : renderAUBody (AUEntry.key nm :: t) ++ ('\x7d' :: r) =
            'k' :: ('e' :: ('y' :: (' ' :: ('"' :: (nm ++ ('"' :: (';' :: (' ' ::
              (renderAUBody t ++ ('\x7d' :: r)))))))))) := by
          simp [renderAUBody, AUEntry.render, List.append_assoc]
        have hpc : pChar '\x7d' ('k' :: ('e' :: ('y' :: (' ' :: ('"' :: (nm ++ ('"' ::
            (';' :: (' ' :: (renderAUBody t ++ ('\x7d' :: r))))))))))) = none :=
          pChar_cons_ne _ (by decide)
        have hm0a : Rndc.multispace0 ('k' :: ('e' :: ('y' :: (' ' :: ('"' :: (nm ++ ('"' ::
            (';' :: (' ' :: (renderAUBody t ++ ('\x7d' :: r))))))))))) =
            some ('k' :: ('e' :: ('y' :: (' ' :: ('"' :: (nm ++ ('"' :: (';' :: (' ' ::
              (renderAUBody t ++ ('\x7d' :: r)))))))))), []) :=
          rndc_multispace0_stop (dropWhile_cons_self (by decide))
        have htagk : pTag "key".data ('k' :: ('e' :: ('y' :: (' ' :: ('"' :: (nm ++ ('"' ::
            (';' :: (' ' :: (renderAUBody t ++ ('\x7d' :: r))))))))))) =
            some (' ' :: ('"' :: (nm ++ ('"' :: (';' :: (' ' ::
              (renderAUBody t ++ ('\x7d' :: r))))))), "key".data) :=
          pTag_append "key".data (' ' :: ('"' :: (nm ++ ('"' :: (';' :: (' ' ::
            (renderAUBody t ++ ('\x7d' :: r))))))))
        have hm0b : Rndc.multispace0 (' ' :: ('"' :: (nm ++ ('"' :: (';' :: (' ' ::
            (renderAUBody t ++ ('\x7d' :: r)))))))) =
            some ('"' :: (nm ++ ('"' :: (';' :: (' ' ::
              (renderAUBody t ++ ('\x7d' :: r)))))), [' ']) :=
          @rndc_multispace0_ws [' '] ('"' :: (nm ++ ('"' :: (';' :: (' ' ::
            (renderAUBody t ++ ('\x7d' :: r))))))) (by decide)
            (dropWhile_cons_self (by decide))
        have hwskey : Rndc.ws (pTag "key".data) ('k' :: ('e' :: ('y' :: (' ' :: ('"' ::
            (nm ++ ('"' :: (';' :: (' ' :: (renderAUBody t ++ ('\x7d' :: r))))))))))) =
            some ('"' :: (nm ++ ('"' :: (';' :: (' ' ::
              (renderAUBody t ++ ('\x7d' :: r)))))), "key".data) :=
          rndc_ws_eval hm0a htagk hm0b
        have htu : pTakeUntil [';'] ('"' :: (nm ++ ('"' :: (';' :: (' ' ::
            (renderAUBody t ++ ('\x7d' :: r))))))) =
            some (';' :: (' ' :: (renderAUBody t ++ ('\x7d' :: r))),
              '"' :: (nm ++ ['"'])) := by
          have hmem : ';' ∉ '"' :: (nm ++ ['"']) := by
            intro hc
            rcases List.mem_cons.mp hc with hc | hc
            · exact absurd hc (by decide)
            · rcases List.mem_append.mp hc with hc | hc
              · exact hsm hc
              · exact absurd hc (by decide)
          have h2 := @pTakeUntil_single ';' ('"' :: (nm ++ ['"']))
            (' ' :: (renderAUBody t ++ ('\x7d' :: r))) hmem
          simpa [List.append_assoc] using h2
        have hpsemi : pChar ';' (';' :: (' ' :: (renderAUBody t ++ ('\x7d' :: r)))) =
            some (' ' :: (renderAUBody t ++ ('\x7d' :: r)), ';') :=
          pChar_cons ';' _
        have hlen2 : ([' '] ++ (renderAUBody t ++ ('\x7d' :: r))).length < n := by
          rw [renderAUBody_cons] at hlen
          simp only [List.length_append, List.length_cons, AUEntry.render,
            List.length_singleton] at hlen ⊢
          omega
        have hrec : Rndc.allowUpdateLoop n (' ' :: (renderAUBody t ++ ('\x7d' :: r))) =
            some (r, (auIps t, t.any AUEntry.isKey)) :=
          ih hwft n [' '] r (by decide) hlen2
        rw [hshape]
        simp only [hpc, hwskey, htu, hpsemi, hrec]
        simp [auIps, AUEntry.isKey]
      | ip a =>
        have hrt : ipRoundTrips a = true := hwfe
        have hshape : renderAUBody (AUEntry.ip a :: t) ++ ('\x7d' :: r) =
            ipToChars a ++ (';' :: (' ' :: (renderAUBody t ++ ('\x7d' :: r)))) := by
          simp [renderAUBody, AUEntry.render, List.append_assoc]
        obtain ⟨c, s2, hcs⟩ : ∃ c s2, ipToChars a = c :: s2 := by
          cases hip : ipToChars a with
          | nil => exact absurd hip (ipToChars_ne_nil_of_rt hrt)
          | cons c s2 => exact ⟨c, s2, rfl⟩
        have hcip : Rndc.isIpChar c = true :=
          ipToChars_ipChar a c (by rw [hcs]; exact List.mem_cons_self c s2)
        have hcneq : ∀ d : Char, Rndc.isIpChar d = false → c ≠ d := by
          intro d hd he
          rw [he] at hcip
          rw [hcip] at hd
          cases hd
        have hpc : pChar '\x7d' (ipToChars a ++ (';' :: (' ' :: (renderAUBody t ++
            ('\x7d' :: r))))) = none := by
          rw [hcs, List.cons_append]
          exact pChar_cons_ne _ (hcneq '\x7d' (by decide))
        have hm0 : Rndc.multispace0 (ipToChars a ++ (';' :: (' ' :: (renderAUBody t ++
            ('\x7d' :: r))))) = some (ipToChars a ++ (';' :: (' ' :: (renderAUBody t ++
            ('\x7d' :: r)))), []) := by
          refine rndc_multispace0_stop ?_
          rw [hcs, List.cons_append]
          exact dropWhile_cons_self (isIpChar_not_ws hcip)
        have htagfail : pTag "key".data (ipToChars a ++ (';' :: (' ' :: (renderAUBody t ++
            ('\x7d' :: r))))) = none := by
          rw [hcs, List.cons_append]
          exact pTag_cons_ne (fun he => (hcneq 'k' (by decide)) he.symm)
        have hwsfail : Rndc.ws (pTag "key".data) (ipToChars a ++ (';' :: (' ' ::
            (renderAUBody t ++ ('\x7d' :: r))))) = none := by
          show pMap (pSeq Rndc.multispace0 (pSeq (pTag "key".data) Rndc.multispace0))
            (fun x => x.2.1) (ipToChars a ++ (';' :: (' ' ::
              (renderAUBody t ++ ('\x7d' :: r))))) = none
          exact pMap_none (pSeq_none_right hm0 (pSeq_none_left htagfail))
        have hip2 : Rndc.ip_addr (ipToChars a ++ (';' :: (' ' :: (renderAUBody t ++
            ('\x7d' :: r))))) = some (';' :: (' ' :: (renderAUBody t ++ ('\x7d' :: r))),
            a) := rndc_ip_addr_semi hrt
        have hsemi2 : Rndc.semicolon (';' :: (' ' :: (renderAUBody t ++ ('\x7d' :: r)))) =
            some (renderAUBody t ++ ('\x7d' :: r), ';') := by
          have hm3 := @rndc_multispace0_ws [' '] (renderAUBody t ++ ('\x7d' :: r))
            (by decide) (renderAUBody_dropWhile t (dropWhile_cons_self (by decide)))
          exact rndc_ws_eval (rndc_multispace0_stop (dropWhile_cons_self (by decide)))
            (pChar_cons ';' (' ' :: (renderAUBody t ++ ('\x7d' :: r)))) hm3
        have hlen2 : (([] : Input) ++ (renderAUBody t ++ ('\x7d' :: r))).length < n := by
          rw [renderAUBody_cons] at hlen
          simp only [List.length_append, List.length_cons, AUEntry.render,
            List.nil_append] at hlen ⊢
          omega
        have hrec : Rndc.allowUpdateLoop n (renderAUBody t ++ ('\x7d' :: r)) =
            some (r, (auIps t, t.any AUEntry.isKey)) := by
          have h3 := ih hwft n [] r (by simp) hlen2
          simpa using h3
        rw [hshape]
        simp only [hpc, hwsfail, hip2, hsemi2, hrec]
        simp [auIps, AUEntry.isKey]

/-- `parse_allow_update_statement` on a rendered directive: when any key
reference occurs in the body the raw text from the opening brace through the
consumed semicolon and trailing space is captured; otherwise the typed IP
list is produced. -/
theorem parse_allow_update_render (entries : List AUEntry)
    (hwf : ∀ e ∈ entries, AUEntry.wf e) {r : Input}
    (hr : r.dropWhile isMultispace = r) :
    Rndc.parse_allow_update_statement
      ("allow-update \x7b ".data ++ (renderAUBody entries ++ ('\x7d' :: ';' :: ' ' :: r))) =
      some (r,
        if entries.any AUEntry.isKey then
          .AllowUpdateRaw ("\x7b ".data ++ (renderAUBody entries ++ "\x7d; ".data))
        else .AllowUpdate (auIps entries)) := by
  have hbodydrop : (renderAUBody entries ++ ('\x7d' :: ';' :: ' ' :: r)).dropWhile
      isMultispace = renderAUBody entries ++ ('\x7d' :: ';' :: ' ' :: r) :=
    renderAUBody_dropWhile entries (dropWhile_cons_self (by decide))
  have hm0a : Rndc.multispace0 ("allow-update \x7b ".data ++ (renderAUBody entries ++
      ('\x7d' :: ';' :: ' ' :: r))) = some ("allow-update \x7b ".data ++
      (renderAUBody entries ++ ('\x7d' :: ';' :: ' ' :: r)), []) :=
    rndc_multispace0_stop (dropWhile_cons_self (by decide))
  have htag : pTag "allow-update".data ("allow-update \x7b ".data ++
      (renderAUBody entries ++ ('\x7d' :: ';' :: ' ' :: r))) =
      some (' ' :: ('{' :: (' ' :: (renderAUBody entries ++ ('\x7d' :: ';' :: ' ' :: r)))),
        "allow-update".data) :=
    pTag_append "allow-update".data (' ' :: ('{' :: (' ' ::
      (renderAUBody entries ++ ('\x7d' :: ';' :: ' ' :: r)))))
  have hm0b : Rndc.multispace0 (' ' :: ('{' :: (' ' :: (renderAUBody entries ++
      ('\x7d' :: ';' :: ' ' :: r))))) =
      some ('{' :: (' ' :: (renderAUBody entries ++ ('\x7d' :: ';' :: ' ' :: r))), [' ']) :=
    @rndc_multispace0_ws [' '] ('{' :: (' ' :: (renderAUBody entries ++
      ('\x7d' :: ';' :: ' ' :: r)))) (by decide) (dropWhile_cons_self (by decide))
  have hws1 : Rndc.ws (pTag "allow-update".data) ("allow-update \x7b ".data ++
      (renderAUBody entries ++ ('\x7d' :: ';' :: ' ' :: r))) =
      some ('{' :: (' ' :: (renderAUBody entries ++ ('\x7d' :: ';' :: ' ' :: r))),
        "allow-update".data) :=
    rndc_ws_eval hm0a htag hm0b
  have hm0c : Rndc.multispace0 ('{' :: (' ' :: (renderAUBody entries ++
      ('\x7d' :: ';' :: ' ' :: r)))) =
      some ('{' :: (' ' :: (renderAUBody entries ++ ('\x7d' :: ';' :: ' ' :: r))), []) :=
    rndc_multispace0_stop (dropWhile_cons_self (by decide))
  have hm0d : Rndc.multispace0 (' ' :: (renderAUBody entries ++
      ('\x7d' :: ';' :: ' ' :: r))) =
      some (renderAUBody entries ++ ('\x7d' :: ';' :: ' ' :: r), [' ']) :=
    @rndc_multispace0_ws [' '] (renderAUBody entries ++ ('\x7d' :: ';' :: ' ' :: r))
      (by decide) hbodydrop
  have hws2 : Rndc.ws (pChar '{') ('{' :: (' ' :: (renderAUBody entries ++
      ('\x7d' :: ';' :: ' ' :: r)))) =
      some (renderAUBody entries ++ ('\x7d' :: ';' :: ' ' :: r), '{') :=
    rndc_ws_eval hm0c (pChar_cons '{' (' ' :: (renderAUBody entries ++
      ('\x7d' :: ';' :: ' ' :: r)))) hm0d
  have hloop : Rndc.allowUpdateLoop
      ((renderAUBody entries ++ ('\x7d' :: ';' :: ' ' :: r)).length + 1)
      (renderAUBody entries ++ ('\x7d' :: ';' :: ' ' :: r)) =
      some (';' :: ' ' :: r, (auIps entries, entries.any AUEntry.isKey)) := by
    have h2 := allowUpdateLoop_render entries hwf
      ((renderAUBody entries ++ ('\x7d' :: ';' :: ' ' :: r)).length + 1) [] (';' :: ' ' :: r)
      (by simp) (by simp)
    simpa using h2
  have hsemi : Rndc.semicolon (';' :: ' ' :: r) = some (r, ';') := by
    have hm3 := @rndc_multispace0_ws [' '] r (by decide) hr
    exact rndc_ws_eval (rndc_multispace0_stop (dropWhile_cons_self (by decide)))
      (pChar_cons ';' (' ' :: r)) hm3
  unfold Rndc.parse_allow_update_statement
  simp only [hws1, hws2, hloop, hsemi]
  by_cases hk : entries.any AUEntry.isKey = true
  · have hlen : ('{' :: (' ' :: (renderAUBody entries ++
        ('\x7d' :: ';' :: ' ' :: r)))).length - r.length =
        ('{' :: ' ' :: renderAUBody entries).length + 3 := by
      simp only [List.length_cons, List.length_append]
      omega
    have htake : ('{' :: (' ' :: (renderAUBody entries ++
        ('\x7d' :: ';' :: ' ' :: r)))).take
        (('{' :: (' ' :: (renderAUBody entries ++ ('\x7d' :: ';' :: ' ' :: r)))).length
          - r.length) = "\x7b ".data ++ (renderAUBody entries ++ "\x7d; ".data) := by
      rw [hlen]
      have hsplit : '{' :: (' ' :: (renderAUBody entries ++ ('\x7d' :: ';' :: ' ' :: r))) =
          ('{' :: ' ' :: renderAUBody entries) ++ ('\x7d' :: ';' :: ' ' :: r) := by
        simp
      rw [hsplit, List.take_append 3]
      simp
    simp only [hk, if_true]
    rw [← htake]
  · rw [Bool.not_eq_true] at hk
    simp only [hk, Bool.false_eq_true, if_false]

theorem rndc_ws_none {α : Type} {f : Parser α} {i i0 : Input} {u : List Char}
    (hm : Rndc.multispace0 i = some (i0, u)) (hf : f i0 = none) :
    Rndc.ws f i = none := by
  show pMap (pSeq Rndc.multispace0 (pSeq f Rndc.multispace0)) (fun x => x.2.1) i = none
  exact pMap_none (pSeq_none_right hm (pSeq_none_left hf))

theorem dropWhileEnd_eq_self {p : Char → Bool} {s : List Char}
    (h : ∀ c, s.getLast? = some c → p c = false) : dropWhileEnd p s = s := by
  unfold dropWhileEnd
  cases hrev : s.reverse with
  | nil =>
    simp [List.reverse_eq_nil_iff.mp hrev]
  | cons c t =>
    have hc : s.getLast? = some c := by
      rw [← List.head?_reverse, hrev]
      rfl
    rw [dropWhile_cons_self (h c hc), ← hrev, List.reverse_reverse]

theorem trimChars_eq_self {s : List Char}
    (h1 : s.dropWhile isMultispace = s)
    (h2 : dropWhileEnd isMultispace s = s) : trimChars s = s := by
  unfold trimChars
  rw [h1, h2]

/-- C2: a zone block whose allow-update body contains at least one key
reference parses with the entire raw body text captured in allow_update_raw
and the typed allow_update list left absent, even when IP entries are also
present. -/
theorem C2_allow_update_key_capture (name : List Char) (entries : List AUEntry)
    (hq : '"' ∉ name) (hwf : ∀ e ∈ entries, AUEntry.wf e)
    (hk : ∃ e ∈ entries, AUEntry.isKey e = true) :
    Rndc.parse_showzone (renderAUZone name entries) =
      .ok { ZoneConfig.new name .Primary with
            allow_update_raw :=
              some ("\x7b ".data ++ (renderAUBody entries ++ "\x7d; ".data)) } ∧
    ({ ZoneConfig.new name .Primary with
       allow_update_raw :=
         some ("\x7b ".data ++ (renderAUBody entries ++ "\x7d; ".data)) }
      : ZoneConfig).allow_update = none := by
  have hany : entries.any AUEntry.isKey = true := List.any_eq_true.mpr hk
  refine ⟨?_, rfl⟩
  have h0 : renderAUZone name entries =
      "zone \"".data ++ (name ++ ('"' :: ' ' :: '{' :: ' ' :: ("allow-update \x7b ".data ++ (renderAUBody entries ++ ('\x7d' :: ';' :: ' ' :: ('\x7d' :: ';' :: [])))))) := by
    simp only [renderAUZone, List.append_assoc, List.cons_append, List.nil_append]
  have htrim : trimChars (renderAUZone name entries) = renderAUZone name entries := by
    refine trimChars_eq_self ?_ (dropWhileEnd_eq_self ?_)
    · rw [h0]
      exact dropWhile_cons_self (by decide)
    · intro c hc
      have hlast : (renderAUZone name entries).getLast? = some ';' := by
        unfold renderAUZone
        rw [List.getLast?_append]
        rfl
      rw [hlast] at hc
      injection hc with hc
      rw [← hc]
      decide
  have hm0AU : Rndc.multispace0 ("allow-update \x7b ".data ++ (renderAUBody entries ++ ('\x7d' :: ';' :: ' ' :: ('\x7d' :: ';' :: [])))) = some ("allow-update \x7b ".data ++ (renderAUBody entries ++ ('\x7d' :: ';' :: ' ' :: ('\x7d' :: ';' :: []))), []) :=
    rndc_multispace0_stop (dropWhile_cons_self (by decide))
  have hstop : Rndc.parse_zone_statement ('\x7d' :: ';' :: []) = none := by rfl
  have hr2 : ('\x7d' :: ';' :: ([] : List Char)).dropWhile isMultispace =
      '\x7d' :: ';' :: [] := dropWhile_cons_self (by decide)
  have hau : Rndc.parse_allow_update_statement ("allow-update \x7b ".data ++ (renderAUBody entries ++ ('\x7d' :: ';' :: ' ' :: ('\x7d' :: ';' :: [])))) =
      some ('\x7d' :: ';' :: [],
        .AllowUpdateRaw ("\x7b ".data ++ (renderAUBody entries ++ "\x7d; ".data))) := by
    have h2 := parse_allow_update_render entries hwf hr2
    rw [hany] at h2
    simpa using h2
  have ht1 : Rndc.parse_type_statement ("allow-update \x7b ".data ++ (renderAUBody entries ++ ('\x7d' :: ';' :: ' ' :: ('\x7d' :: ';' :: [])))) = none :=
    pFilterMap_none (pSeq_none_left (rndc_ws_none hm0AU (pTag_cons_ne (by decide))))
  have ht2 : Rndc.parse_file_statement ("allow-update \x7b ".data ++ (renderAUBody entries ++ ('\x7d' :: ';' :: ' ' :: ('\x7d' :: ';' :: [])))) = none :=
    pMap_none (pSeq_none_left (rndc_ws_none hm0AU (pTag_cons_ne (by decide))))
  have hpm : pAlt (pTag "primaries".data) (pTag "masters".data) ("allow-update \x7b ".data ++ (renderAUBody entries ++ ('\x7d' :: ';' :: ' ' :: ('\x7d' :: ';' :: [])))) = none := by
    rw [pAlt_eval_right (show pTag "primaries".data ("allow-update \x7b ".data ++ (renderAUBody entries ++ ('\x7d' :: ';' :: ' ' :: ('\x7d' :: ';' :: [])))) = none from rfl)]
    rfl
  have ht3 : Rndc.parse_primaries_statement ("allow-update \x7b ".data ++ (renderAUBody entries ++ ('\x7d' :: ';' :: ' ' :: ('\x7d' :: ';' :: [])))) = none :=
    pMap_none (pSeq_none_left (rndc_ws_none hm0AU hpm))
  have ht4 : pTag "also-notify".data ("allow-update \x7b ".data ++ (renderAUBody entries ++ ('\x7d' :: ';' :: ' ' :: ('\x7d' :: ';' :: [])))) = none := by rfl
  have ht4w : Rndc.parse_also_notify_statement ("allow-update \x7b ".data ++ (renderAUBody entries ++ ('\x7d' :: ';' :: ' ' :: ('\x7d' :: ';' :: [])))) = none :=
    pMap_none (pSeq_none_left (rndc_ws_none hm0AU ht4))
  have ht5 : pTag "allow-transfer".data ("allow-update \x7b ".data ++ (renderAUBody entries ++ ('\x7d' :: ';' :: ' ' :: ('\x7d' :: ';' :: [])))) = none := by rfl
  have ht5w : Rndc.parse_allow_transfer_statement ("allow-update \x7b ".data ++ (renderAUBody entries ++ ('\x7d' :: ';' :: ' ' :: ('\x7d' :: ';' :: [])))) = none :=
    pMap_none (pSeq_none_left (rndc_ws_none hm0AU ht5))
  have hstmt : Rndc.parse_zone_statement ("allow-update \x7b ".data ++ (renderAUBody entries ++ ('\x7d' :: ';' :: ' ' :: ('\x7d' :: ';' :: [])))) =
      some ('\x7d' :: ';' :: [],
        .AllowUpdateRaw ("\x7b ".data ++ (renderAUBody entries ++ "\x7d; ".data))) := by
    unfold Rndc.parse_zone_statement
    rw [pAlt_eval_right ht1, pAlt_eval_right ht2, pAlt_eval_right ht3,
      pAlt_eval_right ht4w, pAlt_eval_right ht5w]
    exact pAlt_eval_left hau
  have hlit : ("allow-update \x7b ".data).length = 15 := rfl
  have hlt : ('\x7d' :: ';' :: ([] : List Char)).length < ("allow-update \x7b ".data ++ (renderAUBody entries ++ ('\x7d' :: ';' :: ' ' :: ('\x7d' :: ';' :: [])))).length := by
    simp only [List.length_append, List.length_cons, List.length_nil, hlit]
    omega
  have hmany : pMany0 Rndc.parse_zone_statement ("allow-update \x7b ".data ++ (renderAUBody entries ++ ('\x7d' :: ';' :: ' ' :: ('\x7d' :: ';' :: [])))) =
      some ('\x7d' :: ';' :: [],
        [.AllowUpdateRaw ("\x7b ".data ++ (renderAUBody entries ++ "\x7d; ".data))]) :=
    pMany0_eval_cons hstmt hlt (pMany0_eval_nil hstop)
  have hwszone : Rndc.ws (pTag "zone".data) ("zone \"".data ++ (name ++ ('"' :: ' ' ::
      '{' :: ' ' :: ("allow-update \x7b ".data ++ (renderAUBody entries ++ ('\x7d' :: ';' :: ' ' :: ('\x7d' :: ';' :: []))))))) =
      some ('"' :: (name ++ ('"' :: ' ' :: '{' :: ' ' :: ("allow-update \x7b ".data ++ (renderAUBody entries ++ ('\x7d' :: ';' :: ' ' :: ('\x7d' :: ';' :: [])))))), "zone".data) := by
    have hm2 := @rndc_multispace0_ws [' ']
      ('"' :: (name ++ ('"' :: ' ' :: '{' :: ' ' :: ("allow-update \x7b ".data ++ (renderAUBody entries ++ ('\x7d' :: ';' :: ' ' :: ('\x7d' :: ';' :: [])))))))
      (by decide) (dropWhile_cons_self (by decide))
    exact rndc_ws_eval (rndc_multispace0_stop (dropWhile_cons_self (by decide)))
      (pTag_append "zone".data (' ' :: ('"' :: (name ++ ('"' :: ' ' :: '{' :: ' ' ::
        ("allow-update \x7b ".data ++ (renderAUBody entries ++ ('\x7d' :: ';' :: ' ' :: ('\x7d' :: ';' :: []))))))))) hm2
  have hqs : Rndc.quoted_string ('"' :: (name ++ ('"' :: ' ' :: '{' :: ' ' :: ("allow-update \x7b ".data ++ (renderAUBody entries ++ ('\x7d' :: ';' :: ' ' :: ('\x7d' :: ';' :: []))))))) =
      some (' ' :: '{' :: ' ' :: ("allow-update \x7b ".data ++ (renderAUBody entries ++ ('\x7d' :: ';' :: ' ' :: ('\x7d' :: ';' :: [])))), name) := by
    have htu := @pTakeUntil_single '"' name (' ' :: '{' :: ' ' :: ("allow-update \x7b ".data ++ (renderAUBody entries ++ ('\x7d' :: ';' :: ' ' :: ('\x7d' :: ';' :: []))))) hq
    exact pDelimited_eval (pChar_cons '"' (name ++ ('"' :: ' ' :: '{' :: ' ' :: ("allow-update \x7b ".data ++ (renderAUBody entries ++ ('\x7d' :: ';' :: ' ' :: ('\x7d' :: ';' :: [])))))))
      htu (pChar_cons '"' (' ' :: '{' :: ' ' :: ("allow-update \x7b ".data ++ (renderAUBody entries ++ ('\x7d' :: ';' :: ' ' :: ('\x7d' :: ';' :: []))))))
  have hwsname : Rndc.ws Rndc.quoted_string ('"' :: (name ++ ('"' :: ' ' :: '{' :: ' ' ::
      ("allow-update \x7b ".data ++ (renderAUBody entries ++ ('\x7d' :: ';' :: ' ' :: ('\x7d' :: ';' :: []))))))) = some ('{' :: ' ' :: ("allow-update \x7b ".data ++ (renderAUBody entries ++ ('\x7d' :: ';' :: ' ' :: ('\x7d' :: ';' :: [])))), name) := by
    have hm2 := @rndc_multispace0_ws [' '] ('{' :: ' ' :: ("allow-update \x7b ".data ++ (renderAUBody entries ++ ('\x7d' :: ';' :: ' ' :: ('\x7d' :: ';' :: []))))) (by decide)
      (dropWhile_cons_self (by decide))
    exact rndc_ws_eval (rndc_multispace0_stop (dropWhile_cons_self (by decide))) hqs hm2
  have hcls : pAlt (pTag "IN".data) (pAlt (pTag "CH".data) (pTag "HS".data))
      ('{' :: ' ' :: ("allow-update \x7b ".data ++ (renderAUBody entries ++ ('\x7d' :: ';' :: ' ' :: ('\x7d' :: ';' :: []))))) = none := by
    rw [pAlt_eval_right (pTag_cons_ne (by decide)), pAlt_eval_right (pTag_cons_ne (by decide))]
    exact pTag_cons_ne (by decide)
  have hopt : pOpt (Rndc.ws (pAlt (pTag "IN".data) (pAlt (pTag "CH".data)
      (pTag "HS".data)))) ('{' :: ' ' :: ("allow-update \x7b ".data ++ (renderAUBody entries ++ ('\x7d' :: ';' :: ' ' :: ('\x7d' :: ';' :: []))))) = some ('{' :: ' ' :: ("allow-update \x7b ".data ++ (renderAUBody entries ++ ('\x7d' :: ';' :: ' ' :: ('\x7d' :: ';' :: [])))), none) :=
    pOpt_eval_none (rndc_ws_none
      (rndc_multispace0_stop (dropWhile_cons_self (by decide))) hcls)
  have hwslb : Rndc.ws (pChar '{') ('{' :: ' ' :: ("allow-update \x7b ".data ++ (renderAUBody entries ++ ('\x7d' :: ';' :: ' ' :: ('\x7d' :: ';' :: []))))) = some ("allow-update \x7b ".data ++ (renderAUBody entries ++ ('\x7d' :: ';' :: ' ' :: ('\x7d' :: ';' :: []))), '{') := by
    have hm2 := @rndc_multispace0_ws [' '] ("allow-update \x7b ".data ++ (renderAUBody entries ++ ('\x7d' :: ';' :: ' ' :: ('\x7d' :: ';' :: [])))) (by decide)
      (dropWhile_cons_self (by decide))
    exact rndc_ws_eval (rndc_multispace0_stop (dropWhile_cons_self (by decide)))
      (pChar_cons '{' (' ' :: ("allow-update \x7b ".data ++ (renderAUBody entries ++ ('\x7d' :: ';' :: ' ' :: ('\x7d' :: ';' :: [])))))) hm2
  have hwsrb : Rndc.ws (pTag "\x7d;".data) ('\x7d' :: ';' :: []) =
      some ([], "\x7d;".data) := by
    have hm2 : Rndc.multispace0 ([] : List Char) = some ([], []) :=
      rndc_multispace0_stop (by rfl)
    exact rndc_ws_eval (rndc_multispace0_stop hr2)
      (show pTag "\x7d;".data ('\x7d' :: ';' :: []) = some ([], "\x7d;".data) from rfl) hm2
  have hdel : pDelimited (Rndc.ws (pChar '{')) (pMany0 Rndc.parse_zone_statement)
      (Rndc.ws (pTag "\x7d;".data)) ('{' :: ' ' :: ("allow-update \x7b ".data ++ (renderAUBody entries ++ ('\x7d' :: ';' :: ' ' :: ('\x7d' :: ';' :: []))))) =
      some ([],
        [.AllowUpdateRaw ("\x7b ".data ++ (renderAUBody entries ++ "\x7d; ".data))]) :=
    pDelimited_eval hwslb hmany hwsrb
  unfold Rndc.parse_showzone
  rw [htrim, h0]
  unfold Rndc.parse_zone_config_internal
  simp only [hwszone, hwsname, hopt, hdel]
  rfl

set_option maxRecDepth 4000 in
/-- Witness for C2: a body with one key reference and one IP literal is
captured raw, the typed list stays absent. -/
theorem C2_witness :
    Rndc.parse_showzone (renderAUZone "test.example.com".data
      [.key "bindy-operator".data, .ip (IpAddr.v4 10 0 0 1)]) =
      .ok { ZoneConfig.new "test.example.com".data .Primary with
            allow_update_raw := some ("\x7b ".data ++
              (renderAUBody [.key "bindy-operator".data, .ip (IpAddr.v4 10 0 0 1)] ++
                "\x7d; ".data)) } ∧
    ({ ZoneConfig.new "test.example.com".data .Primary with
       allow_update_raw := some ("\x7b ".data ++
         (renderAUBody [.key "bindy-operator".data, .ip (IpAddr.v4 10 0 0 1)] ++
           "\x7d; ".data)) } : ZoneConfig).allow_update = none :=
  C2_allow_update_key_capture "test.example.com".data
    [.key "bindy-operator".data, .ip (IpAddr.v4 10 0 0 1)]
    (by decide)
    (by
      intro e he
      simp only [List.mem_cons, List.not_mem_nil, or_false] at he
      rcases he with rfl | rfl
      · exact ⟨by decide, by decide⟩
      · show ipRoundTrips (IpAddr.v4 10 0 0 1) = true
        decide)
    ⟨.key "bindy-operator".data, List.mem_cons_self _ _, rfl⟩

end Bindcar
namespace Bindcar

/-! ### Merge semantics of include resolution -/

theorem optKeep_eq_or {α : Type} (a b : Option α) : RndcConf.optKeep a b = a.or b := by
  cases a <;> rfl

theorem hmGet_append_single {α β : Type} [DecidableEq α] (k k1 : α) (v : β) :
    ∀ m : List (α × β),
      hmGet k (m ++ [(k1, v)]) = (hmGet k m).or (if k1 = k then some v else none) := by
  intro m
  induction m with
  | nil => simp [hmGet]
  | cons kv t ih =>
    rw [List.cons_append]
    show (if kv.1 = k then some kv.2 else hmGet k (t ++ [(k1, v)])) = _
    by_cases hk : kv.1 = k
    · rw [if_pos hk]
      show _ = (if kv.1 = k then some kv.2 else hmGet k t).or _
      rw [if_pos hk]
      rfl
    · rw [if_neg hk, ih]
      show _ = (if kv.1 = k then some kv.2 else hmGet k t).or _
      rw [if_neg hk]

theorem hmGet_orInsert {α β : Type} [DecidableEq α] (k k1 : α) (v : β) (m : List (α × β)) :
    hmGet k (hmOrInsert k1 v m) = (hmGet k m).or (if k1 = k then some v else none) := by
  unfold hmOrInsert
  cases h1 : hmGet k1 m with
  | some w =>
    by_cases hk : k1 = k
    · rw [if_pos hk]
      rw [hk] at h1
      rw [h1]
      rfl
    · rw [if_neg hk]
      rw [Option.or_none]
  | none =>
    exact hmGet_append_single k k1 v m

theorem hmGet_fold_or {α β : Type} [DecidableEq α] (k : α) :
    ∀ (l m : List (α × β)),
      hmGet k (l.foldl (fun m kv => hmOrInsert kv.1 kv.2 m) m) =
        (hmGet k m).or (hmGet k l) := by
  intro l
  induction l with
  | nil =>
    intro m
    show hmGet k m = (hmGet k m).or none
    rw [Option.or_none]
  | cons kv t ih =>
    intro m
    simp only [List.foldl_cons]
    rw [ih, hmGet_orInsert, Option.or_assoc]
    show _ = (hmGet k m).or (if kv.1 = k then some kv.2 else hmGet k t)
    by_cases hk : kv.1 = k
    · rw [if_pos hk, if_pos hk]
      rfl
    · rw [if_neg hk, if_neg hk]
      rw [Option.none_or]

set_option maxRecDepth 10000 in
/-- C7: merging an included document keeps the includer's key and server
entries on name collision and fills each options field from the included
document only when the includer left it unset; in Scenario 3 the includer's
default-server and the included file's default-port both survive the merge. -/
theorem C7_merge_includer_wins :
    (∀ (conf included : RndcConfFile) (k : List Char),
      hmGet k (RndcConf.mergeIncluded conf included).keys =
        (hmGet k conf.keys).or (hmGet k included.keys)) ∧
    (∀ (conf included : RndcConfFile) (k : List Char),
      hmGet k (RndcConf.mergeIncluded conf included).servers =
        (hmGet k conf.servers).or (hmGet k included.servers)) ∧
    (∀ conf included : RndcConfFile,
      (RndcConf.mergeIncluded conf included).options =
        ⟨conf.options.default_server.or included.options.default_server,
         conf.options.default_key.or included.options.default_key,
         conf.options.default_port.or included.options.default_port⟩) ∧
    RndcConf.parse_rndc_conf_file scenario3Fs "/etc/a.conf".data =
      .ok ⟨[], [], ⟨some "localhost".data, none, some 8953⟩, ["/etc/b.conf".data]⟩ := by
  refine ⟨?_, ?_, ?_, ?_⟩
  · intro conf included k
    exact hmGet_fold_or k included.keys conf.keys
  · intro conf included k
    exact hmGet_fold_or k included.servers conf.servers
  · intro conf included
    show (⟨RndcConf.optKeep conf.options.default_server included.options.default_server,
      RndcConf.optKeep conf.options.default_key included.options.default_key,
      RndcConf.optKeep conf.options.default_port included.options.default_port⟩ :
        OptionsBlock) = _
    rw [optKeep_eq_or, optKeep_eq_or, optKeep_eq_or]
  · have hb : RndcConf.parse_rndc_conf_file_recursive scenario3Fs 2 "/etc/b.conf".data
        ["/etc/a.conf".data] = .ok (["/etc/b.conf".data, "/etc/a.conf".data],
          ⟨[], [], ⟨none, none, some 8953⟩, []⟩) := by
      unfold RndcConf.parse_rndc_conf_file_recursive
      show RndcConf.resolveIncludes scenario3Fs 1 "/etc/b.conf".data []
          ["/etc/b.conf".data, "/etc/a.conf".data] ⟨[], [], ⟨none, none, some 8953⟩, []⟩ =
        .ok (["/etc/b.conf".data, "/etc/a.conf".data], ⟨[], [], ⟨none, none, some 8953⟩, []⟩)
      unfold RndcConf.resolveIncludes
      rfl
    have hb2 : RndcConf.parse_rndc_conf_file_recursive scenario3Fs 2
        (RndcConf.resolveIncludePath "/etc/a.conf".data "/etc/b.conf".data)
        ["/etc/a.conf".data] = .ok (["/etc/b.conf".data, "/etc/a.conf".data],
          ⟨[], [], ⟨none, none, some 8953⟩, []⟩) := hb
    have ha : RndcConf.parse_rndc_conf_file_recursive scenario3Fs 3 "/etc/a.conf".data [] =
        .ok (["/etc/b.conf".data, "/etc/a.conf".data],
          ⟨[], [], ⟨some "localhost".data, none, some 8953⟩, ["/etc/b.conf".data]⟩) := by
      unfold RndcConf.parse_rndc_conf_file_recursive
      show RndcConf.resolveIncludes scenario3Fs 2 "/etc/a.conf".data ["/etc/b.conf".data]
          ["/etc/a.conf".data]
          ⟨[], [], ⟨some "localhost".data, none, none⟩, []⟩ = _
      unfold RndcConf.resolveIncludes
      simp only [hb2]
      unfold RndcConf.resolveIncludes
      rfl
    show RndcConf.parse_rndc_conf_file scenario3Fs "/etc/a.conf".data = _
    unfold RndcConf.parse_rndc_conf_file
    have ha2 : RndcConf.parse_rndc_conf_file_recursive scenario3Fs
        (scenario3Fs.length + 1) "/etc/a.conf".data [] =
        .ok (["/etc/b.conf".data, "/etc/a.conf".data],
          ⟨[], [], ⟨some "localhost".data, none, some 8953⟩, ["/etc/b.conf".data]⟩) := ha
    rw [ha2]

/-- C8: two files whose include directives reference each other resolve, from
either entry point, to the CircularInclude error naming the revisited
canonical identity — for every sufficient fuel, so the recursion is bounded
and nothing is silently truncated. -/
theorem C8_two_cycle_circular (fs : RndcConf.Fs) (p1 p2 : RndcConf.Path)
    (c1 c2 : List Char) (conf1 conf2 : RndcConfFile)
    (hcan1 : RndcConf.canonicalizeFs fs p1 = some p1)
    (hcan2 : RndcConf.canonicalizeFs fs p2 = some p2)
    (hne : p2 ≠ p1)
    (hr1 : RndcConf.readFs fs p1 = some c1)
    (hr2 : RndcConf.readFs fs p2 = some c2)
    (hp1 : RndcConf.parse_rndc_conf_str c1 = .ok conf1)
    (hp2 : RndcConf.parse_rndc_conf_str c2 = .ok conf2)
    (hinc1 : conf1.includes = [p2])
    (hinc2 : conf2.includes = [p1])
    (hres1 : RndcConf.resolveIncludePath p1 p2 = p2)
    (hres2 : RndcConf.resolveIncludePath p2 p1 = p1) :
    (∀ n, RndcConf.parse_rndc_conf_file_recursive fs (n + 3) p1 [] =
      .error (.CircularInclude p1)) ∧
    (2 ≤ fs.length →
      RndcConf.parse_rndc_conf_file fs p1 = .error (.CircularInclude p1)) := by
  have hinner : ∀ m, RndcConf.parse_rndc_conf_file_recursive fs (m + 1) p1 [p2, p1] =
      .error (.CircularInclude p1) := by
    intro m
    unfold RndcConf.parse_rndc_conf_file_recursive
    simp only [hcan1]
    rw [if_pos (by simp)]
  have hmid : ∀ m, RndcConf.parse_rndc_conf_file_recursive fs (m + 2) p2 [p1] =
      .error (.CircularInclude p1) := by
    intro m
    unfold RndcConf.parse_rndc_conf_file_recursive
    simp only [hcan2]
    rw [if_neg (by simp [hne])]
    simp only [hr2, hp2, hinc2]
    unfold RndcConf.resolveIncludes
    simp only [hres2, hinner m]
  have hmain : ∀ n, RndcConf.parse_rndc_conf_file_recursive fs (n + 3) p1 [] =
      .error (.CircularInclude p1) := by
    intro n
    unfold RndcConf.parse_rndc_conf_file_recursive
    simp only [hcan1]
    rw [if_neg (List.not_mem_nil p1)]
    simp only [hr1, hp1, hinc1]
    unfold RndcConf.resolveIncludes
    simp only [hres1, hmid n]
  refine ⟨hmain, fun hlen => ?_⟩
  unfold RndcConf.parse_rndc_conf_file
  have h2 := hmain (fs.length - 2)
  rw [show fs.length - 2 + 3 = fs.length + 1 from by omega] at h2
  rw [h2]

set_option maxRecDepth 10000 in
/-- Witness for C8: the two mutually-including files of `cycleFs`. -/
theorem C8_witness :
    RndcConf.parse_rndc_conf_file cycleFs "/etc/f1.conf".data =
      .error (.CircularInclude "/etc/f1.conf".data) :=
  (C8_two_cycle_circular cycleFs "/etc/f1.conf".data "/etc/f2.conf".data
    "include \"/etc/f2.conf\";\n".data "include \"/etc/f1.conf\";\n".data
    ⟨[], [], ⟨none, none, none⟩, ["/etc/f2.conf".data]⟩
    ⟨[], [], ⟨none, none, none⟩, ["/etc/f1.conf".data]⟩
    rfl rfl (by decide) rfl rfl (by rfl) (by rfl) rfl rfl rfl rfl).2 (by decide)

end Bindcar

namespace Bindcar

/-! ### Decimal rendering round-trips through the digit fold -/

theorem digitChar_val {k : Nat} (h : k < 10) : (Nat.digitChar k).toNat - '0'.toNat = k := by
  interval_cases k <;> decide

theorem natToBaseGo_decVal :
    ∀ fuel n, n < fuel → ∀ acc : Nat,
      (natToBaseGo 10 fuel n).foldl (fun acc c => acc * 10 + (c.toNat - '0'.toNat)) acc =
        acc * 10 ^ (natToBaseGo 10 fuel n).length + n := by
  intro fuel
  induction fuel with
  | zero => intro n h; omega
  | succ fuel ih =>
    intro n hn acc
    unfold natToBaseGo
    split
    next h10 =>
      simp only [List.foldl_cons, List.foldl_nil, List.length_singleton]
      rw [digitChar_val h10]
      omega
    next h10 =>
      have hdiv : n / 10 < fuel := by
        have := Nat.div_lt_self (by omega : 0 < n) (by omega : 1 < 10)
        omega
      rw [List.foldl_append, ih (n / 10) hdiv acc]
      simp only [List.foldl_cons, List.foldl_nil, List.length_append,
        List.length_singleton]
      rw [digitChar_val (Nat.mod_lt n (by omega))]
      have hmod : n % 10 + 10 * (n / 10) = n := Nat.mod_add_div n 10
      ring_nf
      omega
  
theorem decDigitsVal_natToDec (n : Nat) : decDigitsVal (natToDec n) = n := by
  unfold decDigitsVal natToDec
  rw [natToBaseGo_decVal (n + 1) n (Nat.lt_succ_self n) 0]
  simp

theorem u16FromDigits_natToDec {n : Nat} (h : n ≤ 65535) :
    u16FromDigits (natToDec n) = some n := by
  unfold u16FromDigits
  rw [decDigitsVal_natToDec, if_pos h]

/-! ### Zone type names are identifiers that parse back -/

theorem zoneType_asStr_ne_nil (t : ZoneType) : t.as_str ≠ [] := by
  cases t <;> simp [ZoneType.as_str]

theorem zoneType_asStr_ident (t : ZoneType) :
    ∀ c ∈ t.as_str, Rndc.isIdentChar c = true := by
  cases t <;> decide

theorem zoneType_parse_asStr (t : ZoneType) : ZoneType.parse t.as_str = some t := by
  cases t <;> rfl

theorem natToDec_ne_nil2 (n : Nat) : natToDec n ≠ [] := natToDec_ne_nil n

/-- The showzone semicolon on a semicolon, one space and a stopped rest. -/
theorem rndc_semicolon_sp {rest : Input} (hr : rest.dropWhile isMultispace = rest) :
    Rndc.semicolon (';' :: ' ' :: rest) = some (rest, ';') := by
  have hm3 := @rndc_multispace0_ws [' '] rest (by decide) hr
  exact rndc_ws_eval (rndc_multispace0_stop (dropWhile_cons_self (by decide)))
    (pChar_cons ';' (' ' :: rest)) hm3

/-- Joined parts followed by a final separator are the flattened
terminator-suffixed chunks. -/
theorem joinSep_flatten (sep : List Char) :
    ∀ parts : List (List Char), parts ≠ [] →
      joinSep sep parts ++ sep = (parts.map (fun p => p ++ sep)).flatten := by
  intro parts
  induction parts with
  | nil => intro h; exact absurd rfl h
  | cons x t ih =>
    intro _
    cases t with
    | nil => simp [joinSep]
    | cons y t2 =>
      have h2 := ih (List.cons_ne_nil y t2)
      simp only [joinSep, List.map_cons, List.flatten_cons, List.append_assoc] at h2 ⊢
      rw [h2]

theorem isDigit_not_ws {c : Char} (h : c.isDigit = true) : isMultispace c = false := by
  by_contra hm
  simp only [Bool.not_eq_false] at hm
  have h4 : ((c = ' ' ∨ c = '\t') ∨ c = '\n') ∨ c = '\r' := by
    unfold isMultispace at hm
    simpa [Bool.or_eq_true, decide_eq_true_eq] using hm
  rcases h4 with ((rfl | rfl) | rfl) | rfl
  all_goals exact absurd h (by decide)

theorem ipToChars_head_stop {a : IpAddr} (hrt : ipRoundTrips a = true) (X : Input) :
    (ipToChars a ++ X).dropWhile isMultispace = ipToChars a ++ X := by
  obtain ⟨c, s2, hcs⟩ : ∃ c s2, ipToChars a = c :: s2 := by
    cases hip : ipToChars a with
    | nil => exact absurd hip (ipToChars_ne_nil_of_rt hrt)
    | cons c s2 => exact ⟨c, s2, rfl⟩
  rw [hcs, List.cons_append]
  exact dropWhile_cons_self (isIpChar_not_ws
    (ipToChars_ipChar a c (by rw [hcs]; exact List.mem_cons_self _ _)))

theorem natToDec_head_stop (n : Nat) (X : Input) :
    (natToDec n ++ X).dropWhile isMultispace = natToDec n ++ X := by
  cases hd : natToDec n with
  | nil => exact absurd hd (natToDec_ne_nil n)
  | cons c s2 =>
    rw [List.cons_append]
    refine dropWhile_cons_self (isDigit_not_ws ?_)
    exact natToDec_digits n c (by rw [hd]; exact List.mem_cons_self _ _)

/-- The showzone `ip_addr` on a round-tripping rendered address followed by
any non-address non-slash character. -/
theorem rndc_ip_addr_stop {a : IpAddr} {c : Char} {r2 : Input}
    (hrt : ipRoundTrips a = true) (hc1 : Rndc.isIpChar c = false) (hc2 : c ≠ '/') :
    Rndc.ip_addr (ipToChars a ++ (c :: r2)) = some (c :: r2, a) := by
  have h1 : pTakeWhile1 Rndc.isIpChar (ipToChars a ++ (c :: r2)) =
      some (c :: r2, ipToChars a) := by
    refine pTakeWhile1_eval (ipToChars_ne_nil_of_rt hrt) (ipToChars_ipChar a) ?_
    exact dropWhile_cons_self hc1
  have hparse : rustParseIp (ipToChars a) = some a := by
    unfold ipRoundTrips at hrt
    exact of_decide_eq_true hrt
  exact pTerminated_eval (pFilterMap_eval h1 hparse)
    (pOpt_eval_none (pPreceded_none_left (pChar_cons_ne r2 hc2)))

/-- One primaries-list entry parses back from its rendering. -/
theorem primary_item_eval (p : PrimarySpec) (hrt : ipRoundTrips p.address = true)
    (hpt : ∀ pt, p.port = some pt → pt ≤ 65535) {tail : Input}
    (ht : tail.dropWhile isMultispace = tail) :
    pTerminated Rndc.ip_with_port Rndc.semicolon
      (primarySpecChars p ++ (';' :: ' ' :: tail)) = some (tail, p) := by
  obtain ⟨addr, port⟩ := p
  have hrt2 : ipRoundTrips addr = true := hrt
  cases port with
  | none =>
    have heq : primarySpecChars ⟨addr, none⟩ ++ (';' :: ' ' :: tail) =
        ipToChars addr ++ (';' :: ' ' :: tail) := by
      simp [primarySpecChars]
    rw [heq]
    have hip : Rndc.ip_addr (ipToChars addr ++ (';' :: ' ' :: tail)) =
        some (';' :: ' ' :: tail, addr) := rndc_ip_addr_stop hrt2 (by decide) (by decide)
    have hws : Rndc.ws Rndc.ip_addr (ipToChars addr ++ (';' :: ' ' :: tail)) =
        some (';' :: ' ' :: tail, addr) :=
      rndc_ws_eval (rndc_multispace0_stop (ipToChars_head_stop hrt2 _)) hip
        (rndc_multispace0_stop (dropWhile_cons_self (by decide)))
    have hopt : pOpt (pPreceded (Rndc.ws (pTag "port".data))
        (pMap (pTakeWhile1 Char.isDigit) u16FromDigits)) (';' :: ' ' :: tail) =
        some (';' :: ' ' :: tail, none) :=
      pOpt_eval_none (pPreceded_none_left (rndc_ws_none
        (rndc_multispace0_stop (dropWhile_cons_self (by decide)))
        (pTag_cons_ne (by decide))))
    have hiwp : Rndc.ip_with_port (ipToChars addr ++ (';' :: ' ' :: tail)) =
        some (';' :: ' ' :: tail, (⟨addr, none⟩ : PrimarySpec)) :=
      pMap_eval (pSeq_eval hws hopt)
    exact pTerminated_eval hiwp (rndc_semicolon_sp ht)
  | some pt =>
    have hle : pt ≤ 65535 := hpt pt rfl
    have heq : primarySpecChars ⟨addr, some pt⟩ ++ (';' :: ' ' :: tail) =
        ipToChars addr ++ (' ' :: ("port ".data ++ (natToDec pt ++ (';' :: ' ' :: tail)))) := by
      simp [primarySpecChars, List.append_assoc]
    rw [heq]
    have hip : Rndc.ip_addr (ipToChars addr ++ (' ' :: ("port ".data ++
        (natToDec pt ++ (';' :: ' ' :: tail))))) =
        some (' ' :: ("port ".data ++ (natToDec pt ++ (';' :: ' ' :: tail))), addr) :=
      rndc_ip_addr_stop hrt2 (by decide) (by decide)
    have hm2 := @rndc_multispace0_ws [' ']
      ("port ".data ++ (natToDec pt ++ (';' :: ' ' :: tail))) (by decide)
      (dropWhile_cons_self (by decide))
    have hws : Rndc.ws Rndc.ip_addr (ipToChars addr ++ (' ' :: ("port ".data ++
        (natToDec pt ++ (';' :: ' ' :: tail))))) =
        some ("port ".data ++ (natToDec pt ++ (';' :: ' ' :: tail)), addr) :=
      rndc_ws_eval (rndc_multispace0_stop (ipToChars_head_stop hrt2 _)) hip hm2
    have hm3 := @rndc_multispace0_ws [' '] (natToDec pt ++ (';' :: ' ' :: tail))
      (by decide) (natToDec_head_stop pt _)
    have hwstag : Rndc.ws (pTag "port".data) ("port ".data ++
        (natToDec pt ++ (';' :: ' ' :: tail))) =
        some (natToDec pt ++ (';' :: ' ' :: tail), "port".data) :=
      rndc_ws_eval (rndc_multispace0_stop (dropWhile_cons_self (by decide)))
        (pTag_append "port".data (' ' :: (natToDec pt ++ (';' :: ' ' :: tail)))) hm3
    have hdig : pTakeWhile1 Char.isDigit (natToDec pt ++ (';' :: ' ' :: tail)) =
        some (';' :: ' ' :: tail, natToDec pt) :=
      pTakeWhile1_eval (natToDec_ne_nil pt) (natToDec_digits pt)
        (dropWhile_cons_self (by decide))
    have hmapdig : pMap (pTakeWhile1 Char.isDigit) u16FromDigits
        (natToDec pt ++ (';' :: ' ' :: tail)) =
        some (';' :: ' ' :: tail, some pt) := by
      have h2 : pMap (pTakeWhile1 Char.isDigit) u16FromDigits
          (natToDec pt ++ (';' :: ' ' :: tail)) =
          some (';' :: ' ' :: tail, u16FromDigits (natToDec pt)) := pMap_eval hdig
      rw [u16FromDigits_natToDec hle] at h2
      exact h2
    have hpre : pPreceded (Rndc.ws (pTag "port".data))
        (pMap (pTakeWhile1 Char.isDigit) u16FromDigits)
        ("port ".data ++ (natToDec pt ++ (';' :: ' ' :: tail))) =
        some (';' :: ' ' :: tail, some pt) :=
      pPreceded_eval hwstag hmapdig
    have hopt := pOpt_eval_some hpre
    have hiwp : Rndc.ip_with_port (ipToChars addr ++ (' ' :: ("port ".data ++
        (natToDec pt ++ (';' :: ' ' :: tail))))) =
        some (';' :: ' ' :: tail, (⟨addr, some pt⟩ : PrimarySpec)) :=
      pMap_eval (pSeq_eval hws hopt)
    exact pTerminated_eval hiwp (rndc_semicolon_sp ht)

/-- One plain IP-list entry parses back from its rendering. -/
theorem ip_item_eval (a : IpAddr) (hrt : ipRoundTrips a = true) {tail : Input}
    (ht : tail.dropWhile isMultispace = tail) :
    pTerminated (Rndc.ws Rndc.ip_addr) Rndc.semicolon
      (ipToChars a ++ (';' :: ' ' :: tail)) = some (tail, a) := by
  have hip : Rndc.ip_addr (ipToChars a ++ (';' :: ' ' :: tail)) =
      some (';' :: ' ' :: tail, a) := rndc_ip_addr_stop hrt (by decide) (by decide)
  have hws : Rndc.ws Rndc.ip_addr (ipToChars a ++ (';' :: ' ' :: tail)) =
      some (';' :: ' ' :: tail, a) :=
    rndc_ws_eval (rndc_multispace0_stop (ipToChars_head_stop hrt _)) hip
      (rndc_multispace0_stop (dropWhile_cons_self (by decide)))
  exact pTerminated_eval hws (rndc_semicolon_sp ht)

theorem rndc_ip_addr_brace_none (X : Input) :
    Rndc.ip_addr ('\x7d' :: X) = none := by
  have htw : pTakeWhile1 Rndc.isIpChar ('\x7d' :: X) = none := rfl
  show pMap (pSeq (pFilterMap (pTakeWhile1 Rndc.isIpChar) rustParseIp)
    (pOpt (pPreceded (pChar '/') (pTakeWhile1 Char.isDigit)))) (fun x => x.1)
    ('\x7d' :: X) = none
  exact pMap_none (pSeq_none_left (pFilterMap_none htw))

theorem primary_item_stop (X : Input) :
    pTerminated Rndc.ip_with_port Rndc.semicolon ('\x7d' :: X) = none := by
  have hws : Rndc.ws Rndc.ip_addr ('\x7d' :: X) = none :=
    rndc_ws_none (rndc_multispace0_stop (dropWhile_cons_self (by decide)))
      (rndc_ip_addr_brace_none X)
  have hiwp : Rndc.ip_with_port ('\x7d' :: X) = none :=
    pMap_none (pSeq_none_left hws)
  show pMap (pSeq Rndc.ip_with_port Rndc.semicolon) (fun x => x.1) ('\x7d' :: X) = none
  exact pMap_none (pSeq_none_left hiwp)

theorem ip_item_stop (X : Input) :
    pTerminated (Rndc.ws Rndc.ip_addr) Rndc.semicolon ('\x7d' :: X) = none := by
  have hws : Rndc.ws Rndc.ip_addr ('\x7d' :: X) = none :=
    rndc_ws_none (rndc_multispace0_stop (dropWhile_cons_self (by decide)))
      (rndc_ip_addr_brace_none X)
  show pMap (pSeq (Rndc.ws Rndc.ip_addr) Rndc.semicolon) (fun x => x.1) ('\x7d' :: X) = none
  exact pMap_none (pSeq_none_left hws)

theorem primarySpecChars_head_stop (p : PrimarySpec) (hrt : ipRoundTrips p.address = true)
    (Y : Input) :
    (primarySpecChars p ++ Y).dropWhile isMultispace = primarySpecChars p ++ Y := by
  have heq : primarySpecChars p ++ Y = ipToChars p.address ++
      ((match p.port with
        | some pt => " port ".data ++ natToDec pt
        | none => []) ++ Y) := by
    unfold primarySpecChars
    rw [List.append_assoc]
  rw [heq]
  exact ipToChars_head_stop hrt _

theorem primaryItems_dropWhile (l : List PrimarySpec)
    (hl : ∀ p ∈ l, ipRoundTrips p.address = true) {X : Input}
    (hx : X.dropWhile isMultispace = X) :
    ((l.map (fun p => primarySpecChars p ++ "; ".data)).flatten ++ X).dropWhile
      isMultispace = (l.map (fun p => primarySpecChars p ++ "; ".data)).flatten ++ X := by
  cases l with
  | nil => simpa using hx
  | cons p t =>
    have hshape : (((p :: t).map (fun p => primarySpecChars p ++ "; ".data)).flatten ++ X) =
        primarySpecChars p ++ ("; ".data ++
          ((t.map (fun p => primarySpecChars p ++ "; ".data)).flatten ++ X)) := by
      simp [List.append_assoc]
    rw [hshape]
    exact primarySpecChars_head_stop p (hl p (List.mem_cons_self p t)) _

theorem ipItems_dropWhile (l : List IpAddr)
    (hl : ∀ a ∈ l, ipRoundTrips a = true) {X : Input}
    (hx : X.dropWhile isMultispace = X) :
    ((l.map (fun a => ipToChars a ++ "; ".data)).flatten ++ X).dropWhile isMultispace =
      (l.map (fun a => ipToChars a ++ "; ".data)).flatten ++ X := by
  cases l with
  | nil => simpa using hx
  | cons a t =>
    have hshape : (((a :: t).map (fun a => ipToChars a ++ "; ".data)).flatten ++ X) =
        ipToChars a ++ ("; ".data ++
          ((t.map (fun a => ipToChars a ++ "; ".data)).flatten ++ X)) := by
      simp [List.append_assoc]
    rw [hshape]
    exact ipToChars_head_stop (hl a (List.mem_cons_self a t)) _

theorem pMany0_primary_items (l : List PrimarySpec)
    (hl : ∀ p ∈ l, ipRoundTrips p.address = true ∧ ∀ pt, p.port = some pt → pt ≤ 65535)
    {X : Input} (hx : X.dropWhile isMultispace = X) :
    pMany0 (pTerminated Rndc.ip_with_port Rndc.semicolon)
      ((l.map (fun p => primarySpecChars p ++ "; ".data)).flatten ++ ('\x7d' :: X)) =
      some ('\x7d' :: X, l) := by
  induction l with
  | nil => simpa using pMany0_eval_nil (primary_item_stop X)
  | cons p t ih =>
    have hp := hl p (List.mem_cons_self p t)
    have ht : ∀ q ∈ t, ipRoundTrips q.address = true ∧
        ∀ pt, q.port = some pt → pt ≤ 65535 :=
      fun q hq => hl q (List.mem_cons_of_mem p hq)
    have htail : ((t.map (fun p => primarySpecChars p ++ "; ".data)).flatten ++
        ('\x7d' :: X)).dropWhile isMultispace =
        (t.map (fun p => primarySpecChars p ++ "; ".data)).flatten ++ ('\x7d' :: X) :=
      primaryItems_dropWhile t (fun q hq => (ht q hq).1) (dropWhile_cons_self (by decide))
    have hshape : (((p :: t).map (fun p => primarySpecChars p ++ "; ".data)).flatten ++
        ('\x7d' :: X)) = primarySpecChars p ++ (';' :: ' ' ::
          ((t.map (fun p => primarySpecChars p ++ "; ".data)).flatten ++ ('\x7d' :: X))) := by
      simp [List.append_assoc]
    rw [hshape]
    refine pMany0_eval_cons (primary_item_eval p hp.1 hp.2 htail) ?_ (ih ht)
    simp only [List.length_append, List.length_cons]
    omega

theorem pMany0_ip_items (l : List IpAddr) (hl : ∀ a ∈ l, ipRoundTrips a = true)
    {X : Input} (hx : X.dropWhile isMultispace = X) :
    pMany0 (pTerminated (Rndc.ws Rndc.ip_addr) Rndc.semicolon)
      ((l.map (fun a => ipToChars a ++ "; ".data)).flatten ++ ('\x7d' :: X)) =
      some ('\x7d' :: X, l) := by
  induction l with
  | nil => simpa using pMany0_eval_nil (ip_item_stop X)
  | cons a t ih =>
    have ha := hl a (List.mem_cons_self a t)
    have ht : ∀ b ∈ t, ipRoundTrips b = true := fun b hb => hl b (List.mem_cons_of_mem a hb)
    have htail : ((t.map (fun a => ipToChars a ++ "; ".data)).flatten ++
        ('\x7d' :: X)).dropWhile isMultispace =
        (t.map (fun a => ipToChars a ++ "; ".data)).flatten ++ ('\x7d' :: X) :=
      ipItems_dropWhile t ht (dropWhile_cons_self (by decide))
    have hshape : (((a :: t).map (fun a => ipToChars a ++ "; ".data)).flatten ++
        ('\x7d' :: X)) = ipToChars a ++ (';' :: ' ' ::
          ((t.map (fun a => ipToChars a ++ "; ".data)).flatten ++ ('\x7d' :: X))) := by
      simp [List.append_assoc]
    rw [hshape]
    refine pMany0_eval_cons (ip_item_eval a ha htail) ?_ (ih ht)
    simp only [List.length_append, List.length_cons]
    omega

theorem bracePart_shape (name : List Char) (items : List (List Char))
    (hne : items ≠ []) (X : Input) :
    bracePart name items ++ X = name ++ (' ' :: '{' :: ' ' ::
      ((items.map (fun p => p ++ "; ".data)).flatten ++ ('\x7d' :: X))) := by
  unfold bracePart
  simp only [List.append_assoc]
  rw [show ("; \x7d".data ++ X) = "; ".data ++ ('\x7d' :: X) from rfl]
  rw [← List.append_assoc (joinSep "; ".data items) "; ".data ('\x7d' :: X)]
  rw [joinSep_flatten "; ".data items hne]
  rfl

theorem asStr_head_stop (t : ZoneType) (X : Input) :
    (t.as_str ++ X).dropWhile isMultispace = t.as_str ++ X := by
  cases t
  all_goals exact dropWhile_cons_self (by decide)

theorem parse_type_statement_render (t : ZoneType) {rest : Input}
    (hr : rest.dropWhile isMultispace = rest) :
    Rndc.parse_type_statement ("type ".data ++ (t.as_str ++ (';' :: ' ' :: rest))) =
      some (rest, .Type t) := by
  have hm2 := @rndc_multispace0_ws [' '] (t.as_str ++ (';' :: ' ' :: rest)) (by decide)
    (asStr_head_stop t _)
  have hws1 : Rndc.ws (pTag "type".data) ("type ".data ++ (t.as_str ++
      (';' :: ' ' :: rest))) = some (t.as_str ++ (';' :: ' ' :: rest), "type".data) :=
    rndc_ws_eval (rndc_multispace0_stop (dropWhile_cons_self (by decide)))
      (pTag_append "type".data (' ' :: (t.as_str ++ (';' :: ' ' :: rest)))) hm2
  have hid : Rndc.identifier (t.as_str ++ (';' :: ' ' :: rest)) =
      some (';' :: ' ' :: rest, t.as_str) :=
    pTakeWhile1_eval (zoneType_asStr_ne_nil t) (zoneType_asStr_ident t)
      (dropWhile_cons_self (by decide))
  have hws2 : Rndc.ws Rndc.identifier (t.as_str ++ (';' :: ' ' :: rest)) =
      some (';' :: ' ' :: rest, t.as_str) :=
    rndc_ws_eval (rndc_multispace0_stop (asStr_head_stop t _)) hid
      (rndc_multispace0_stop (dropWhile_cons_self (by decide)))
  refine pFilterMap_eval (pSeq_eval hws1 (pSeq_eval hws2 (rndc_semicolon_sp hr))) ?_
  show (ZoneType.parse t.as_str).map Rndc.ZoneStatement.Type = _
  rw [zoneType_parse_asStr t]
  rfl

theorem parse_file_statement_render {f : List Char} (hq : '"' ∉ f) {rest : Input}
    (hr : rest.dropWhile isMultispace = rest) :
    Rndc.parse_file_statement ("file ".data ++ ('"' :: (f ++
      ('"' :: ';' :: ' ' :: rest)))) = some (rest, .File f) := by
  have hm2 := @rndc_multispace0_ws [' '] ('"' :: (f ++ ('"' :: ';' :: ' ' :: rest)))
    (by decide) (dropWhile_cons_self (by decide))
  have hws1 : Rndc.ws (pTag "file".data) ("file ".data ++ ('"' :: (f ++
      ('"' :: ';' :: ' ' :: rest)))) =
      some ('"' :: (f ++ ('"' :: ';' :: ' ' :: rest)), "file".data) :=
    rndc_ws_eval (rndc_multispace0_stop (dropWhile_cons_self (by decide)))
      (pTag_append "file".data (' ' :: ('"' :: (f ++ ('"' :: ';' :: ' ' :: rest))))) hm2
  have hqs : Rndc.quoted_string ('"' :: (f ++ ('"' :: ';' :: ' ' :: rest))) =
      some (';' :: ' ' :: rest, f) := by
    have htu := @pTakeUntil_single '"' f (';' :: ' ' :: rest) hq
    exact pDelimited_eval (pChar_cons '"' (f ++ ('"' :: ';' :: ' ' :: rest))) htu
      (pChar_cons '"' (';' :: ' ' :: rest))
  have hws2 : Rndc.ws Rndc.quoted_string ('"' :: (f ++ ('"' :: ';' :: ' ' :: rest))) =
      some (';' :: ' ' :: rest, f) :=
    rndc_ws_eval (rndc_multispace0_stop (dropWhile_cons_self (by decide))) hqs
      (rndc_multispace0_stop (dropWhile_cons_self (by decide)))
  exact pMap_eval (pSeq_eval hws1 (pSeq_eval hws2 (rndc_semicolon_sp hr)))

theorem parse_primaries_statement_render (l : List PrimarySpec) (hne : l ≠ [])
    (hl : ∀ p ∈ l, ipRoundTrips p.address = true ∧ ∀ pt, p.port = some pt → pt ≤ 65535)
    {rest : Input} (hr : rest.dropWhile isMultispace = rest) :
    Rndc.parse_primaries_statement ("primaries".data ++ (' ' :: '{' :: ' ' ::
      (((l.map primarySpecChars).map (fun p => p ++ "; ".data)).flatten ++
        ('\x7d' :: ';' :: ' ' :: rest)))) = some (rest, .Primaries l) := by
  have hflat : ((l.map primarySpecChars).map (fun p => p ++ "; ".data)).flatten =
      (l.map (fun p => primarySpecChars p ++ "; ".data)).flatten := by
    rw [List.map_map]
    rfl
  rw [hflat]
  have hstopitems : ((l.map (fun p => primarySpecChars p ++ "; ".data)).flatten ++
      ('\x7d' :: ';' :: ' ' :: rest)).dropWhile isMultispace =
      (l.map (fun p => primarySpecChars p ++ "; ".data)).flatten ++
        ('\x7d' :: ';' :: ' ' :: rest) :=
    primaryItems_dropWhile l (fun p hp => (hl p hp).1) (dropWhile_cons_self (by decide))
  have hm2 := @rndc_multispace0_ws [' ']
    ('{' :: ' ' :: ((l.map (fun p => primarySpecChars p ++ "; ".data)).flatten ++
      ('\x7d' :: ';' :: ' ' :: rest))) (by decide) (dropWhile_cons_self (by decide))
  have htagalt : pAlt (pTag "primaries".data) (pTag "masters".data) ("primaries".data ++
      (' ' :: '{' :: ' ' :: ((l.map (fun p => primarySpecChars p ++ "; ".data)).flatten ++
        ('\x7d' :: ';' :: ' ' :: rest)))) =
      some (' ' :: '{' :: ' ' :: ((l.map (fun p => primarySpecChars p ++
        "; ".data)).flatten ++ ('\x7d' :: ';' :: ' ' :: rest)), "primaries".data) :=
    pAlt_eval_left (pTag_append "primaries".data _)
  have hws1 := rndc_ws_eval (rndc_multispace0_stop (dropWhile_cons_self (by decide)))
    htagalt hm2
  have hm3 := @rndc_multispace0_ws [' ']
    ((l.map (fun p => primarySpecChars p ++ "; ".data)).flatten ++
      ('\x7d' :: ';' :: ' ' :: rest)) (by decide) hstopitems
  have hwslb := rndc_ws_eval (rndc_multispace0_stop (dropWhile_cons_self (by decide)))
    (pChar_cons '{' (' ' :: ((l.map (fun p => primarySpecChars p ++ "; ".data)).flatten ++
      ('\x7d' :: ';' :: ' ' :: rest)))) hm3
  have hmany := pMany0_primary_items l hl (X := ';' :: ' ' :: rest)
    (dropWhile_cons_self (by decide))
  have hwsrb := rndc_ws_eval (rndc_multispace0_stop (dropWhile_cons_self (by decide)))
    (pChar_cons '\x7d' (';' :: ' ' :: rest))
    (rndc_multispace0_stop (dropWhile_cons_self (by decide)))
  have hplist := pDelimited_eval hwslb hmany hwsrb
  exact pMap_eval (pSeq_eval hws1 (pSeq_eval hplist (rndc_semicolon_sp hr)))

theorem ip_list_render (l : List IpAddr) (hl : ∀ a ∈ l, ipRoundTrips a = true)
    {rest : Input} (hr : rest.dropWhile isMultispace = rest) :
    Rndc.ip_list ('{' :: ' ' :: ((l.map (fun a => ipToChars a ++ "; ".data)).flatten ++
      ('\x7d' :: ';' :: ' ' :: rest))) = some (';' :: ' ' :: rest, l) := by
  have hstopitems := ipItems_dropWhile l hl
    (X := '\x7d' :: ';' :: ' ' :: rest) (dropWhile_cons_self (by decide))
  have hm3 := @rndc_multispace0_ws [' ']
    ((l.map (fun a => ipToChars a ++ "; ".data)).flatten ++ ('\x7d' :: ';' :: ' ' :: rest))
    (by decide) hstopitems
  have hwslb := rndc_ws_eval (rndc_multispace0_stop (dropWhile_cons_self (by decide)))
    (pChar_cons '{' (' ' :: ((l.map (fun a => ipToChars a ++ "; ".data)).flatten ++
      ('\x7d' :: ';' :: ' ' :: rest)))) hm3
  have hmany := pMany0_ip_items l hl (X := ';' :: ' ' :: rest)
    (dropWhile_cons_self (by decide))
  have hwsrb := rndc_ws_eval (rndc_multispace0_stop (dropWhile_cons_self (by decide)))
    (pChar_cons '\x7d' (';' :: ' ' :: rest))
    (rndc_multispace0_stop (dropWhile_cons_self (by decide)))
  exact pDelimited_eval hwslb hmany hwsrb

theorem parse_also_notify_statement_render (l : List IpAddr)
    (hl : ∀ a ∈ l, ipRoundTrips a = true) {rest : Input}
    (hr : rest.dropWhile isMultispace = rest) :
    Rndc.parse_also_notify_statement ("also-notify".data ++ (' ' :: '{' :: ' ' ::
      ((l.map (fun a => ipToChars a ++ "; ".data)).flatten ++
        ('\x7d' :: ';' :: ' ' :: rest)))) = some (rest, .AlsoNotify l) := by
  have hm2 := @rndc_multispace0_ws [' ']
    ('{' :: ' ' :: ((l.map (fun a => ipToChars a ++ "; ".data)).flatten ++
      ('\x7d' :: ';' :: ' ' :: rest))) (by decide) (dropWhile_cons_self (by decide))
  have hws1 := rndc_ws_eval (rndc_multispace0_stop (dropWhile_cons_self (by decide)))
    (pTag_append "also-notify".data (' ' :: '{' :: ' ' ::
      ((l.map (fun a => ipToChars a ++ "; ".data)).flatten ++
        ('\x7d' :: ';' :: ' ' :: rest)))) hm2
  exact pMap_eval (pSeq_eval hws1 (pSeq_eval (ip_list_render l hl hr)
    (rndc_semicolon_sp hr)))

theorem parse_allow_transfer_statement_render (l : List IpAddr)
    (hl : ∀ a ∈ l, ipRoundTrips a = true) {rest : Input}
    (hr : rest.dropWhile isMultispace = rest) :
    Rndc.parse_allow_transfer_statement ("allow-transfer".data ++ (' ' :: '{' :: ' ' ::
      ((l.map (fun a => ipToChars a ++ "; ".data)).flatten ++
        ('\x7d' :: ';' :: ' ' :: rest)))) = some (rest, .AllowTransfer l) := by
  have hm2 := @rndc_multispace0_ws [' ']
    ('{' :: ' ' :: ((l.map (fun a => ipToChars a ++ "; ".data)).flatten ++
      ('\x7d' :: ';' :: ' ' :: rest))) (by decide) (dropWhile_cons_self (by decide))
  have hws1 := rndc_ws_eval (rndc_multispace0_stop (dropWhile_cons_self (by decide)))
    (pTag_append "allow-transfer".data (' ' :: '{' :: ' ' ::
      ((l.map (fun a => ipToChars a ++ "; ".data)).flatten ++
        ('\x7d' :: ';' :: ' ' :: rest)))) hm2
  exact pMap_eval (pSeq_eval hws1 (pSeq_eval (ip_list_render l hl hr)
    (rndc_semicolon_sp hr)))

theorem renderAUBody_map_ip (l : List IpAddr) :
    renderAUBody (l.map AUEntry.ip) = (l.map (fun a => ipToChars a ++ "; ".data)).flatten := by
  unfold renderAUBody
  rw [List.map_map]
  rfl

theorem any_map_ip (l : List IpAddr) : (l.map AUEntry.ip).any AUEntry.isKey = false := by
  induction l with
  | nil => rfl
  | cons a t ih => simpa [AUEntry.isKey] using ih

theorem auIps_map_ip (l : List IpAddr) : auIps (l.map AUEntry.ip) = l := by
  induction l with
  | nil => rfl
  | cons a t ih =>
    unfold auIps at ih ⊢
    simpa using ih

/-- The allow-update statement on a typed-only rendered body. -/
theorem parse_allow_update_typed_render (l : List IpAddr)
    (hl : ∀ a ∈ l, ipRoundTrips a = true) {rest : Input}
    (hr : rest.dropWhile isMultispace = rest) :
    Rndc.parse_allow_update_statement ("allow-update".data ++ (' ' :: '{' :: ' ' ::
      ((l.map (fun a => ipToChars a ++ "; ".data)).flatten ++
        ('\x7d' :: ';' :: ' ' :: rest)))) = some (rest, .AllowUpdate l) := by
  have hwf : ∀ e ∈ l.map AUEntry.ip, AUEntry.wf e := by
    intro e he
    obtain ⟨a, ha, rfl⟩ := List.mem_map.mp he
    exact hl a ha
  have h2 := parse_allow_update_render (l.map AUEntry.ip) hwf hr
  rw [renderAUBody_map_ip, any_map_ip, auIps_map_ip] at h2
  simpa using h2

/-- Dispatch through the six-way alternative of `parse_zone_statement`: every
well-formed supported statement reparses from its rendering, the earlier
alternatives failing on the literal tag mismatch. -/
theorem parse_zone_statement_render (s : Rndc.ZoneStatement) (hs : zsWf s)
    {rest : Input} (hr : rest.dropWhile isMultispace = rest) :
    Rndc.parse_zone_statement (renderZS s ++ (';' :: ' ' :: rest)) = some (rest, s) := by
  rcases s with t | f | l | l | l | l | raw | ⟨n, v⟩
  ·
    show Rndc.parse_zone_statement (("type ".data ++ t.as_str) ++ (';' :: ' ' :: rest)) =
      some (rest, .Type t)
    rw [List.append_assoc]
    unfold Rndc.parse_zone_statement
    exact pAlt_eval_left (parse_type_statement_render t hr)
  ·
    have hshape : renderZS (.File f) ++ (';' :: ' ' :: rest) =
        "file ".data ++ ('"' :: (f ++ ('"' :: ';' :: ' ' :: rest))) := by
      simp [renderZS, quotedField]
    rw [hshape]
    have hm0 : Rndc.multispace0 ("file ".data ++ ('"' :: (f ++ ('"' :: ';' :: ' ' :: rest)))) =
        some ("file ".data ++ ('"' :: (f ++ ('"' :: ';' :: ' ' :: rest))), []) :=
      rndc_multispace0_stop (dropWhile_cons_self (by decide))
    have ht1 : Rndc.parse_type_statement ("file ".data ++ ('"' :: (f ++
        ('"' :: ';' :: ' ' :: rest)))) = none :=
      pFilterMap_none (pSeq_none_left (rndc_ws_none hm0 (pTag_cons_ne (by decide))))
    unfold Rndc.parse_zone_statement
    rw [pAlt_eval_right ht1]
    exact pAlt_eval_left (parse_file_statement_render hs hr)
  ·
    obtain ⟨hne, hl⟩ := hs
    have hmapne : l.map primarySpecChars ≠ [] := by
      simpa using hne
    show Rndc.parse_zone_statement (bracePart "primaries".data (l.map primarySpecChars) ++
      (';' :: ' ' :: rest)) = some (rest, .Primaries l)
    rw [bracePart_shape _ _ hmapne]
    have hm0 : Rndc.multispace0 ("primaries".data ++ (' ' :: '{' :: ' ' ::
        (((l.map primarySpecChars).map (fun p => p ++ "; ".data)).flatten ++
          ('\x7d' :: ';' :: ' ' :: rest)))) =
        some ("primaries".data ++ (' ' :: '{' :: ' ' ::
          (((l.map primarySpecChars).map (fun p => p ++ "; ".data)).flatten ++
            ('\x7d' :: ';' :: ' ' :: rest))), []) :=
      rndc_multispace0_stop (dropWhile_cons_self (by decide))
    have ht1 : Rndc.parse_type_statement ("primaries".data ++ (' ' :: '{' :: ' ' ::
        (((l.map primarySpecChars).map (fun p => p ++ "; ".data)).flatten ++
          ('\x7d' :: ';' :: ' ' :: rest)))) = none :=
      pFilterMap_none (pSeq_none_left (rndc_ws_none hm0 (pTag_cons_ne (by decide))))
    have ht2 : Rndc.parse_file_statement ("primaries".data ++ (' ' :: '{' :: ' ' ::
        (((l.map primarySpecChars).map (fun p => p ++ "; ".data)).flatten ++
          ('\x7d' :: ';' :: ' ' :: rest)))) = none :=
      pMap_none (pSeq_none_left (rndc_ws_none hm0 (pTag_cons_ne (by decide))))
    unfold Rndc.parse_zone_statement
    rw [pAlt_eval_right ht1, pAlt_eval_right ht2]
    exact pAlt_eval_left (parse_primaries_statement_render l hne hl hr)
  ·
    obtain ⟨hne, hl⟩ := hs
    have hmapne : l.map ipToChars ≠ [] := by
      simpa using hne
    show Rndc.parse_zone_statement (bracePart "also-notify".data (l.map ipToChars) ++
      (';' :: ' ' :: rest)) = some (rest, .AlsoNotify l)
    rw [bracePart_shape _ _ hmapne]
    have hflat : (l.map ipToChars).map (fun p => p ++ "; ".data) =
        l.map (fun a => ipToChars a ++ "; ".data) := by
      rw [List.map_map]
      rfl
    rw [hflat]
    have hm0 : Rndc.multispace0 ("also-notify".data ++ (' ' :: '{' :: ' ' ::
        ((l.map (fun a => ipToChars a ++ "; ".data)).flatten ++
          ('\x7d' :: ';' :: ' ' :: rest)))) =
        some ("also-notify".data ++ (' ' :: '{' :: ' ' ::
          ((l.map (fun a => ipToChars a ++ "; ".data)).flatten ++
            ('\x7d' :: ';' :: ' ' :: rest))), []) :=
      rndc_multispace0_stop (dropWhile_cons_self (by decide))
    have ht1 : Rndc.parse_type_statement ("also-notify".data ++ (' ' :: '{' :: ' ' ::
        ((l.map (fun a => ipToChars a ++ "; ".data)).flatten ++
          ('\x7d' :: ';' :: ' ' :: rest)))) = none :=
      pFilterMap_none (pSeq_none_left (rndc_ws_none hm0 (pTag_cons_ne (by decide))))
    have ht2 : Rndc.parse_file_statement ("also-notify".data ++ (' ' :: '{' :: ' ' ::
        ((l.map (fun a => ipToChars a ++ "; ".data)).flatten ++
          ('\x7d' :: ';' :: ' ' :: rest)))) = none :=
      pMap_none (pSeq_none_left (rndc_ws_none hm0 (pTag_cons_ne (by decide))))
    have hpm : pAlt (pTag "primaries".data) (pTag "masters".data)
        ("also-notify".data ++ (' ' :: '{' :: ' ' ::
          ((l.map (fun a => ipToChars a ++ "; ".data)).flatten ++
            ('\x7d' :: ';' :: ' ' :: rest)))) = none := by rfl
    have ht3 : Rndc.parse_primaries_statement ("also-notify".data ++ (' ' :: '{' :: ' ' ::
        ((l.map (fun a => ipToChars a ++ "; ".data)).flatten ++
          ('\x7d' :: ';' :: ' ' :: rest)))) = none :=
      pMap_none (pSeq_none_left (rndc_ws_none hm0 hpm))
    unfold Rndc.parse_zone_statement
    rw [pAlt_eval_right ht1, pAlt_eval_right ht2, pAlt_eval_right ht3]
    exact pAlt_eval_left (parse_also_notify_statement_render l hl hr)
  ·
    obtain ⟨hne, hl⟩ := hs
    have hmapne : l.map ipToChars ≠ [] := by
      simpa using hne
    show Rndc.parse_zone_statement (bracePart "allow-transfer".data (l.map ipToChars) ++
      (';' :: ' ' :: rest)) = some (rest, .AllowTransfer l)
    rw [bracePart_shape _ _ hmapne]
    have hflat : (l.map ipToChars).map (fun p => p ++ "; ".data) =
        l.map (fun a => ipToChars a ++ "; ".data) := by
      rw [List.map_map]
      rfl
    rw [hflat]
    have hm0 : Rndc.multispace0 ("allow-transfer".data ++ (' ' :: '{' :: ' ' ::
        ((l.map (fun a => ipToChars a ++ "; ".data)).flatten ++
          ('\x7d' :: ';' :: ' ' :: rest)))) =
        some ("allow-transfer".data ++ (' ' :: '{' :: ' ' ::
          ((l.map (fun a => ipToChars a ++ "; ".data)).flatten ++
            ('\x7d' :: ';' :: ' ' :: rest))), []) :=
      rndc_multispace0_stop (dropWhile_cons_self (by decide))
    have ht1 : Rndc.parse_type_statement ("allow-transfer".data ++ (' ' :: '{' :: ' ' ::
        ((l.map (fun a => ipToChars a ++ "; ".data)).flatten ++
          ('\x7d' :: ';' :: ' ' :: rest)))) = none :=
      pFilterMap_none (pSeq_none_left (rndc_ws_none hm0 (pTag_cons_ne (by decide))))
    have ht2 : Rndc.parse_file_statement ("allow-transfer".data ++ (' ' :: '{' :: ' ' ::
        ((l.map (fun a => ipToChars a ++ "; ".data)).flatten ++
          ('\x7d' :: ';' :: ' ' :: rest)))) = none :=
      pMap_none (pSeq_none_left (rndc_ws_none hm0 (pTag_cons_ne (by decide))))
    have hpm : pAlt (pTag "primaries".data) (pTag "masters".data)
        ("allow-transfer".data ++ (' ' :: '{' :: ' ' ::
          ((l.map (fun a => ipToChars a ++ "; ".data)).flatten ++
            ('\x7d' :: ';' :: ' ' :: rest)))) = none := by rfl
    have ht3 : Rndc.parse_primaries_statement ("allow-transfer".data ++ (' ' :: '{' :: ' ' ::
        ((l.map (fun a => ipToChars a ++ "; ".data)).flatten ++
          ('\x7d' :: ';' :: ' ' :: rest)))) = none :=
      pMap_none (pSeq_none_left (rndc_ws_none hm0 hpm))
    have ht4 : pTag "also-notify".data ("allow-transfer".data ++ (' ' :: '{' :: ' ' ::
        ((l.map (fun a => ipToChars a ++ "; ".data)).flatten ++
          ('\x7d' :: ';' :: ' ' :: rest)))) = none := by rfl
    have ht4w : Rndc.parse_also_notify_statement ("allow-transfer".data ++
        (' ' :: '{' :: ' ' :: ((l.map (fun a => ipToChars a ++ "; ".data)).flatten ++
          ('\x7d' :: ';' :: ' ' :: rest)))) = none :=
      pMap_none (pSeq_none_left (rndc_ws_none hm0 ht4))
    unfold Rndc.parse_zone_statement
    rw [pAlt_eval_right ht1, pAlt_eval_right ht2, pAlt_eval_right ht3,
      pAlt_eval_right ht4w]
    exact pAlt_eval_left (parse_allow_transfer_statement_render l hl hr)
  ·
    obtain ⟨hne, hl⟩ := hs
    have hmapne : l.map ipToChars ≠ [] := by
      simpa using hne
    show Rndc.parse_zone_statement (bracePart "allow-update".data (l.map ipToChars) ++
      (';' :: ' ' :: rest)) = some (rest, .AllowUpdate l)
    rw [bracePart_shape _ _ hmapne]
    have hflat : (l.map ipToChars).map (fun p => p ++ "; ".data) =
        l.map (fun a => ipToChars a ++ "; ".data) := by
      rw [List.map_map]
      rfl
    rw [hflat]
    have hm0 : Rndc.multispace0 ("allow-update".data ++ (' ' :: '{' :: ' ' ::
        ((l.map (fun a => ipToChars a ++ "; ".data)).flatten ++
          ('\x7d' :: ';' :: ' ' :: rest)))) =
        some ("allow-update".data ++ (' ' :: '{' :: ' ' ::
          ((l.map (fun a => ipToChars a ++ "; ".data)).flatten ++
            ('\x7d' :: ';' :: ' ' :: rest))), []) :=
      rndc_multispace0_stop (dropWhile_cons_self (by decide))
    have ht1 : Rndc.parse_type_statement ("allow-update".data ++ (' ' :: '{' :: ' ' ::
        ((l.map (fun a => ipToChars a ++ "; ".data)).flatten ++
          ('\x7d' :: ';' :: ' ' :: rest)))) = none :=
      pFilterMap_none (pSeq_none_left (rndc_ws_none hm0 (pTag_cons_ne (by decide))))
    have ht2 : Rndc.parse_file_statement ("allow-update".data ++ (' ' :: '{' :: ' ' ::
        ((l.map (fun a => ipToChars a ++ "; ".data)).flatten ++
          ('\x7d' :: ';' :: ' ' :: rest)))) = none :=
      pMap_none (pSeq_none_left (rndc_ws_none hm0 (pTag_cons_ne (by decide))))
    have hpm : pAlt (pTag "primaries".data) (pTag "masters".data)
        ("allow-update".data ++ (' ' :: '{' :: ' ' ::
          ((l.map (fun a => ipToChars a ++ "; ".data)).flatten ++
            ('\x7d' :: ';' :: ' ' :: rest)))) = none := by rfl
    have ht3 : Rndc.parse_primaries_statement ("allow-update".data ++ (' ' :: '{' :: ' ' ::
        ((l.map (fun a => ipToChars a ++ "; ".data)).flatten ++
          ('\x7d' :: ';' :: ' ' :: rest)))) = none :=
      pMap_none (pSeq_none_left (rndc_ws_none hm0 hpm))
    have ht4 : pTag "also-notify".data ("allow-update".data ++ (' ' :: '{' :: ' ' ::
        ((l.map (fun a => ipToChars a ++ "; ".data)).flatten ++
          ('\x7d' :: ';' :: ' ' :: rest)))) = none := by rfl
    have ht4w : Rndc.parse_also_notify_statement ("allow-update".data ++
        (' ' :: '{' :: ' ' :: ((l.map (fun a => ipToChars a ++ "; ".data)).flatten ++
          ('\x7d' :: ';' :: ' ' :: rest)))) = none :=
      pMap_none (pSeq_none_left (rndc_ws_none hm0 ht4))
    have ht5 : pTag "allow-transfer".data ("allow-update".data ++ (' ' :: '{' :: ' ' ::
        ((l.map (fun a => ipToChars a ++ "; ".data)).flatten ++
          ('\x7d' :: ';' :: ' ' :: rest)))) = none := by rfl
    have ht5w : Rndc.parse_allow_transfer_statement ("allow-update".data ++
        (' ' :: '{' :: ' ' :: ((l.map (fun a => ipToChars a ++ "; ".data)).flatten ++
          ('\x7d' :: ';' :: ' ' :: rest)))) = none :=
      pMap_none (pSeq_none_left (rndc_ws_none hm0 ht5))
    unfold Rndc.parse_zone_statement
    rw [pAlt_eval_right ht1, pAlt_eval_right ht2, pAlt_eval_right ht3,
      pAlt_eval_right ht4w, pAlt_eval_right ht5w]
    exact pAlt_eval_left (parse_allow_update_typed_render l hl hr)
  · exact hs.elim
  · exact hs.elim

theorem renderStmts_dropWhile (ss : List Rndc.ZoneStatement) (h : ∀ s ∈ ss, zsWf s)
    {X : Input} (hX : X.dropWhile isMultispace = X) :
    (renderStmts ss ++ X).dropWhile isMultispace = renderStmts ss ++ X := by
  induction ss with
  | nil => simpa [renderStmts] using hX
  | cons s t ih =>
    have hs := h s (List.mem_cons_self s t)
    have hshape : renderStmts (s :: t) ++ X =
        renderZS s ++ (';' :: ' ' :: (renderStmts t ++ X)) := by
      simp [renderStmts, List.append_assoc]
    rw [hshape]
    rcases s with t0 | f | l | l | l | l | raw | ⟨n, v⟩
    all_goals simp only [renderZS, bracePart, quotedField]
    all_goals first
      | exact hs.elim
      | exact dropWhile_cons_self (by decide)

theorem pMany0_zone_render (ss : List Rndc.ZoneStatement) (h : ∀ s ∈ ss, zsWf s)
    {X : Input} (hX : X.dropWhile isMultispace = X)
    (hstop : Rndc.parse_zone_statement X = none) :
    pMany0 Rndc.parse_zone_statement (renderStmts ss ++ X) = some (X, ss) := by
  induction ss with
  | nil => simpa [renderStmts] using pMany0_eval_nil hstop
  | cons s t ih =>
    have hs := h s (List.mem_cons_self s t)
    have ht : ∀ q ∈ t, zsWf q := fun q hq => h q (List.mem_cons_of_mem s hq)
    have htail : (renderStmts t ++ X).dropWhile isMultispace = renderStmts t ++ X :=
      renderStmts_dropWhile t ht hX
    have hshape : renderStmts (s :: t) ++ X =
        renderZS s ++ (';' :: ' ' :: (renderStmts t ++ X)) := by
      simp [renderStmts, List.append_assoc]
    rw [hshape]
    refine pMany0_eval_cons (parse_zone_statement_render s hs htail) ?_ (ih ht)
    simp only [List.length_append, List.length_cons]
    omega

theorem stmtsOf_wf (cfg : ZoneConfig) (h2 : supportedFieldsWf cfg) :
    ∀ s ∈ stmtsOf cfg, zsWf s := by
  obtain ⟨hzn, hfile, hprim, halso, htr, hau⟩ := h2
  intro s hs
  unfold stmtsOf at hs
  simp only [List.mem_append, List.mem_cons, List.not_mem_nil, or_false,
    List.mem_map, Option.mem_toList, Option.mem_def] at hs
  rcases hs with ((((hs | ⟨f, hf, rfl⟩) | ⟨l, hl, rfl⟩) | ⟨l, hl, rfl⟩) | ⟨l, hl, rfl⟩) | ⟨l, hl, rfl⟩
  · subst hs; trivial
  · exact hfile f hf
  · exact hprim l hl
  · exact halso l hl
  · exact htr l hl
  · exact hau l hl

theorem toRndcParts_stmts (cfg : ZoneConfig) (h1 : supportedFieldsOnly cfg)
    (h2 : supportedFieldsWf cfg) :
    toRndcParts cfg = (stmtsOf cfg).map renderZS := by
  obtain ⟨hn, haq, har, hauf, han, h6, h7, h8, h9, h10, h11, h12, h13, h14, h15, h16,
    h17, h18, h19, h20, h21, h22, h23, h24, h25, h26, h27, h28, h29, h30, h31, h32,
    h33, h34, h35, hro⟩ := h1
  obtain ⟨hzn, hfile, hprim, halso, htr, hau⟩ := h2
  unfold toRndcParts stmtsOf allowUpdatePart
  rw [hn, haq, har, hauf, han, h6, h7, h8, h9, h10, h11, h12, h13, h14, h15, h16,
    h17, h18, h19, h20, h21, h22, h23, h24, h25, h26, h27, h28, h29, h30, h31, h32,
    h33, h34, h35, hro]
  simp only [optPart, ipListParts, List.map_nil, List.append_nil, List.nil_append,
    Option.toList_none, List.map_append, List.map_cons, Option.toList_some]
  congr 1
  congr 1
  congr 1
  congr 1
  congr 1
  · cases cfg.file <;> rfl
  · cases hp : cfg.primaries with
    | none => rfl
    | some l =>
      have hne := (hprim l hp).1
      have hie : l.isEmpty = false := by
        cases l
        · exact absurd rfl hne
        · rfl
      simp [hie, renderZS]
  · cases ha : cfg.also_notify with
    | none => rfl
    | some l =>
      have hne := (halso l ha).1
      have hie : l.isEmpty = false := by
        cases l
        · exact absurd rfl hne
        · rfl
      simp [hie, renderZS]
  · cases hat : cfg.allow_transfer with
    | none => rfl
    | some l =>
      have hne := (htr l hat).1
      have hie : l.isEmpty = false := by
        cases l
        · exact absurd rfl hne
        · rfl
      simp [hie, renderZS]
  · cases hu : cfg.allow_update with
    | none => rfl
    | some l =>
      have hne := (hau l hu).1
      have hie : l.isEmpty = false := by
        cases l
        · exact absurd rfl hne
        · rfl
      simp [hie, renderZS]

theorem foldl_optFile (o : Option (List Char)) (b : ZoneConfig) :
    (o.toList.map Rndc.ZoneStatement.File).foldl Rndc.applyZoneStatement b =
      { b with file := o.or b.file } := by
  cases o <;> rfl

theorem foldl_optPrimaries (o : Option (List PrimarySpec)) (b : ZoneConfig) :
    (o.toList.map Rndc.ZoneStatement.Primaries).foldl Rndc.applyZoneStatement b =
      { b with primaries := o.or b.primaries } := by
  cases o <;> rfl

theorem foldl_optAlsoNotify (o : Option (List IpAddr)) (b : ZoneConfig) :
    (o.toList.map Rndc.ZoneStatement.AlsoNotify).foldl Rndc.applyZoneStatement b =
      { b with also_notify := o.or b.also_notify } := by
  cases o <;> rfl

theorem foldl_optAllowTransfer (o : Option (List IpAddr)) (b : ZoneConfig) :
    (o.toList.map Rndc.ZoneStatement.AllowTransfer).foldl Rndc.applyZoneStatement b =
      { b with allow_transfer := o.or b.allow_transfer } := by
  cases o <;> rfl

theorem foldl_optAllowUpdate (o : Option (List IpAddr)) (b : ZoneConfig) :
    (o.toList.map Rndc.ZoneStatement.AllowUpdate).foldl Rndc.applyZoneStatement b =
      { b with allow_update := o.or b.allow_update } := by
  cases o <;> rfl

theorem foldl_stmtsOf (cfg : ZoneConfig) (h1 : supportedFieldsOnly cfg) :
    (stmtsOf cfg).foldl Rndc.applyZoneStatement
      { ZoneConfig.new cfg.zone_name .Primary with class_ := cfg.class_ } = cfg := by
  obtain ⟨hn, haq, har, hauf, han, h6, h7, h8, h9, h10, h11, h12, h13, h14, h15, h16,
    h17, h18, h19, h20, h21, h22, h23, h24, h25, h26, h27, h28, h29, h30, h31, h32,
    h33, h34, h35, hro⟩ := h1
  unfold stmtsOf
  rw [List.foldl_append, List.foldl_append, List.foldl_append, List.foldl_append,
    List.foldl_append]
  rw [foldl_optFile, foldl_optPrimaries, foldl_optAlsoNotify, foldl_optAllowTransfer,
    foldl_optAllowUpdate]
  ext
  all_goals simp [ZoneConfig.new, List.foldl_cons, List.foldl_nil, Rndc.applyZoneStatement,
    Option.or_none, hn, haq, har, hauf, han, h6, h7, h8, h9, h10, h11, h12, h13, h14,
    h15, h16, h17, h18, h19, h20, h21, h22, h23, h24, h25, h26, h27, h28, h29, h30,
    h31, h32, h33, h34, h35, hro]

theorem cls_opt_eval (c : DnsClass) {X : Input} (hX : X.dropWhile isMultispace = X) :
    pOpt (Rndc.ws (pAlt (pTag "IN".data) (pAlt (pTag "CH".data) (pTag "HS".data))))
      (c.as_str ++ (' ' :: X)) = some (X, some c.as_str) := by
  have hm2 := @rndc_multispace0_ws [' '] X (by decide) hX
  cases c
  · exact pOpt_eval_some (rndc_ws_eval
      (rndc_multispace0_stop (dropWhile_cons_self (by decide)))
      (pAlt_eval_left (pTag_append "IN".data (' ' :: X))) hm2)
  · refine pOpt_eval_some (rndc_ws_eval
      (rndc_multispace0_stop (dropWhile_cons_self (by decide))) ?_ hm2)
    show pAlt (pTag "IN".data) (pAlt (pTag "CH".data) (pTag "HS".data))
      ("CH".data ++ (' ' :: X)) = some (' ' :: X, "CH".data)
    rw [pAlt_eval_right (show pTag "IN".data ("CH".data ++ (' ' :: X)) = none from rfl)]
    exact pAlt_eval_left (pTag_append "CH".data (' ' :: X))
  · refine pOpt_eval_some (rndc_ws_eval
      (rndc_multispace0_stop (dropWhile_cons_self (by decide))) ?_ hm2)
    show pAlt (pTag "IN".data) (pAlt (pTag "CH".data) (pTag "HS".data))
      ("HS".data ++ (' ' :: X)) = some (' ' :: X, "HS".data)
    rw [pAlt_eval_right (show pTag "IN".data ("HS".data ++ (' ' :: X)) = none from rfl)]
    rw [pAlt_eval_right (show pTag "CH".data ("HS".data ++ (' ' :: X)) = none from rfl)]
    exact pTag_append "HS".data (' ' :: X)

theorem cls_if_eval (c : DnsClass) :
    (if some c.as_str = some "IN".data then DnsClass.IN
     else if some c.as_str = some "CH".data then DnsClass.CH
     else if some c.as_str = some "HS".data then DnsClass.HS
     else DnsClass.IN) = c := by
  cases c <;> rfl

/-- C1 (amended): a configuration populating only the fields the showzone
statement parser supports, with well-formed values, round-trips through
`to_rndc_block` and `parse_showzone` exactly. -/
theorem C1_amended (cfg : ZoneConfig) (h1 : supportedFieldsOnly cfg)
    (h2 : supportedFieldsWf cfg) :
    Rndc.parse_showzone (zoneHeader cfg ++ cfg.to_rndc_block) = .ok cfg := by
  have hw : ∀ s ∈ stmtsOf cfg, zsWf s := stmtsOf_wf cfg h2
  have hzname : '"' ∉ cfg.zone_name := h2.1
  have hsne : (stmtsOf cfg).map renderZS ≠ [] := by simp [stmtsOf]
  have hj : joinSep "; ".data ((stmtsOf cfg).map renderZS) ++ "; \x7d;".data =
      renderStmts (stmtsOf cfg) ++ ('\x7d' :: ';' :: []) := by
    rw [show ("; \x7d;".data : List Char) = "; ".data ++ ('\x7d' :: ';' :: []) from rfl]
    rw [← List.append_assoc]
    rw [joinSep_flatten "; ".data _ hsne]
    unfold renderStmts
    rw [List.map_map]
    rfl
  have hinput : zoneHeader cfg ++ cfg.to_rndc_block =
      "zone \"".data ++ (cfg.zone_name ++ ('"' :: ' ' :: (cfg.class_.as_str ++
        (' ' :: '{' :: ' ' :: (renderStmts (stmtsOf cfg) ++ ('\x7d' :: ';' :: [])))))) := by
    unfold zoneHeader ZoneConfig.to_rndc_block
    rw [toRndcParts_stmts cfg h1 h2]
    rw [List.append_assoc ("\x7b ".data)]
    rw [hj]
    simp only [List.append_assoc]
    rfl
  have hin0 : (zoneHeader cfg ++ cfg.to_rndc_block).dropWhile isMultispace =
      zoneHeader cfg ++ cfg.to_rndc_block := by
    rw [hinput]
    exact dropWhile_cons_self (by decide)
  have htrim : trimChars (zoneHeader cfg ++ cfg.to_rndc_block) =
      zoneHeader cfg ++ cfg.to_rndc_block := by
    refine trimChars_eq_self hin0 (dropWhileEnd_eq_self ?_)
    intro c hc
    have hlast : (zoneHeader cfg ++ cfg.to_rndc_block).getLast? = some ';' := by
      rw [List.getLast?_append]
      unfold ZoneConfig.to_rndc_block
      rw [List.getLast?_append]
      rfl
    rw [hlast] at hc
    injection hc with hc
    rw [← hc]
    decide
  have hstop : Rndc.parse_zone_statement ('\x7d' :: ';' :: []) = none := by rfl
  have hr2 : ('\x7d' :: ';' :: ([] : List Char)).dropWhile isMultispace =
      '\x7d' :: ';' :: [] := dropWhile_cons_self (by decide)
  have hmany : pMany0 Rndc.parse_zone_statement (renderStmts (stmtsOf cfg) ++ ('\x7d' :: ';' :: [])) =
      some ('\x7d' :: ';' :: [], stmtsOf cfg) :=
    pMany0_zone_render (stmtsOf cfg) hw hr2 hstop
  have hbody : ((renderStmts (stmtsOf cfg) ++ ('\x7d' :: ';' :: []))).dropWhile isMultispace = (renderStmts (stmtsOf cfg) ++ ('\x7d' :: ';' :: [])) :=
    renderStmts_dropWhile (stmtsOf cfg) hw hr2
  have hclsstop : (cfg.class_.as_str ++ (' ' :: '{' :: ' ' :: (renderStmts (stmtsOf cfg) ++ ('\x7d' :: ';' :: [])))).dropWhile
      isMultispace = cfg.class_.as_str ++ (' ' :: '{' :: ' ' :: (renderStmts (stmtsOf cfg) ++ ('\x7d' :: ';' :: []))) := by
    cases hcc : cfg.class_
    all_goals exact dropWhile_cons_self (by decide)
  have hwszone : Rndc.ws (pTag "zone".data) ("zone \"".data ++ (cfg.zone_name ++
      ('"' :: ' ' :: (cfg.class_.as_str ++ (' ' :: '{' :: ' ' :: (renderStmts (stmtsOf cfg) ++ ('\x7d' :: ';' :: []))))))) =
      some ('"' :: (cfg.zone_name ++ ('"' :: ' ' :: (cfg.class_.as_str ++
        (' ' :: '{' :: ' ' :: (renderStmts (stmtsOf cfg) ++ ('\x7d' :: ';' :: [])))))), "zone".data) := by
    have hm2 := @rndc_multispace0_ws [' ']
      ('"' :: (cfg.zone_name ++ ('"' :: ' ' :: (cfg.class_.as_str ++
        (' ' :: '{' :: ' ' :: (renderStmts (stmtsOf cfg) ++ ('\x7d' :: ';' :: [])))))))
      (by decide) (dropWhile_cons_self (by decide))
    exact rndc_ws_eval (rndc_multispace0_stop (dropWhile_cons_self (by decide)))
      (pTag_append "zone".data (' ' :: ('"' :: (cfg.zone_name ++ ('"' :: ' ' ::
        (cfg.class_.as_str ++ (' ' :: '{' :: ' ' :: (renderStmts (stmtsOf cfg) ++ ('\x7d' :: ';' :: []))))))))) hm2
  have hqs : Rndc.quoted_string ('"' :: (cfg.zone_name ++ ('"' :: ' ' ::
      (cfg.class_.as_str ++ (' ' :: '{' :: ' ' :: (renderStmts (stmtsOf cfg) ++ ('\x7d' :: ';' :: []))))))) =
      some (' ' :: (cfg.class_.as_str ++ (' ' :: '{' :: ' ' :: (renderStmts (stmtsOf cfg) ++ ('\x7d' :: ';' :: [])))), cfg.zone_name) := by
    have htu := @pTakeUntil_single '"' cfg.zone_name
      (' ' :: (cfg.class_.as_str ++ (' ' :: '{' :: ' ' :: (renderStmts (stmtsOf cfg) ++ ('\x7d' :: ';' :: []))))) hzname
    exact pDelimited_eval (pChar_cons '"' (cfg.zone_name ++ ('"' :: ' ' ::
        (cfg.class_.as_str ++ (' ' :: '{' :: ' ' :: (renderStmts (stmtsOf cfg) ++ ('\x7d' :: ';' :: []))))))) htu
      (pChar_cons '"' (' ' :: (cfg.class_.as_str ++ (' ' :: '{' :: ' ' :: (renderStmts (stmtsOf cfg) ++ ('\x7d' :: ';' :: []))))))
  have hwsname : Rndc.ws Rndc.quoted_string ('"' :: (cfg.zone_name ++ ('"' :: ' ' ::
      (cfg.class_.as_str ++ (' ' :: '{' :: ' ' :: (renderStmts (stmtsOf cfg) ++ ('\x7d' :: ';' :: []))))))) =
      some (cfg.class_.as_str ++ (' ' :: '{' :: ' ' :: (renderStmts (stmtsOf cfg) ++ ('\x7d' :: ';' :: []))), cfg.zone_name) := by
    have hm2 := @rndc_multispace0_ws [' ']
      (cfg.class_.as_str ++ (' ' :: '{' :: ' ' :: (renderStmts (stmtsOf cfg) ++ ('\x7d' :: ';' :: [])))) (by decide) hclsstop
    exact rndc_ws_eval (rndc_multispace0_stop (dropWhile_cons_self (by decide))) hqs hm2
  have hopt : pOpt (Rndc.ws (pAlt (pTag "IN".data) (pAlt (pTag "CH".data)
      (pTag "HS".data)))) (cfg.class_.as_str ++ (' ' :: '{' :: ' ' :: (renderStmts (stmtsOf cfg) ++ ('\x7d' :: ';' :: [])))) =
      some ('{' :: ' ' :: (renderStmts (stmtsOf cfg) ++ ('\x7d' :: ';' :: [])), some cfg.class_.as_str) :=
    cls_opt_eval cfg.class_ (dropWhile_cons_self (by decide))
  have hwslb : Rndc.ws (pChar '{') ('{' :: ' ' :: (renderStmts (stmtsOf cfg) ++ ('\x7d' :: ';' :: []))) = some ((renderStmts (stmtsOf cfg) ++ ('\x7d' :: ';' :: [])), '{') := by
    have hm2 := @rndc_multispace0_ws [' '] (renderStmts (stmtsOf cfg) ++ ('\x7d' :: ';' :: [])) (by decide) hbody
    exact rndc_ws_eval (rndc_multispace0_stop (dropWhile_cons_self (by decide)))
      (pChar_cons '{' (' ' :: (renderStmts (stmtsOf cfg) ++ ('\x7d' :: ';' :: [])))) hm2
  have hwsrb : Rndc.ws (pTag "\x7d;".data) ('\x7d' :: ';' :: []) =
      some ([], "\x7d;".data) := by
    have hm2 : Rndc.multispace0 ([] : List Char) = some ([], []) :=
      rndc_multispace0_stop (by rfl)
    exact rndc_ws_eval (rndc_multispace0_stop hr2)
      (show pTag "\x7d;".data ('\x7d' :: ';' :: []) = some ([], "\x7d;".data) from rfl)
      hm2
  have hdel : pDelimited (Rndc.ws (pChar '{')) (pMany0 Rndc.parse_zone_statement)
      (Rndc.ws (pTag "\x7d;".data)) ('{' :: ' ' :: (renderStmts (stmtsOf cfg) ++ ('\x7d' :: ';' :: []))) = some ([], stmtsOf cfg) :=
    pDelimited_eval hwslb hmany hwsrb
  unfold Rndc.parse_showzone
  rw [htrim, hinput]
  unfold Rndc.parse_zone_config_internal
  simp only [hwszone, hwsname, hopt, hdel]
  rw [cls_if_eval cfg.class_]
  rw [foldl_stmtsOf cfg h1]

set_option maxRecDepth 10000 in
/-- Witness for the amended C1: the concrete configuration satisfies both
side conditions and round-trips through serialization and parsing. -/
theorem C1_witness :
    supportedFieldsOnly c1wit ∧ supportedFieldsWf c1wit ∧
    Rndc.parse_showzone (zoneHeader c1wit ++ c1wit.to_rndc_block) = .ok c1wit := by
  have hso : supportedFieldsOnly c1wit :=
    ⟨rfl, rfl, rfl, rfl, rfl, rfl, rfl, rfl, rfl, rfl, rfl, rfl, rfl, rfl, rfl, rfl,
     rfl, rfl, rfl, rfl, rfl, rfl, rfl, rfl, rfl, rfl, rfl, rfl, rfl, rfl, rfl, rfl,
     rfl, rfl, rfl, rfl⟩
  have hwf : supportedFieldsWf c1wit := by
    refine ⟨by decide, ?_, ?_, ?_, ?_, ?_⟩
    · intro f hf
      injection hf with hf
      subst hf
      decide
    · intro l hl
      injection hl with hl
      subst hl
      refine ⟨by decide, ?_⟩
      intro p hp
      simp only [List.mem_cons, List.not_mem_nil, or_false] at hp
      rcases hp with rfl | rfl
      · exact ⟨by decide, fun pt hpt => Option.noConfusion hpt⟩
      · refine ⟨by decide, ?_⟩
        intro pt hpt
        injection hpt with h
        omega
    · intro l hl
      injection hl with hl
      subst hl
      refine ⟨by decide, ?_⟩
      intro a ha
      simp only [List.mem_cons, List.not_mem_nil, or_false] at ha
      subst ha
      decide
    · intro l hl
      injection hl with hl
      subst hl
      refine ⟨by decide, ?_⟩
      intro a ha
      simp only [List.mem_cons, List.not_mem_nil, or_false] at ha
      subst ha
      decide
    · intro l hl
      injection hl with hl
      subst hl
      refine ⟨by decide, ?_⟩
      intro a ha
      simp only [List.mem_cons, List.not_mem_nil, or_false] at ha
      rcases ha with rfl | rfl
      · decide
      · decide
  exact ⟨hso, hwf, C1_amended c1wit hso hwf⟩

end Bindcar
